import Mathlib

set_option linter.unusedSectionVars false

/-!
# VIB34D audio-to-parameter pipeline: a shallow embedding

The development embeds five source files of the repository:

* `src/src/choreography/ChoreographyEngine.js`  (namespace `ChoreographyEngine`)
* `src/src/audio/ADSREnvelope.js`               (namespaces `ADSREnvelope`, `ADSRPresets`)
* `src/src/audio/ParameterMapper.js`            (namespace `ParameterMapper`)
* `src/src/audio/AudioAnalyzer.js`              (namespace `AudioAnalyzer`)
* `src/src/audio/AdvancedAudioAnalyzer.js`      (namespace `AdvancedAudioAnalyzer`:
  the methods `analyzeMelodicContour` and `analyzeFrequencyBalance`)

## Conventions

* A JavaScript number is an element of a linearly ordered field `α` that has a
  floor function (`ℚ` for evaluation, `ℝ` for statements about all reals).
  Arithmetic is exact: rounding, overflow and infinities of IEEE doubles are
  outside the model.  The one exception is the rounded reading of
  `ADSREnvelope.update` (`updateRounded`), which applies a rounding function
  to the result of every arithmetic operation; `roundDouble` is the rounding
  of doubles.
* A slot that can hold `undefined` or `NaN` is an `Option α`; `none` stands for
  both (arithmetic on `undefined` yields `NaN`, and `NaN` is absorbing for
  every operation the embedded code applies to it).
* A JavaScript object with string keys is a function from `String`; only own
  keys are modelled (no prototype chain).
* Numeric fields of the input records hold numbers; `null`, strings and other
  non-numeric values in their place are outside the model.
* The functions of the host `Math` object that are not field operations
  (`sin`, `cos`, `pow`, `log10`, `exp`, `PI`, `random`) are the fields of a
  record `JSMath α` that every embedded function receives; `realMath`
  instantiates it with the real functions.
* `Math.sqrt`, which only the analyzer calls, is an explicit argument of the
  analyzer functions that use it; `Math.round(x)` is `⌊x + 1/2⌋`.
* `Date.now()` readings are explicit arguments.
* A `Uint8Array` of length `binCount` is a function `ℕ → ℕ` read below
  `binCount`; a read at any other index is `undefined`.
* Methods that mutate `this` take the object and return the new object
  (paired with the return value when there is one).
* A loop body that the source writes inline is a definition of its own when
  a statement refers to it (`mapEntry`, `smoothBand`, `rolloffScan`,
  `intervals`); a loop runs for exactly the number of passes the source makes.
* Not embedded: `MappingPresets`, `loadPreset`, `setMapping`,
  `setMappingEnabled` and the `getDebugInfo` methods.
-/

namespace VIB34D

/-! ## JavaScript numbers -/

section Numbers

variable {α : Type} [LinearOrderedField α] [FloorRing α]

/-- The integer part of a number, rounding toward zero (what `%` uses). -/
def trunc (x : α) : ℤ := if 0 ≤ x then ⌊x⌋ else ⌈x⌉

/-- The remainder operator `a % b` on numbers: the result has the sign of the
dividend, `a - b * trunc (a / b)`.  (For `b = 0` JavaScript yields `NaN`; the
embedded code only divides by non-zero constants.) -/
def jsMod (a b : α) : α := a - b * (trunc (a / b) : α)

/-- The idiom `x || d` for an optional numeric field: `d` replaces a missing
value and also the falsy number `0`. -/
def orDefault (x : Option α) (d : α) : α :=
  match x with
  | some v => if v = 0 then d else v
  | none => d

/-- Truthiness of an optional numeric field (`undefined` and `0` are falsy). -/
def truthy (x : Option α) : Bool :=
  match x with
  | some v => decide (v ≠ 0)
  | none => false

/-- Rounding of a number to the nearest integer, a tie going to the even
neighbour. -/
def roundHalfEven (x : α) : ℤ :=
  let lower := ⌊x⌋
  let rest := x - (lower : α)
  if rest < 1 / 2 then lower
  else if 1 / 2 < rest then lower + 1
  else if lower % 2 = 0 then lower
  else lower + 1

/-- The rounding that every arithmetic operation on doubles ends with (IEEE
754 binary64, round to nearest, ties to even): a non-zero `x` with `2 ^ k ≤ |x|
< 2 ^ (k + 1)` is rounded to the nearest multiple of `2 ^ (k - 52)`.  The
exponent is unbounded: overflow to `Infinity` and the subnormal numbers are
outside the model. -/
def roundDouble (x : α) : α :=
  if x = 0 then 0
  else
    let exponent := Int.log 2 |x| - 52
    (roundHalfEven (x / (2 : α) ^ exponent) : α) * (2 : α) ^ exponent

end Numbers

/-- The part of the host `Math` object the pipeline uses that is not field
arithmetic.  `random n` is the value returned by the `n`-th call of
`Math.random()` (calls are numbered from `0`). -/
structure JSMath (α : Type) where
  sin : α → α
  cos : α → α
  pi : α
  pow : α → α → α
  log10 : α → α
  exp : α → α
  random : ℕ → α

/-- The `Math` object over the reals, for a given stream of `Math.random()`
results.  `pow` is the real power and `log10` the real logarithm to base `10`;
they agree with the host functions wherever those return a finite number
(the host returns `NaN` for a negative base with a fractional exponent and
for the logarithm of a negative number, and `-Infinity` for `log10(0)`). -/
noncomputable def realMath (random : ℕ → ℝ) : JSMath ℝ where
  sin := Real.sin
  cos := Real.cos
  pi := Real.pi
  pow := fun x y => x ^ y
  log10 := fun x => Real.log x / Real.log 10
  exp := Real.exp
  random := random

/-- A parameter object read by key: `none` is `undefined` or `NaN`. -/
abbrev Params (α : Type) := String → Option α

/-- An object literal that is merged into a parameter object: the outer
`Option` says whether the key is present, the inner one is the value. -/
abbrev Overrides (α : Type) := String → Option (Option α)

/-- The builtin `Object.assign(target, source)`. -/
def assign {α : Type} (target : Params α) (source : Overrides α) : Params α :=
  fun k =>
    match source k with
    | some v => v
    | none => target k


namespace ChoreographyEngine

section Clamp

variable {α : Type} [LinearOrderedField α] [FloorRing α]

/-- The table `ranges` inside `clampParameter`: `(min, max)` per name. -/
def ranges (param : String) : Option (α × α) :=
  if param = "geometry" then some (0, 7)
  else if param = "gridDensity" then some (5, 100)
  else if param = "morphFactor" then some (0, 2)
  else if param = "chaos" then some (0, 1)
  else if param = "speed" then some (0.1, 3)
  else if param = "hue" then some (0, 360)
  else if param = "intensity" then some (0, 1)
  else if param = "saturation" then some (0, 1)
  else if param = "rot4dXW" then some (-6.28, 6.28)
  else if param = "rot4dYW" then some (-6.28, 6.28)
  else if param = "rot4dZW" then some (-6.28, 6.28)
  else none

/-- The method `clampParameter(param, value)`. -/
def clampParameter (param : String) (value : α) : α :=
  let value :=
    match (ranges param : Option (α × α)) with
    | some (lo, hi) => max lo (min hi value)
    | none => value
  if param = "hue" then jsMod (jsMod value 360 + 360) 360 else value

end Clamp

/-- One entry of `audioMapping`: `{ source, amount, mode, enabled }`
(`enabled` is absent from the constructor's entries). -/
structure AudioMapping (α : Type) where
  source : String
  amount : α
  mode : String
  enabled : Option Bool := none

/-- The feature vector as `update` reads it.  `bass`, `mid`, `high` are
`audioData.bands?.<band>?.value`; `onsetDetected` is
`audioData.onset && audioData.onset.detected` (false when there is no onset
record). -/
structure AudioData (α : Type) where
  bass : Option α := none
  mid : Option α := none
  high : Option α := none
  rms : Option α := none
  spectralCentroid : Option α := none
  onsetDetected : Bool := false
  bpm : Option α := none

/-- The `config` object of a pattern application (`{}` when omitted). -/
structure PatternConfig (α : Type) where
  frequency : Option α := none
  amplitude : Option α := none
  speed : Option α := none
  amount : Option α := none
  count : Option α := none
  interval : Option α := none
  dropPoint : Option α := none
  recovery : Option α := none
  intensity : Option α := none

/-- A pattern application `{ type, config }`. -/
structure Pattern (α : Type) where
  type : String
  config : PatternConfig α := {}

/-- The `beatSync` object of a sequence. -/
structure BeatSync (α : Type) where
  hueSnap : Option (List α) := none
  saturationSnap : Option (List α) := none
  geometryMeasures : Option (List α) := none
  densityPulse : Option α := none
  chaosBump : Option α := none
  intensityFlash : Option α := none

/-- A transition `{ at, duration, to, parameters }` (`at` and `to` are
written `atOffset` and `toSystem`, the source names being reserved words). -/
structure Transition (α : Type) where
  atOffset : α
  duration : Option α := none
  toSystem : Option String := none
  parameters : Option (String → Option α) := none

/-- A sequence record as handed to `loadSequences`: every field may be
missing.  `extra` holds the own keys of the record other than the seven
that `validateSequence` names, each with its value as JSON text. -/
structure RawSequence (α : Type) where
  time : Option α := none
  duration : Option α := none
  system : Option String := none
  parameters : Option (String → Option α) := none
  patterns : Option (List (Pattern α)) := none
  beatSync : Option (BeatSync α) := none
  transitions : Option (List (Transition α)) := none
  extra : String → Option String := fun _ => none

/-- A sequence record as produced by `validateSequence`. -/
structure Sequence (α : Type) where
  time : α
  duration : α
  system : String
  parameters : String → Option α
  patterns : List (Pattern α)
  beatSync : BeatSync α
  transitions : List (Transition α)
  extra : String → Option String

/-- The mutable fields of a `ChoreographyEngine`.  `randomCalls` counts the
calls of `Math.random()` made so far.  The system registry and the three
callbacks (all `null` after construction) are external and write no field of
the engine. -/
structure Engine (α : Type) where
  sequences : List (Sequence α)
  currentSequence : Option (Sequence α)
  playbackTime : α
  duration : α
  beatCount : ℕ
  lastBeatTime : α
  bpm : α
  beatsPerMeasure : ℕ
  baseParams : Params α
  audioMapping : String → Option (AudioMapping α)
  randomCalls : ℕ

section EngineDefs

variable {α : Type} [LinearOrderedField α] [FloorRing α]

/-- The constructor's `baseParams`. -/
def defaultBaseParams (k : String) : Option α :=
  if k = "geometry" then some 0
  else if k = "gridDensity" then some 15
  else if k = "morphFactor" then some 1.0
  else if k = "chaos" then some 0.2
  else if k = "speed" then some 1.0
  else if k = "hue" then some 200
  else if k = "intensity" then some 0.8
  else if k = "saturation" then some 0.8
  else if k = "rot4dXW" then some 0
  else if k = "rot4dYW" then some 0
  else if k = "rot4dZW" then some 0
  else none

/-- The constructor's `audioMapping`. -/
def defaultAudioMapping (k : String) : Option (AudioMapping α) :=
  if k = "gridDensity" then some { source := "bass", amount := 40, mode := "add" }
  else if k = "morphFactor" then some { source := "mid", amount := 0.6, mode := "add" }
  else if k = "chaos" then some { source := "high", amount := 0.4, mode := "add" }
  else if k = "speed" then some { source := "energy", amount := 0.8, mode := "multiply" }
  else if k = "intensity" then some { source := "energy", amount := 0.5, mode := "add" }
  else if k = "saturation" then some { source := "bass", amount := 0.4, mode := "add" }
  else if k = "rot4dXW" then some { source := "bass", amount := 0.8, mode := "oscillate" }
  else if k = "rot4dYW" then some { source := "mid", amount := 0.8, mode := "oscillate" }
  else if k = "rot4dZW" then some { source := "high", amount := 0.8, mode := "oscillate" }
  else if k = "hue" then some { source := "bass", amount := 30, mode := "add" }
  else none

/-- The engine right after `new ChoreographyEngine(...)`. -/
def new : Engine α where
  sequences := []
  currentSequence := none
  playbackTime := 0
  duration := 0
  beatCount := 0
  lastBeatTime := 0
  bpm := 120
  beatsPerMeasure := 4
  baseParams := defaultBaseParams
  audioMapping := defaultAudioMapping
  randomCalls := 0

/-- The method `validateSequence(seq)`: the literal lists a default for each
of the seven fields and then spreads `seq` over them, so a field that is
present keeps its value (also a falsy one such as `duration: 0`). -/
def validateSequence (seq : RawSequence α) : Sequence α where
  time := seq.time.getD (orDefault seq.time 0)
  duration := seq.duration.getD (orDefault seq.duration 10)
  system := seq.system.getD "faceted"
  parameters := seq.parameters.getD (fun _ => none)
  patterns := seq.patterns.getD []
  beatSync := seq.beatSync.getD {}
  transitions := seq.transitions.getD []
  extra := seq.extra

/-- The method `loadSequences(sequences)`. -/
def loadSequences (e : Engine α) (sequences : List (RawSequence α)) : Engine α :=
  let seqs := sequences.map validateSequence
  { e with
    sequences := seqs
    duration :=
      match seqs.map (fun s => s.time + s.duration) with
      | [] => e.duration
      | d :: ds => ds.foldl max d }

/-- The method `findActiveSequence(time)`. -/
def findActiveSequence (e : Engine α) (time : α) : Option (Sequence α) :=
  e.sequences.find? (fun seq => decide (time ≥ seq.time ∧ time < seq.time + seq.duration))

/-- Assignment `obj[key] = value`. -/
def setKey (obj : Params α) (key : String) (value : Option α) : Params α :=
  fun k => if k = key then value else obj k

/-! ### Pattern library

Each `create...` method reads `this.baseParams` (the argument `base`) and
returns an object literal. -/

/-- The method `createDensityPulse`. -/
def createDensityPulse (m : JSMath α) (base : Params α) (progress _time : α)
    (config : PatternConfig α) : Overrides α :=
  let frequency := orDefault config.frequency 4
  let amplitude := orDefault config.amplitude 40
  fun k =>
    if k = "gridDensity" then
      some ((base "gridDensity").map fun b => b + m.sin (progress * m.pi * frequency) * amplitude)
    else none

/-- The method `createRotationSpin`. -/
def createRotationSpin (m : JSMath α) (_base : Params α) (progress _time : α)
    (config : PatternConfig α) : Overrides α :=
  let speed := orDefault config.speed 1
  fun k =>
    if k = "rot4dXW" then some (some (progress * m.pi * 4 * speed))
    else if k = "rot4dYW" then some (some (progress * m.pi * 3 * speed))
    else if k = "rot4dZW" then some (some (progress * m.pi * 5 * speed))
    else none

/-- The method `createColorShift`. -/
def createColorShift (_m : JSMath α) (base : Params α) (progress _time : α)
    (config : PatternConfig α) : Overrides α :=
  let amount := orDefault config.amount 180
  fun k =>
    if k = "hue" then some ((base "hue").map fun h => jsMod (h + progress * amount) 360)
    else none

/-- The method `createChaosBuild`. -/
def createChaosBuild (_m : JSMath α) (base : Params α) (progress _time : α)
    (config : PatternConfig α) : Overrides α :=
  let amount := orDefault config.amount 0.8
  fun k =>
    if k = "chaos" then some ((base "chaos").map fun c => min 1 (c + progress * amount))
    else none

/-- The method `createMorphWave`. -/
def createMorphWave (m : JSMath α) (base : Params α) (progress _time : α)
    (config : PatternConfig α) : Overrides α :=
  let frequency := orDefault config.frequency 2
  let amplitude := orDefault config.amplitude 0.9
  fun k =>
    if k = "morphFactor" then
      some ((base "morphFactor").map fun b => b + m.sin (progress * m.pi * frequency) * amplitude)
    else none

/-- The method `createGeometryCycle`. -/
def createGeometryCycle (_m : JSMath α) (_base : Params α) (_progress time : α)
    (config : PatternConfig α) : Overrides α :=
  let count := orDefault config.count 8
  let interval := orDefault config.interval 2
  let idx : α := ((⌊jsMod time (count * interval) / interval⌋ : ℤ) : α)
  fun k =>
    if k = "geometry" then some (some (jsMod idx count))
    else none

/-- The method `createIntensityFlash`. -/
def createIntensityFlash (m : JSMath α) (base : Params α) (progress _time : α)
    (config : PatternConfig α) : Overrides α :=
  let frequency := orDefault config.frequency 8
  fun k =>
    if k = "intensity" then
      some ((base "intensity").map fun i =>
        min 1 (i + |m.sin (progress * m.pi * frequency)| * 0.3))
    else none

/-- The method `createSaturationDrop`. -/
def createSaturationDrop (_m : JSMath α) (base : Params α) (progress _time : α)
    (config : PatternConfig α) : Overrides α :=
  let dropPoint := orDefault config.dropPoint 0.5
  let recovery := orDefault config.recovery 0.3
  if progress < dropPoint then
    fun _ => none
  else if progress < dropPoint + recovery then
    let dropProgress := (progress - dropPoint) / recovery
    fun k =>
      if k = "saturation" then some ((base "saturation").map fun s => dropProgress * s)
      else none
  else
    fun _ => none

/-- The method `createRainbowSweep`. -/
def createRainbowSweep (_m : JSMath α) (_base : Params α) (progress _time : α)
    (config : PatternConfig α) : Overrides α :=
  let speed := orDefault config.speed 360
  fun k =>
    if k = "hue" then some (some (jsMod (progress * speed) 360))
    else none

/-- The method `createHyperChaos`; `r` is the number of `Math.random()` calls
made before it, so its four calls return `random r` to `random (r + 3)` in the
order of the literal's fields. -/
def createHyperChaos (m : JSMath α) (r : ℕ) (_base : Params α) (_progress time : α)
    (config : PatternConfig α) : Overrides α :=
  let baseIntensity := orDefault config.intensity 0.5
  fun k =>
    if k = "chaos" then some (some (baseIntensity + m.random r * (1 - baseIntensity)))
    else if k = "rot4dXW" then some (some (m.sin (time * 5 + m.random (r + 1)) * m.pi))
    else if k = "rot4dYW" then some (some (m.cos (time * 7 + m.random (r + 2)) * m.pi))
    else if k = "rot4dZW" then some (some (m.sin (time * 11 + m.random (r + 3)) * m.pi))
    else none

/-- The registry `this.patterns`, bound to the engine `e`: the pattern
function for a type name, returning the object literal and the number of
`Math.random()` calls it made.  A name outside the registry has no
function. -/
def patterns (m : JSMath α) (e : Engine α) (type : String) :
    Option (α → α → PatternConfig α → Overrides α × ℕ) :=
  if type = "density_pulse" then some fun p t c => (createDensityPulse m e.baseParams p t c, 0)
  else if type = "rotation_spin" then some fun p t c => (createRotationSpin m e.baseParams p t c, 0)
  else if type = "color_shift" then some fun p t c => (createColorShift m e.baseParams p t c, 0)
  else if type = "chaos_build" then some fun p t c => (createChaosBuild m e.baseParams p t c, 0)
  else if type = "morph_wave" then some fun p t c => (createMorphWave m e.baseParams p t c, 0)
  else if type = "geometry_cycle" then
    some fun p t c => (createGeometryCycle m e.baseParams p t c, 0)
  else if type = "intensity_flash" then
    some fun p t c => (createIntensityFlash m e.baseParams p t c, 0)
  else if type = "saturation_drop" then
    some fun p t c => (createSaturationDrop m e.baseParams p t c, 0)
  else if type = "rainbow_sweep" then
    some fun p t c => (createRainbowSweep m e.baseParams p t c, 0)
  else if type = "hyperchaos" then
    some fun p t c => (createHyperChaos m e.randomCalls e.baseParams p t c, 4)
  else none

/-- The method `applyPattern(pattern, progress, currentTime)`. -/
def applyPattern (m : JSMath α) (e : Engine α) (pattern : Pattern α)
    (progress currentTime : α) : Engine α :=
  match patterns m e pattern.type with
  | some patternFunc =>
    let modulation := patternFunc progress currentTime pattern.config
    { e with
      baseParams := assign e.baseParams modulation.1
      randomCalls := e.randomCalls + modulation.2 }
  | none => e

/-- The method `applyBeatSync(beatSync, audioData)`.  An array option is
truthy whenever it is present (also when empty, where the indexed read yields
`undefined`); a numeric option is truthy when present and non-zero. -/
def applyBeatSync (e : Engine α) (beatSync : BeatSync α)
    (audioData : Option (AudioData α)) : Engine α :=
  match audioData with
  | none => e
  | some a =>
    let beat := a.onsetDetected
    let p := e.baseParams
    let p :=
      match beatSync.hueSnap with
      | some hues =>
        if beat then setKey p "hue" (hues.get? (e.beatCount % hues.length)) else p
      | none => p
    let p :=
      match beatSync.saturationSnap with
      | some saturations =>
        if beat then
          setKey p "saturation" (saturations.get? (e.beatCount % saturations.length))
        else p
      | none => p
    let p :=
      match beatSync.geometryMeasures with
      | some geometries =>
        if beat ∧ e.beatsPerMeasure ≠ 0 ∧ e.beatCount % e.beatsPerMeasure = 0 then
          setKey p "geometry"
            (geometries.get? ((e.beatCount / e.beatsPerMeasure) % geometries.length))
        else p
      | none => p
    let p :=
      if truthy beatSync.densityPulse ∧ beat then
        setKey p "gridDensity"
          ((p "gridDensity").map fun g => g + beatSync.densityPulse.getD 0)
      else p
    let p :=
      if truthy beatSync.chaosBump ∧ beat then
        setKey p "chaos" ((p "chaos").map fun c => min 1 (c + beatSync.chaosBump.getD 0))
      else p
    let p :=
      if truthy beatSync.intensityFlash ∧ beat then
        setKey p "intensity"
          ((p "intensity").map fun i => min 1 (i + beatSync.intensityFlash.getD 0))
      else p
    { e with baseParams := p }

/-- The method `applyTransition(transition, currentTime, sequence)`; the
system switch goes to the registry and leaves the engine as it is. -/
def applyTransition (e : Engine α) (transition : Transition α) (currentTime : α)
    (sequence : Sequence α) : Engine α :=
  let transitionTime := sequence.time + transition.atOffset
  let transitionDuration := orDefault transition.duration 0.5
  if currentTime ≥ transitionTime ∧ currentTime < transitionTime + transitionDuration then
    let progress := (currentTime - transitionTime) / transitionDuration
    match transition.parameters with
    | some parameters =>
      { e with
        baseParams := fun param =>
          match parameters param with
          | some targetValue =>
            (e.baseParams param).map fun currentValue =>
              currentValue + (targetValue - currentValue) * progress
          | none => e.baseParams param }
    | none => e
  else e

/-- The argument of the call `this.systemRegistry.switchTo(...)` that
`applyTransition(transition, currentTime, sequence)` makes, `none` when it
makes no call.  `activeSystem` is the value read from
`this.systemRegistry.activeSystem` (`none` for `undefined`); the empty string
is falsy. -/
def applyTransitionSwitch (activeSystem : Option String) (transition : Transition α)
    (currentTime : α) (sequence : Sequence α) : Option String :=
  let transitionTime := sequence.time + transition.atOffset
  let transitionDuration := orDefault transition.duration 0.5
  if currentTime ≥ transitionTime ∧ currentTime < transitionTime + transitionDuration then
    match transition.toSystem with
    | some target => if target ≠ "" ∧ some target ≠ activeSystem then some target else none
    | none => none
  else none

/-- The method `updateBaseParameters(sequence, currentTime, audioData)`. -/
def updateBaseParameters (m : JSMath α) (e : Engine α) (sequence : Sequence α)
    (currentTime : α) (audioData : Option (AudioData α)) : Engine α :=
  let progress := (currentTime - sequence.time) / sequence.duration
  let e := { e with
    baseParams := assign e.baseParams fun k => (sequence.parameters k).map some }
  let e := sequence.patterns.foldl
    (fun e pattern => applyPattern m e pattern progress currentTime) e
  let e := applyBeatSync e sequence.beatSync audioData
  sequence.transitions.foldl
    (fun e transition => applyTransition e transition currentTime sequence) e

/-- The object `audioSources` built in `applyAudioModulation`, read as
`audioSources[source] || 0`. -/
def audioSource (audioData : AudioData α) (source : String) : α :=
  let bass := orDefault audioData.bass 0
  let mid := orDefault audioData.mid 0
  let high := orDefault audioData.high 0
  let energy := orDefault audioData.rms 0
  let centroid := orDefault audioData.spectralCentroid 0
  if source = "bass" then bass
  else if source = "mid" then mid
  else if source = "high" then high
  else if source = "energy" then energy
  else if source = "centroid" then centroid
  else 0

/-- The method `applyAudioModulation(baseParams, audioData, currentTime)`.
The loop over the entries of `audioMapping` writes, for each mapped key that
is not disabled, the modulated and then clamped value; every other key keeps
the copied base value. -/
def applyAudioModulation (m : JSMath α) (e : Engine α) (baseParams : Params α)
    (audioData : Option (AudioData α)) (currentTime : α) : Params α :=
  match audioData with
  | none => baseParams
  | some a => fun param =>
    match e.audioMapping param with
    | none => baseParams param
    | some mapping =>
      if mapping.enabled = some false then baseParams param
      else
        let sourceValue := audioSource a mapping.source
        let baseValue := baseParams param
        let value : Option α :=
          if mapping.mode = "add" then
            baseValue.map fun b => b + (sourceValue - 0.5) * mapping.amount
          else if mapping.mode = "multiply" then
            baseValue.map fun b => b * (1 + (sourceValue - 0.5) * mapping.amount)
          else if mapping.mode = "oscillate" then
            baseValue.map fun b =>
              b + m.sin (currentTime * 0.5 + sourceValue * m.pi * 2) * mapping.amount
          else if mapping.mode = "replace" then
            some (sourceValue * mapping.amount)
          else baseValue
        value.map (clampParameter param)

/-- The method `onBeatDetected(audioData)`. -/
def onBeatDetected (e : Engine α) (audioData : AudioData α) : Engine α :=
  { e with
    beatCount := e.beatCount + 1
    lastBeatTime := e.playbackTime
    bpm := if truthy audioData.bpm then audioData.bpm.getD e.bpm else e.bpm }

/-- The method `update(currentTime, audioData)`: the engine after the call
and the returned parameter set. -/
def update (m : JSMath α) (e : Engine α) (currentTime : α)
    (audioData : Option (AudioData α)) : Engine α × Params α :=
  let e := { e with playbackTime := currentTime }
  let sequence := findActiveSequence e currentTime
  let e := { e with currentSequence := sequence }
  let e :=
    match sequence with
    | some sequence => updateBaseParameters m e sequence currentTime audioData
    | none => e
  let e :=
    match audioData with
    | some a => if a.onsetDetected then onBeatDetected e a else e
    | none => e
  (e, applyAudioModulation m e e.baseParams audioData currentTime)

/-- The method `setAudioMapping(parameter, source, amount, mode, enabled)`. -/
def setAudioMapping (e : Engine α) (parameter source : String) (amount : α)
    (mode : String) (enabled : Bool) : Engine α :=
  { e with
    audioMapping := fun k =>
      if k = parameter then
        some { source := source, amount := amount, mode := mode, enabled := some enabled }
      else e.audioMapping k }

/-- The method `toggleAudioReactivity(parameter, enabled)`. -/
def toggleAudioReactivity (e : Engine α) (parameter : String) (enabled : Bool) : Engine α :=
  { e with
    audioMapping := fun k =>
      if k = parameter then (e.audioMapping k).map fun mp => { mp with enabled := some enabled }
      else e.audioMapping k }

end EngineDefs

end ChoreographyEngine

/-! ## `ADSREnvelope.js` -/

namespace ADSREnvelope

/-- The values of the field `phase`. -/
inductive Phase where
  | idle
  | attack
  | decay
  | sustain
  | release
  deriving DecidableEq

/-- The fields of an `ADSREnvelope`. -/
structure Envelope (α : Type) where
  attack : α
  decay : α
  sustain : α
  release : α
  phase : Phase
  value : α
  targetValue : α
  peakValue : α
  phaseStartTime : α
  lastUpdateTime : α
  previousValue : α

section EnvelopeDefs

variable {α : Type} [LinearOrderedField α] [FloorRing α]

/-- The constructor `new ADSREnvelope(attackMs, decayMs, sustain, releaseMs)`. -/
def new (attackMs decayMs sustain releaseMs : α) : Envelope α where
  attack := attackMs
  decay := decayMs
  sustain := sustain
  release := releaseMs
  phase := Phase.idle
  value := 0
  targetValue := 0
  peakValue := 0
  phaseStartTime := 0
  lastUpdateTime := 0
  previousValue := 0

/-- The method `trigger(value)`; `now` is the reading of `Date.now()`. -/
def trigger (env : Envelope α) (value now : α) : Envelope α :=
  { env with
    targetValue := value
    phase := Phase.attack
    phaseStartTime := now
    lastUpdateTime := now
    previousValue := env.value }

/-- The method `triggerRelease()`; `now` is the reading of `Date.now()`. -/
def triggerRelease (env : Envelope α) (now : α) : Envelope α :=
  if env.phase ≠ Phase.idle ∧ env.phase ≠ Phase.release then
    { env with
      phase := Phase.release
      phaseStartTime := now
      previousValue := env.value }
  else env

/-- The method `updateAttack(elapsed)`; `later` is the reading of `Date.now()`
taken when the phase ends. -/
def updateAttack (env : Envelope α) (elapsed later : α) : Envelope α × α :=
  if env.attack = 0 then
    ({ env with
        value := env.targetValue
        peakValue := env.targetValue
        phase := Phase.decay
        phaseStartTime := later },
      env.targetValue)
  else
    let progress := min 1 (elapsed / env.attack)
    let value := env.previousValue + (env.targetValue - env.previousValue) * progress
    let env := { env with value := value }
    let env :=
      if progress ≥ 1 then
        { env with
          peakValue := env.targetValue
          phase := Phase.decay
          phaseStartTime := later
          previousValue := env.value }
      else env
    (env, env.value)

/-- The method `updateDecay(elapsed)`; `later` is the reading of `Date.now()`
taken when the phase ends. -/
def updateDecay (m : JSMath α) (env : Envelope α) (elapsed later : α) : Envelope α × α :=
  if env.decay = 0 then
    let env := { env with
      value := env.peakValue * env.sustain
      phase := Phase.sustain
      phaseStartTime := later }
    (env, env.value)
  else
    let progress := min 1 (elapsed / env.decay)
    let sustainValue := env.peakValue * env.sustain
    let curve := 1 - m.pow progress 1.5
    let env := { env with value := sustainValue + (env.peakValue - sustainValue) * curve }
    let env :=
      if progress ≥ 1 then
        { env with
          phase := Phase.sustain
          phaseStartTime := later
          previousValue := env.value }
      else env
    (env, env.value)

/-- The method `updateSustain(elapsed)`. -/
def updateSustain (env : Envelope α) (_elapsed : α) : Envelope α × α :=
  let env := { env with value := env.peakValue * env.sustain }
  (env, env.value)

/-- The method `updateRelease(elapsed)`. -/
def updateRelease (m : JSMath α) (env : Envelope α) (elapsed : α) : Envelope α × α :=
  if env.release = 0 then
    ({ env with value := 0, phase := Phase.idle }, 0)
  else
    let progress := min 1 (elapsed / env.release)
    let curve := 1 - m.pow progress 2
    let env := { env with value := env.previousValue * curve }
    let env :=
      if progress ≥ 1 then { env with value := 0, phase := Phase.idle }
      else env
    (env, env.value)

/-- The method `update()`: the envelope after the call and the returned
value.  `now` is the reading of `Date.now()` at entry, `later` the reading a
phase method takes when it moves on to the next phase. -/
def update (m : JSMath α) (env : Envelope α) (now later : α) : Envelope α × α :=
  let elapsed := now - env.phaseStartTime
  let env := { env with lastUpdateTime := now }
  match env.phase with
  | Phase.attack => updateAttack env elapsed later
  | Phase.decay => updateDecay m env elapsed later
  | Phase.sustain => updateSustain env elapsed
  | Phase.release => updateRelease m env elapsed
  | Phase.idle => ({ env with value := 0 }, 0)

/-- The method `reset()`. -/
def reset (env : Envelope α) : Envelope α :=
  { env with
    phase := Phase.idle
    value := 0
    targetValue := 0
    peakValue := 0
    previousValue := 0 }

/-- The method `setParameters(attackMs, decayMs, sustain, releaseMs)`. -/
def setParameters (env : Envelope α) (attackMs decayMs sustain releaseMs : α) : Envelope α :=
  { env with
    attack := attackMs
    decay := decayMs
    sustain := sustain
    release := releaseMs }

/-- One call on an envelope, with the clock readings it observes. -/
inductive Call (α : Type) where
  | trigger (value now : α)
  | triggerRelease (now : α)
  | update (now later : α)
  | setParameters (attackMs decayMs sustain releaseMs : α)

/-- The envelope after one call. -/
def step (m : JSMath α) (env : Envelope α) : Call α → Envelope α
  | Call.trigger value now => trigger env value now
  | Call.triggerRelease now => triggerRelease env now
  | Call.update now later => (update m env now later).1
  | Call.setParameters a d s r => setParameters env a d s r

/-- The envelope after a list of calls, made in order. -/
def run (m : JSMath α) (env : Envelope α) (calls : List (Call α)) : Envelope α :=
  calls.foldl (step m) env

/-- The last clock reading after a list of calls that starts at reading `c`. -/
def endClock (c : α) : List (Call α) → α
  | [] => c
  | Call.trigger _ now :: cs => endClock now cs
  | Call.triggerRelease now :: cs => endClock now cs
  | Call.update _ later :: cs => endClock later cs
  | Call.setParameters _ _ _ _ :: cs => endClock c cs

/-- The clock readings of a list of calls never decrease, starting at `c`. -/
def Clocked (c : α) : List (Call α) → Prop
  | [] => True
  | Call.trigger _ now :: cs => c ≤ now ∧ Clocked now cs
  | Call.triggerRelease now :: cs => c ≤ now ∧ Clocked now cs
  | Call.update now later :: cs => c ≤ now ∧ now ≤ later ∧ Clocked later cs
  | Call.setParameters _ _ _ _ :: cs => Clocked c cs

/-- The arguments of a call are admissible: a trigger target is non-negative,
and `setParameters` passes non-negative durations and a sustain level in
`[0, 1]`. -/
def Call.Admissible : Call α → Prop
  | Call.trigger value _ => 0 ≤ value
  | Call.triggerRelease _ => True
  | Call.update _ _ => True
  | Call.setParameters a d s r => 0 ≤ a ∧ 0 ≤ d ∧ 0 ≤ s ∧ s ≤ 1 ∧ 0 ≤ r

/-- The invariant of an envelope at clock reading `c`: durations are
non-negative, the sustain level is in `[0, 1]`, the value, the target, the peak
and the captured previous value are non-negative, and outside the idle phase
the phase started no later than `c`. -/
def Inv (env : Envelope α) (c : α) : Prop :=
  0 ≤ env.attack ∧ 0 ≤ env.decay ∧ 0 ≤ env.release
  ∧ 0 ≤ env.sustain ∧ env.sustain ≤ 1
  ∧ 0 ≤ env.value ∧ 0 ≤ env.targetValue ∧ 0 ≤ env.peakValue ∧ 0 ≤ env.previousValue
  ∧ (env.phase ≠ Phase.idle → env.phaseStartTime ≤ c)

/-- The method `updateAttack(elapsed)` with the rounding `fl` applied to the
result of every arithmetic operation. -/
def updateAttackRounded (fl : α → α) (env : Envelope α) (elapsed later : α) :
    Envelope α × α :=
  if env.attack = 0 then
    ({ env with
        value := env.targetValue
        peakValue := env.targetValue
        phase := Phase.decay
        phaseStartTime := later },
      env.targetValue)
  else
    let progress := min 1 (fl (elapsed / env.attack))
    let value :=
      fl (env.previousValue + fl (fl (env.targetValue - env.previousValue) * progress))
    let env := { env with value := value }
    let env :=
      if progress ≥ 1 then
        { env with
          peakValue := env.targetValue
          phase := Phase.decay
          phaseStartTime := later
          previousValue := env.value }
      else env
    (env, env.value)

/-- The method `updateDecay(elapsed)` with the rounding `fl` applied to the
result of every arithmetic operation (`Math.pow` returns a double). -/
def updateDecayRounded (fl : α → α) (m : JSMath α) (env : Envelope α) (elapsed later : α) :
    Envelope α × α :=
  if env.decay = 0 then
    let env := { env with
      value := fl (env.peakValue * env.sustain)
      phase := Phase.sustain
      phaseStartTime := later }
    (env, env.value)
  else
    let progress := min 1 (fl (elapsed / env.decay))
    let sustainValue := fl (env.peakValue * env.sustain)
    let curve := fl (1 - m.pow progress 1.5)
    let env := { env with
      value := fl (sustainValue + fl (fl (env.peakValue - sustainValue) * curve)) }
    let env :=
      if progress ≥ 1 then
        { env with
          phase := Phase.sustain
          phaseStartTime := later
          previousValue := env.value }
      else env
    (env, env.value)

/-- The method `updateSustain(elapsed)` with the rounding `fl` applied to the
product. -/
def updateSustainRounded (fl : α → α) (env : Envelope α) (_elapsed : α) : Envelope α × α :=
  let env := { env with value := fl (env.peakValue * env.sustain) }
  (env, env.value)

/-- The method `updateRelease(elapsed)` with the rounding `fl` applied to the
result of every arithmetic operation (`Math.pow` returns a double). -/
def updateReleaseRounded (fl : α → α) (m : JSMath α) (env : Envelope α) (elapsed : α) :
    Envelope α × α :=
  if env.release = 0 then
    ({ env with value := 0, phase := Phase.idle }, 0)
  else
    let progress := min 1 (fl (elapsed / env.release))
    let curve := fl (1 - m.pow progress 2)
    let env := { env with value := fl (env.previousValue * curve) }
    let env :=
      if progress ≥ 1 then { env with value := 0, phase := Phase.idle }
      else env
    (env, env.value)

/-- The method `update()` with the rounding `fl` applied to the result of
every arithmetic operation: with `fl = roundDouble` the method as it runs on
doubles, with `fl = id` the method in exact arithmetic, which is `update`. -/
def updateRounded (fl : α → α) (m : JSMath α) (env : Envelope α) (now later : α) :
    Envelope α × α :=
  let elapsed := fl (now - env.phaseStartTime)
  let env := { env with lastUpdateTime := now }
  match env.phase with
  | Phase.attack => updateAttackRounded fl env elapsed later
  | Phase.decay => updateDecayRounded fl m env elapsed later
  | Phase.sustain => updateSustainRounded fl env elapsed
  | Phase.release => updateReleaseRounded fl m env elapsed
  | Phase.idle => ({ env with value := 0 }, 0)

/-- An envelope with `attackMs = 50` whose value is the double nearest to
`0.7`. -/
def warmEnvelope : Envelope α :=
  { (new 50 200 0.3 1500 : Envelope α) with value := roundDouble 0.7 }

end EnvelopeDefs

end ADSREnvelope

/-! ## `ParameterMapper.js` -/

namespace ParameterMapper

section MapperDefs

variable {α : Type} [LinearOrderedField α] [FloorRing α]

/-- The method `applyCurve(value, curve, threshold = 0.5)`; an omitted
`threshold` is `none`. -/
def applyCurve (m : JSMath α) (value : α) (curve : String) (threshold : Option α) : α :=
  let threshold := threshold.getD 0.5
  if curve = "linear" then value
  else if curve = "exponential" then m.pow value 2
  else if curve = "logarithmic" then m.log10 (1 + value * 9) / m.log10 10
  else if curve = "s-curve" then 1 / (1 + m.exp (-10 * (value - 0.5)))
  else if curve = "threshold" then (if value > threshold then 1 else 0)
  else if curve = "inverse" then 1 - value
  else if curve = "squared" then m.pow value 3
  else value

/-- The method `mapToRange(value, min, max, baseValue)`. -/
def mapToRange (value min max baseValue : α) : α :=
  let range := max - min
  baseValue + (value - 0.5) * range

end MapperDefs

end ParameterMapper

/-! ### The object `ADSRPresets` of `ADSREnvelope.js`

Each entry constructs a fresh envelope. -/

namespace ADSRPresets

section PresetDefs

variable {α : Type} [LinearOrderedField α] [FloorRing α]

/-- The preset `kick`. -/
def kick : ADSREnvelope.Envelope α := ADSREnvelope.new 50 200 0.3 1500

/-- The preset `snare`. -/
def snare : ADSREnvelope.Envelope α := ADSREnvelope.new 100 300 0.5 800

/-- The preset `pad`. -/
def pad : ADSREnvelope.Envelope α := ADSREnvelope.new 500 1000 0.7 2000

/-- The preset `hihat`. -/
def hihat : ADSREnvelope.Envelope α := ADSREnvelope.new 20 100 0.2 400

/-- The preset `pluck`. -/
def pluck : ADSREnvelope.Envelope α := ADSREnvelope.new 0 200 0 500

/-- The preset `swell`. -/
def swell : ADSREnvelope.Envelope α := ADSREnvelope.new 1000 1500 0.8 2000

/-- The preset `smooth`. -/
def smooth : ADSREnvelope.Envelope α := ADSREnvelope.new 200 500 0.6 1000

/-- The preset `instant`. -/
def instant : ADSREnvelope.Envelope α := ADSREnvelope.new 0 0 1.0 100

end PresetDefs

end ADSRPresets

namespace ParameterMapper

/-- One entry of the table `mappings`.  `range` is the pair
`(range[0], range[1])`; `envelope` is `none` for `envelope: null`. -/
structure Mapping (α : Type) where
  source : String
  curve : String
  range : α × α
  baseValue : α
  scale : α
  threshold : Option α := none
  envelope : Option (ADSREnvelope.Envelope α) := none

/-- The feature vector as `getSourceValue` reads it.  `bands` is absent or
gives, for each band name that is present, `bands[name].value`; `fields` gives
the numeric top-level fields (`spectralCentroid`, `rms`, ...). -/
structure AudioData (α : Type) where
  bands : Option (String → Option α) := none
  fields : String → Option α := fun _ => none

/-- The fields of a `ParameterMapper`. -/
structure Mapper (α : Type) where
  mappings : String → Option (Mapping α)
  previousValues : String → Option α

/-- The three `Date.now()` readings one pass of the loop of `map` can take for
an entry with an envelope: in `trigger`, at the entry of `update`, and in the
phase method when it moves on to the next phase. -/
structure Readings (α : Type) where
  triggerNow : α
  updateNow : α
  updateLater : α

section MapperState

variable {α : Type} [LinearOrderedField α] [FloorRing α]

/-- The constructor's table `mappings`. -/
def defaultMappings (k : String) : Option (Mapping α) :=
  if k = "rot4dXW" then
    some { source := "bass", curve := "exponential", range := (-2, 2), baseValue := 0,
           scale := 1.0, envelope := some ADSRPresets.smooth }
  else if k = "rot4dYW" then
    some { source := "mid", curve := "exponential", range := (-2, 2), baseValue := 0,
           scale := 1.0, envelope := some ADSRPresets.smooth }
  else if k = "rot4dZW" then
    some { source := "high", curve := "exponential", range := (-2, 2), baseValue := 0,
           scale := 1.0, envelope := some ADSRPresets.smooth }
  else if k = "gridDensity" then
    some { source := "spectralFlux", curve := "threshold", range := (10, 100),
           baseValue := 15, scale := 1.0, threshold := some 0.15,
           envelope := some ADSRPresets.kick }
  else if k = "morphFactor" then
    some { source := "lowMid", curve := "s-curve", range := (0, 2), baseValue := 1.0,
           scale := 1.0, envelope := some ADSRPresets.smooth }
  else if k = "chaos" then
    some { source := "highMid", curve := "exponential", range := (0, 1), baseValue := 0.2,
           scale := 0.8, envelope := some ADSRPresets.smooth }
  else if k = "speed" then
    some { source := "rms", curve := "logarithmic", range := (0.3, 2.5), baseValue := 1.0,
           scale := 1.0, envelope := some ADSRPresets.smooth }
  else if k = "hue" then
    some { source := "spectralCentroid", curve := "linear", range := (0, 360),
           baseValue := 200, scale := 1.0, envelope := none }
  else if k = "intensity" then
    some { source := "rms", curve := "logarithmic", range := (0.3, 1.0), baseValue := 0.5,
           scale := 1.0, envelope := some ADSRPresets.hihat }
  else if k = "saturation" then
    some { source := "spectralRolloff", curve := "linear", range := (0.5, 1.0),
           baseValue := 0.8, scale := 1.0, envelope := none }
  else none

/-- The mapper right after `new ParameterMapper()`. -/
def new : Mapper α where
  mappings := defaultMappings
  previousValues := fun _ => none

/-- The method `getSourceValue(audioData, source)`. -/
def getSourceValue (audioData : AudioData α) (source : String) : α :=
  match audioData.bands.bind (fun bands => bands source) with
  | some value => value
  | none =>
    match audioData.fields source with
    | some value => value
    | none => 0

/-- The body of the loop of `map` for one entry, from the source value on:
curve, scale, range, envelope (triggered with the mapped value and updated
once) and the mix with the user value when one is supplied.  It returns the
entry, whose envelope has changed, and the value stored under the name. -/
def mapEntryFrom (m : JSMath α) (mapping : Mapping α) (sourceValue : α)
    (userValue : Option α) (clock : Readings α) : Mapping α × α :=
  let sourceValue := applyCurve m sourceValue mapping.curve mapping.threshold
  let sourceValue := sourceValue * mapping.scale
  let mappedValue :=
    mapToRange sourceValue mapping.range.1 mapping.range.2 mapping.baseValue
  let shaped : Option (ADSREnvelope.Envelope α) × α :=
    match mapping.envelope with
    | some envelope =>
      let updated := ADSREnvelope.update m
        (ADSREnvelope.trigger envelope mappedValue clock.triggerNow)
        clock.updateNow clock.updateLater
      (some updated.1, updated.2)
    | none => (none, mappedValue)
  let mappedValue :=
    match userValue with
    | some user => user + (shaped.2 - mapping.baseValue) * 0.3
    | none => shaped.2
  ({ mapping with envelope := shaped.1 }, mappedValue)

/-- The body of the loop of `map` for one entry. -/
def mapEntry (m : JSMath α) (mapping : Mapping α) (audioData : AudioData α)
    (userValue : Option α) (clock : Readings α) : Mapping α × α :=
  mapEntryFrom m mapping (getSourceValue audioData mapping.source) userValue clock

/-- The method `map(audioData, userParameters)`: the mapper after the call and
the returned object `mapped`.  `userParameters` is `fun _ => none` for `{}`;
`clock` gives the `Date.now()` readings taken while the entry of each name is
processed. -/
def map (m : JSMath α) (mapper : Mapper α) (audioData : AudioData α)
    (userParameters : String → Option α) (clock : String → Readings α) :
    Mapper α × (String → Option α) :=
  ({ mappings := fun paramName =>
       (mapper.mappings paramName).map fun mapping =>
         (mapEntry m mapping audioData (userParameters paramName) (clock paramName)).1
     previousValues := fun paramName =>
       match mapper.mappings paramName with
       | some mapping =>
         some (mapEntry m mapping audioData (userParameters paramName) (clock paramName)).2
       | none => mapper.previousValues paramName },
   fun paramName =>
     (mapper.mappings paramName).map fun mapping =>
       (mapEntry m mapping audioData (userParameters paramName) (clock paramName)).2)

/-- The method `setReactivity(amount)`. -/
def setReactivity (mapper : Mapper α) (amount : α) : Mapper α :=
  { mapper with
    mappings := fun paramName =>
      (mapper.mappings paramName).map fun mapping => { mapping with scale := amount } }

end MapperState

end ParameterMapper

/-! ## `AudioAnalyzer.js` -/

namespace AudioAnalyzer

/-- One entry of `bands`: `{ low, high, value }`. -/
structure Band (α : Type) where
  low : α
  high : α
  value : Option α

/-- The object returned by `detectOnset`. -/
structure Onset (α : Type) where
  detected : Bool
  strength : Option α
  time : α

/-- The fields of an `AudioAnalyzer`.  `smoothedBands` is a shallow copy of
`bands`, so both hold the same seven band objects: the field `bands` stands
for both.  The three buffers have length `binCount`.  `spectralFlux` and
`rms` are `NaN` (`none`) when computed over an empty buffer. -/
structure Analyzer (α : Type) where
  sampleRate : α
  fftSize : ℕ
  binCount : ℕ
  freqData : ℕ → ℕ
  timeData : ℕ → ℕ
  prevFreqData : ℕ → ℕ
  bands : String → Option (Band α)
  smoothingFactor : α
  spectralCentroid : α
  spectralRolloff : α
  spectralFlux : Option α
  rms : Option α
  onsetHistory : List α
  lastOnsetTime : α
  onsetThreshold : α
  estimatedBPM : α
  maxOnsetHistory : ℕ

/-- The object returned by `analyze`. -/
structure Analysis (α : Type) where
  bands : String → Option (Band α)
  spectralCentroid : α
  spectralRolloff : α
  spectralFlux : Option α
  rms : Option α
  onset : Onset α
  bpm : α

/-- One frame handed to `analyze`: the frequency bytes, the time-domain bytes
and the clock reading. -/
structure Frame (α : Type) where
  freq : ℕ → ℕ
  time : ℕ → ℕ
  now : α

section AnalyzerDefs

variable {α : Type} [LinearOrderedField α] [FloorRing α]

/-- The constructor's `bands`. -/
def defaultBands (name : String) : Option (Band α) :=
  if name = "subBass" then some { low := 20, high := 60, value := some 0 }
  else if name = "bass" then some { low := 60, high := 250, value := some 0 }
  else if name = "lowMid" then some { low := 250, high := 500, value := some 0 }
  else if name = "mid" then some { low := 500, high := 2000, value := some 0 }
  else if name = "highMid" then some { low := 2000, high := 4000, value := some 0 }
  else if name = "high" then some { low := 4000, high := 8000, value := some 0 }
  else if name = "air" then some { low := 8000, high := 20000, value := some 0 }
  else none

/-- The analyzer right after `new AudioAnalyzer(analyserNode)`, for a node
with the given sample rate, FFT size and bin count (typed arrays start
zeroed). -/
def new (sampleRate : α) (fftSize binCount : ℕ) : Analyzer α where
  sampleRate := sampleRate
  fftSize := fftSize
  binCount := binCount
  freqData := fun _ => 0
  timeData := fun _ => 0
  prevFreqData := fun _ => 0
  bands := defaultBands
  smoothingFactor := 0.8
  spectralCentroid := 0
  spectralRolloff := 0
  spectralFlux := some 0
  rms := some 0
  onsetHistory := []
  lastOnsetTime := 0
  onsetThreshold := 0.15
  estimatedBPM := 120
  maxOnsetHistory := 32

/-- The method `freqToBin(frequency)`. -/
def freqToBin (a : Analyzer α) (frequency : α) : ℤ :=
  ⌊frequency / (a.sampleRate / 2) * (a.binCount : α) + 1 / 2⌋

/-- The method `binToFreq(bin)`. -/
def binToFreq (a : Analyzer α) (bin : ℕ) : α :=
  (bin : α) * (a.sampleRate / 2) / (a.binCount : α)

/-- The read `this.freqData[i]` at an integer index: `undefined` outside the
buffer. -/
def freqAt (a : Analyzer α) (i : ℤ) : Option α :=
  if 0 ≤ i ∧ i < (a.binCount : ℤ) then some ((a.freqData i.toNat : ℕ) : α) else none

/-- The inner loop of `analyzeBands` over the bins `lowBin, ..., highBin`:
the final `sum` (`NaN` once a read was `undefined`) and `count`. -/
def bandSum (a : Analyzer α) (lowBin highBin : ℤ) : Option α × ℕ :=
  (List.range (highBin - lowBin + 1).toNat).foldl
    (fun (acc : Option α × ℕ) (k : ℕ) =>
      (acc.1.bind fun sum => (freqAt a (lowBin + (k : ℤ))).map fun b => sum + b, acc.2 + 1))
    (some 0, 0)

/-- The body of the loop of `analyzeBands` for one band. -/
def smoothBand (a : Analyzer α) (band : Band α) : Band α :=
  let lowBin := freqToBin a band.low
  let highBin := freqToBin a band.high
  let acc := bandSum a lowBin highBin
  let avgValue : Option α :=
    if acc.2 > 0 then acc.1.map fun sum => sum / (acc.2 : α) / 255 else some 0
  { band with
    value := band.value.bind fun value => avgValue.map fun avg =>
      (a.smoothingFactor * value) + ((1 - a.smoothingFactor) * avg) }

/-- The method `analyzeBands()`. -/
def analyzeBands (a : Analyzer α) : Analyzer α :=
  { a with bands := fun name => (a.bands name).map (smoothBand a) }

/-- The method `calcSpectralCentroid()`. -/
def calcSpectralCentroid (a : Analyzer α) : Analyzer α :=
  let acc := (List.range a.binCount).foldl
    (fun (acc : α × α) i =>
      let magnitude : α := (a.freqData i : α)
      let frequency := binToFreq a i
      (acc.1 + frequency * magnitude, acc.2 + magnitude))
    (0, 0)
  { a with
    spectralCentroid := if acc.2 > 0 then min 1 (acc.1 / acc.2 / 10000) else 0 }

/-- The second loop of `calcSpectralRolloff`, run for `fuel` more bins from
bin `i` with the running `cumulativeEnergy`: the bin at which the loop
returns, if it does. -/
def rolloffScan (freqData : ℕ → ℕ) (threshold : α) : ℕ → ℕ → α → Option ℕ
  | 0, _, _ => none
  | fuel + 1, i, cumulativeEnergy =>
    let cumulativeEnergy := cumulativeEnergy + (freqData i : α)
    if cumulativeEnergy ≥ threshold then some i
    else rolloffScan freqData threshold fuel (i + 1) cumulativeEnergy

/-- The method `calcSpectralRolloff()`. -/
def calcSpectralRolloff (a : Analyzer α) : Analyzer α :=
  let totalEnergy : α :=
    (List.range a.binCount).foldl (fun total i => total + (a.freqData i : α)) 0
  let threshold := totalEnergy * 0.85
  match rolloffScan a.freqData threshold a.binCount 0 0 with
  | some i => { a with spectralRolloff := (i : α) / (a.binCount : α) }
  | none => { a with spectralRolloff := 1.0 }

/-- The method `calcSpectralFlux()`; for `binCount = 0` the quotient is
`0 / 0`, which is `NaN`. -/
def calcSpectralFlux (a : Analyzer α) : Analyzer α :=
  let flux : α := (List.range a.binCount).foldl
    (fun flux i =>
      let diff : α := (a.freqData i : α) - (a.prevFreqData i : α)
      if diff > 0 then flux + diff else flux)
    0
  { a with
    spectralFlux :=
      if a.binCount = 0 then none else some (min 1 (flux / ((a.binCount : α) * 128))) }

/-- The method `calcRMS()`; `timeData.length` is `binCount`, and for
`binCount = 0` the quotient is `0 / 0`, which is `NaN`. -/
def calcRMS (sqrt : α → α) (a : Analyzer α) : Analyzer α :=
  let sumSquares : α := (List.range a.binCount).foldl
    (fun sumSquares i =>
      let normalized : α := ((a.timeData i : α) - 128) / 128
      sumSquares + normalized * normalized)
    0
  { a with
    rms := if a.binCount = 0 then none else some (sqrt (sumSquares / (a.binCount : α))) }

/-- The test `this.spectralFlux > this.onsetThreshold`; a comparison with
`NaN` is false. -/
def fluxExceeds (a : Analyzer α) : Bool :=
  match a.spectralFlux with
  | some flux => decide (flux > a.onsetThreshold)
  | none => false

/-- The method `detectOnset()`; `now` is the reading of `Date.now()`. -/
def detectOnset (a : Analyzer α) (now : α) : Analyzer α × Onset α :=
  if fluxExceeds a = true ∧ now - a.lastOnsetTime > 100 then
    let history := a.onsetHistory ++ [now]
    let history := if history.length > a.maxOnsetHistory then history.tail else history
    ({ a with lastOnsetTime := now, onsetHistory := history },
      { detected := true, strength := a.spectralFlux, time := now })
  else
    (a, { detected := false, strength := a.spectralFlux, time := now })

/-- The first loop of `estimateBPM`: the differences of consecutive
entries. -/
def intervals : List α → List α
  | previous :: current :: rest => (current - previous) :: intervals (current :: rest)
  | _ => []

/-- The method `estimateBPM()`: the analyzer after the call and the returned
value.  `sort((a, b) => a - b)` is the ascending numeric sort.  A median
interval of `0` makes the quotient `+Infinity`, which `Math.min` turns into
`200`.  (The indexed read is always inside the sorted array, which has at
least three entries.) -/
def estimateBPM (a : Analyzer α) : Analyzer α × α :=
  if a.onsetHistory.length < 4 then (a, 120)
  else
    let sorted := (intervals a.onsetHistory).insertionSort (fun x y => x ≤ y)
    match sorted.get? (sorted.length / 2) with
    | some medianInterval =>
      let estimate : α :=
        if medianInterval = 0 then max 60 200
        else max 60 (min 200 (60000 / medianInterval))
      ({ a with estimatedBPM := estimate }, estimate)
    | none => (a, a.estimatedBPM)

/-- The method `analyze()`: `freq` and `time` are the bytes the analyser node
writes into `freqData` and `timeData`, `now` the reading of `Date.now()` in
`detectOnset`. -/
def analyze (sqrt : α → α) (a : Analyzer α) (freq time : ℕ → ℕ) (now : α) :
    Analyzer α × Analysis α :=
  let a := { a with freqData := freq, timeData := time }
  let a := analyzeBands a
  let a := calcSpectralCentroid a
  let a := calcSpectralRolloff a
  let a := calcSpectralFlux a
  let a := calcRMS sqrt a
  let detected := detectOnset a now
  let a := detected.1
  let a := if a.onsetHistory.length ≥ 4 then (estimateBPM a).1 else a
  let a := { a with prevFreqData := a.freqData }
  (a,
    { bands := a.bands
      spectralCentroid := a.spectralCentroid
      spectralRolloff := a.spectralRolloff
      spectralFlux := a.spectralFlux
      rms := a.rms
      onset := detected.2
      bpm := a.estimatedBPM })

/-- The analyzer after `analyze` was called once per frame of a list. -/
def analyzeAll (sqrt : α → α) (a : Analyzer α) (frames : List (Frame α)) : Analyzer α :=
  frames.foldl (fun a frame => (analyze sqrt a frame.freq frame.time frame.now).1) a

/-- A list of `detectOnset` calls, each made after `spectralFlux` was set to
the given value, at the given clock reading: the analyzer after the calls and
the list, oldest first, of the readings at which an onset was detected. -/
def detectAll (a : Analyzer α) : List (Option α × α) → Analyzer α × List α
  | [] => (a, [])
  | (flux, now) :: rest =>
    let step := detectOnset { a with spectralFlux := flux } now
    let later := detectAll step.1 rest
    (later.1, if step.2.detected then now :: later.2 else later.2)

end AnalyzerDefs

end AudioAnalyzer

/-! ## `AdvancedAudioAnalyzer.js`

The class extends `AudioAnalyzer`.  Embedded are the methods
`analyzeMelodicContour` and `analyzeFrequencyBalance` together with the
fields they read and write; the other analyses of the class write neither
these fields nor the ones the two methods read. -/

namespace AdvancedAudioAnalyzer

/-- The fields of an `AdvancedAudioAnalyzer` that the two embedded methods
use, on top of the fields of the base class. -/
structure AdvancedAnalyzer (α : Type) extends AudioAnalyzer.Analyzer α where
  melodicDirection : α
  melodicActivity : α
  pitchHistory : List α
  maxPitchHistory : ℕ
  bassBalance : α
  midBalance : α
  highBalance : α

section AdvancedDefs

variable {α : Type} [LinearOrderedField α] [FloorRing α]

/-- The constructor, for the fields above. -/
def new (sampleRate : α) (fftSize binCount : ℕ) : AdvancedAnalyzer α where
  toAnalyzer := AudioAnalyzer.new sampleRate fftSize binCount
  melodicDirection := 0
  melodicActivity := 0
  pitchHistory := []
  maxPitchHistory := 16
  bassBalance := 0.33
  midBalance := 0.33
  highBalance := 0.33

/-- The loop of `analyzeMelodicContour` over `recent`: it adds
`Math.abs(recent[i] - recent[i - 1])` for `i` from 1 below `recent.length`
(`k` is `i - 1`). -/
def totalVariation (recent : List α) : α :=
  (List.range (recent.length - 1)).foldl
    (fun total (k : ℕ) => total + |recent.getD (k + 1) 0 - recent.getD k 0|) 0

/-- The method `analyzeMelodicContour()`.  `recent` is `slice(-4)` of a
history of at least four entries, so the reads `recent[0]` and `recent[3]`
are inside it. -/
def analyzeMelodicContour (a : AdvancedAnalyzer α) : AdvancedAnalyzer α :=
  let pushed := a.pitchHistory ++ [a.spectralCentroid]
  let history := if pushed.length > a.maxPitchHistory then pushed.tail else pushed
  if history.length < 4 then
    { a with pitchHistory := history, melodicDirection := 0, melodicActivity := 0 }
  else
    let recent := history.drop (history.length - 4)
    let slope := (recent.getD 3 0 - recent.getD 0 0) / 3
    { a with
      pitchHistory := history
      melodicDirection := max (-1) (min 1 (slope * 10))
      melodicActivity := min 1 (totalVariation recent * 5) }

/-- The read `this.smoothedBands.<name>.value` (`smoothedBands` and `bands`
hold the same band objects). -/
def bandValue (a : AdvancedAnalyzer α) (name : String) : Option α :=
  (a.bands name).bind fun band => band.value

/-- The method `analyzeFrequencyBalance()`.  A `NaN` total fails the test
`total > 0`. -/
def analyzeFrequencyBalance (a : AdvancedAnalyzer α) : AdvancedAnalyzer α :=
  let bassEnergy : Option α := do
    let subBass ← bandValue a "subBass"
    let bass ← bandValue a "bass"
    pure (subBass + bass)
  let midEnergy : Option α := do
    let lowMid ← bandValue a "lowMid"
    let mid ← bandValue a "mid"
    let highMid ← bandValue a "highMid"
    pure (lowMid + mid + highMid)
  let highEnergy : Option α := do
    let high ← bandValue a "high"
    let air ← bandValue a "air"
    pure (high + air)
  match bassEnergy, midEnergy, highEnergy with
  | some bassEnergy, some midEnergy, some highEnergy =>
    let total := bassEnergy + midEnergy + highEnergy
    if total > 0 then
      { a with
        bassBalance := bassEnergy / total
        midBalance := midEnergy / total
        highBalance := highEnergy / total }
    else
      { a with bassBalance := 0.33, midBalance := 0.33, highBalance := 0.33 }
  | _, _, _ =>
    { a with bassBalance := 0.33, midBalance := 0.33, highBalance := 0.33 }

end AdvancedDefs

end AdvancedAudioAnalyzer

/-! ## Scenario data -/

namespace ChoreographyEngine

section Scenarios

variable {α : Type} [LinearOrderedField α] [FloorRing α]

/-- The sequence `{ time: 0, duration: 10, parameters: { chaos: 0.1 } }`. -/
def chaosSequence : RawSequence α where
  time := some 0
  duration := some 10
  parameters := some fun k => if k = "chaos" then some 0.1 else none

/-- A silent feature vector: every band value, `rms` and the spectral centroid
are `0` and no onset is detected. -/
def silentAudio : AudioData α where
  bass := some 0
  mid := some 0
  high := some 0
  rms := some 0
  spectralCentroid := some 0
  onsetDetected := false

/-- The sequence `{ time: 0, duration: 10, parameters: { geometry: 99 } }`. -/
def geometrySequence : RawSequence α where
  time := some 0
  duration := some 10
  parameters := some fun k => if k = "geometry" then some 99 else none

/-- The sequence `{ time: 0, duration: 10, parameters: { chaos: 5 } }`. -/
def wildChaosSequence : RawSequence α where
  time := some 0
  duration := some 10
  parameters := some fun k => if k = "chaos" then some 5 else none

/-- The sequence `{ time: 0, duration: 10, beatSync: { hueSnap: [] } }`. -/
def emptyPaletteSequence : RawSequence α where
  time := some 0
  duration := some 10
  beatSync := some { hueSnap := some [] }

/-- The sequence `{ time: 0, duration: 10, beatSync: { densityPulse: 10 } }`. -/
def pulseSequence : RawSequence α where
  time := some 0
  duration := some 10
  beatSync := some { densityPulse := some 10 }

/-- A feature vector with every band value, `rms` and the spectral centroid at
`0.5` and a detected onset. -/
def beatAudio : AudioData α where
  bass := some 0.5
  mid := some 0.5
  high := some 0.5
  rms := some 0.5
  spectralCentroid := some 0.5
  onsetDetected := true

/-- The fields of the engine that `update` reads: the sequence list, the
carried base parameters, the beat counter, the measure length and the audio
mapping.  (The remaining fields are only written: `currentSequence`,
`playbackTime`, `duration`, `lastBeatTime`, `bpm`; and `randomCalls` is read
by the pattern `hyperchaos` alone.) -/
def core (e : Engine α) :
    List (Sequence α) × Params α × ℕ × ℕ × (String → Option (AudioMapping α)) :=
  (e.sequences, e.baseParams, e.beatCount, e.beatsPerMeasure, e.audioMapping)

/-- No pattern of any sequence in the list is the random pattern
`hyperchaos`. -/
def NoHyperChaos (sequences : List (Sequence α)) : Prop :=
  ∀ s ∈ sequences, ∀ p ∈ s.patterns, p.type ≠ "hyperchaos"

/-- A value lies within the range `clampParameter` declares for the name:
it is a number between the declared minimum and maximum. -/
def WithinRange (param : String) (value : Option α) : Prop :=
  ∀ lo hi : α, ranges param = some (lo, hi) → ∃ v, value = some v ∧ lo ≤ v ∧ v ≤ hi

/-- The loop `sequence.patterns.forEach(...)` of `updateBaseParameters`. -/
def applyPatterns (m : JSMath α) (e : Engine α) (list : List (Pattern α))
    (progress currentTime : α) : Engine α :=
  list.foldl (fun e pattern => applyPattern m e pattern progress currentTime) e

/-- The engine after `update` was called once per entry of a list of
arguments `(currentTime, audioData)`. -/
def updateAll (m : JSMath α) (e : Engine α) (calls : List (α × Option (AudioData α))) :
    Engine α :=
  calls.foldl (fun e call => (update m e call.1 call.2).1) e

/-- Whether the feature vector of a call of `update` is present and has a
detected onset. -/
def onsetCall (call : α × Option (AudioData α)) : Bool :=
  match call.2 with
  | some a => a.onsetDetected
  | none => false

/-- The fields of the engine that `updateBaseParameters` reads and does not
write: the sequence list, the beat counter and the measure length. -/
def counters (e : Engine α) : List (Sequence α) × ℕ × ℕ :=
  (e.sequences, e.beatCount, e.beatsPerMeasure)

/-- The sequence `{ time: 0, duration: 10, beatSync: { hueSnap: [300, 330, 0,
30], geometryMeasures: [1, 2] } }`. -/
def paletteSequence : RawSequence α where
  time := some 0
  duration := some 10
  beatSync := some { hueSnap := some [300, 330, 0, 30], geometryMeasures := some [1, 2] }

/-- The pattern list `[{ type: 'rotation_spin' }, { type: 'rotation_spin',
config: { speed: 2 } }]`. -/
def twoSpins : List (Pattern α) :=
  [{ type := "rotation_spin" }, { type := "rotation_spin", config := { speed := some 2 } }]

/-- The `beatSync` object `{ hueSnap: [300, 330, 0, 30] }`. -/
def paletteSync : BeatSync α where
  hueSnap := some [300, 330, 0, 30]

/-- The duration of a transition as the specification words it: the
`duration` field, `0.5` when the record has none. -/
def specTransitionDuration (transition : Transition α) : α :=
  transition.duration.getD 0.5

/-- The transition `{ at: 0, duration: 0, parameters: { hue: 100 } }`. -/
def instantTransition : Transition α where
  atOffset := 0
  duration := some 0
  parameters := some fun k => if k = "hue" then some 100 else none

/-- The transition `{ at: 2, duration: 2, parameters: { hue: 100 } }`. -/
def hueTransition : Transition α where
  atOffset := 2
  duration := some 2
  parameters := some fun k => if k = "hue" then some 100 else none

/-- A validated sequence record read again as an input record: every field is
present. -/
def Sequence.toRaw (s : Sequence α) : RawSequence α where
  time := some s.time
  duration := some s.duration
  system := some s.system
  parameters := some s.parameters
  patterns := some s.patterns
  beatSync := some s.beatSync
  transitions := some s.transitions
  extra := s.extra

end Scenarios

end ChoreographyEngine

/-! ## Scenario data and reference definitions for `ParameterMapper.js` -/

namespace ParameterMapper

section MapperScenarios

variable {α : Type} [LinearOrderedField α] [FloorRing α]

/-- A silent feature vector: the seven band values and the four spectral
features are `0`. -/
def silentFeatures : AudioData α where
  bands := some fun name =>
    if name = "subBass" ∨ name = "bass" ∨ name = "lowMid" ∨ name = "mid"
        ∨ name = "highMid" ∨ name = "high" ∨ name = "air" then some 0
    else none
  fields := fun name =>
    if name = "spectralCentroid" ∨ name = "spectralRolloff" ∨ name = "spectralFlux"
        ∨ name = "rms" then some 0
    else none

/-- A clock on which every reading is `0`. -/
def zeroClock : String → Readings α := fun _ =>
  { triggerNow := 0, updateNow := 0, updateLater := 0 }

/-- The user parameters `{ hue: 100 }`. -/
def hueOverride : String → Option α := fun name => if name = "hue" then some 100 else none
end MapperScenarios

end ParameterMapper

/-! ## Scenario data and reference definitions for `AudioAnalyzer.js` -/

namespace AudioAnalyzer

section AnalyzerScenarios

variable {α : Type} [LinearOrderedField α] [FloorRing α]

/-- The consecutive inter-onset intervals of a history, as differences of
neighbouring entries: entry `i` is `history[i + 1] - history[i]`. -/
def consecutiveIntervals (history : List α) : List α :=
  List.zipWith (fun previous current => current - previous) history history.tail

/-- The analyzer whose onset history is `[0, 500, 1000, 1500]`. -/
def fourOnsets : Analyzer α :=
  { (new 44100 2048 1024 : Analyzer α) with
    onsetHistory := [0, 500, 1000, 1500], lastOnsetTime := 1500 }

/-- The most recent `n` entries of a list that is kept oldest first. -/
def mostRecent {β : Type} (n : ℕ) (l : List β) : List β := l.drop (l.length - n)

/-- A frame whose frequency bytes are all `255`. -/
def loudFrame : Frame α where
  freq := fun _ => 255
  time := fun _ => 128
  now := 0

/-- The sum of the first `n` bytes of a buffer (bins `0, ..., n - 1`). -/
def partialSum (freqData : ℕ → ℕ) (n : ℕ) : ℕ := ((List.range n).map freqData).sum

/-- The analyzer with four bins holding the bytes `10, 0, 80, 10`. -/
def fourBins : Analyzer α :=
  { (new 44100 8 4 : Analyzer α) with freqData := fun i => [10, 0, 80, 10].getD i 0 }

/-- The bin range of a band lies inside the buffer: the bins
`freqToBin(low), ..., freqToBin(high)` are a non-empty range of valid
indices. -/
def BinsInside (a : Analyzer α) (band : Band α) : Prop :=
  0 ≤ freqToBin a band.low ∧ freqToBin a band.low ≤ freqToBin a band.high
    ∧ freqToBin a band.high < (a.binCount : ℤ)

/-- The mean of the frequency bytes over the bins
`freqToBin(low), ..., freqToBin(high)` (both included), divided by `255`. -/
def bandMean (a : Analyzer α) (band : Band α) : α :=
  ((((List.range (freqToBin a band.high - freqToBin a band.low + 1).toNat).map
      fun k => a.freqData ((freqToBin a band.low).toNat + k)).sum : ℕ) : α)
    / (((freqToBin a band.high - freqToBin a band.low + 1).toNat : ℕ) : α) / 255

end AnalyzerScenarios

end AudioAnalyzer

/-! ## Scenario data and reference definitions for `AdvancedAudioAnalyzer.js` -/

namespace AdvancedAudioAnalyzer

section AdvancedScenarios

variable {α : Type} [LinearOrderedField α] [FloorRing α]

/-- The names of the seven bands. -/
def bandNames : List String :=
  ["subBass", "bass", "lowMid", "mid", "highMid", "high", "air"]

/-- An analyzer whose seven smoothed band values are all `1`. -/
def evenBands : AdvancedAnalyzer α :=
  { (new 44100 2048 1024 : AdvancedAnalyzer α) with
    bands := fun name =>
      (AudioAnalyzer.defaultBands name).map fun band => { band with value := some 1 } }

/-- An analyzer whose pitch history is `[0, 0, 0]` and whose spectral centroid
of the current frame is `0.03`. -/
def gentleRise : AdvancedAnalyzer α :=
  { (new 44100 2048 1024 : AdvancedAnalyzer α) with
    pitchHistory := [0, 0, 0]
    spectralCentroid := 0.03 }

end AdvancedScenarios

end AdvancedAudioAnalyzer

/-! # Theorems -/

namespace ChoreographyEngine

section ClampTheorems

variable {α : Type} [LinearOrderedField α] [FloorRing α]

/-- When `n * b ≤ a < (n + 1) * b` for a natural `n` and `b > 0`, the
remainder `a % b` is `a - n * b`. -/
theorem jsMod_eq_sub (a b : α) (n : ℕ) (hb : 0 < b) (h1 : (n : α) * b ≤ a)
    (h2 : a < ((n : α) + 1) * b) : jsMod a b = a - b * (n : α) := by
  have hn : (0 : α) ≤ (n : α) := Nat.cast_nonneg n
  have ha : 0 ≤ a := le_trans (mul_nonneg hn hb.le) h1
  have hq : 0 ≤ a / b := div_nonneg ha hb.le
  have hfl : ⌊a / b⌋ = (n : ℤ) := by
    rw [Int.floor_eq_iff]
    constructor
    · rw [le_div_iff₀ hb]
      exact_mod_cast h1
    · rw [div_lt_iff₀ hb]
      exact_mod_cast h2
  unfold jsMod trunc
  rw [if_pos hq, hfl]
  norm_cast

/-- The wrap `((v % 360) + 360) % 360` on a value already clamped to
`[0, 360]`: the identity below `360`, and `0` at `360`. -/
theorem wrap_of_clamped (v : α) (h0 : 0 ≤ v) (h1 : v ≤ 360) :
    jsMod (jsMod v 360 + 360) 360 = if v < 360 then v else 0 := by
  by_cases hv : v < 360
  · have e1 : jsMod v 360 = v := by
      have := jsMod_eq_sub v 360 0 (by norm_num) (by simpa using h0) (by simpa using hv)
      simpa using this
    have e2 : jsMod (v + 360) 360 = v := by
      have := jsMod_eq_sub (v + 360) 360 1 (by norm_num) (by norm_num; exact h0)
        (by norm_num; linarith)
      simpa using this
    rw [e1, e2, if_pos hv]
  · have hv2 : v = 360 := le_antisymm h1 (not_lt.mp hv)
    subst hv2
    have e1 : jsMod (360 : α) 360 = 0 := by
      have := jsMod_eq_sub (360 : α) 360 1 (by norm_num) (by norm_num) (by norm_num)
      simpa using this
    rw [e1, if_neg (lt_irrefl _)]
    have e2 := jsMod_eq_sub ((0 : α) + 360) 360 1 (by norm_num) (by norm_num) (by norm_num)
    simpa using e2

/-- What `clampParameter` returns for `hue`: the value itself inside
`[0, 360)`, and `0` for every other value. -/
theorem clampParameter_hue (v : α) :
    clampParameter "hue" v = if 0 ≤ v ∧ v < 360 then v else 0 := by
  have hr : (ranges "hue" : Option (α × α)) = some (0, 360) := by simp [ranges]
  have hw := wrap_of_clamped (max 0 (min 360 v)) (le_max_left _ _)
    (max_le (by norm_num) (min_le_left _ _))
  have hc : clampParameter "hue" v = if max 0 (min 360 v) < 360 then max 0 (min 360 v) else 0 := by
    unfold clampParameter
    rw [hr]
    simpa using hw
  rw [hc]
  by_cases h0 : 0 ≤ v
  · by_cases h1 : v < 360
    · have e : max 0 (min 360 v) = v := by rw [min_eq_right h1.le, max_eq_right h0]
      rw [e, if_pos h1, if_pos ⟨h0, h1⟩]
    · have e : max 0 (min 360 v) = 360 := by
        rw [min_eq_left (not_lt.mp h1)]
        exact max_eq_right (by norm_num)
      rw [e, if_neg (lt_irrefl _), if_neg (fun h => h1 h.2)]
  · have h0lt : v < 0 := not_le.mp h0
    have e : max 0 (min 360 v) = 0 := by
      rw [min_eq_right (by linarith), max_eq_left h0lt.le]
    rw [e, if_pos (by norm_num), if_neg (fun h => h0 h.1)]

/-- A successful lookup in a chain of string tests: either the first test
holds and its entry is the result, or the rest of the chain gives it. -/
theorem ite_some_cases {β : Type} {c : Prop} [Decidable c] {x y : β} {r : Option β}
    (h : (if c then some x else r) = some y) : (c ∧ x = y) ∨ (¬c ∧ r = some y) := by
  by_cases hc : c
  · rw [if_pos hc] at h
    exact Or.inl ⟨hc, Option.some.inj h⟩
  · rw [if_neg hc] at h
    exact Or.inr ⟨hc, h⟩

omit [FloorRing α] in
/-- Every declared range has its minimum below its maximum. -/
theorem ranges_le (param : String) (lo hi : α) (h : ranges param = some (lo, hi)) :
    lo ≤ hi := by
  unfold ranges at h
  repeat
    obtain ⟨-, e⟩ | ⟨-, h⟩ := ite_some_cases h
    · obtain ⟨rfl, rfl⟩ := Prod.mk.inj e
      norm_num
  exact absurd h (by simp)

/-- A value returned by `clampParameter` for a name with a declared range
lies in that range. -/
theorem clampParameter_mem (param : String) (lo hi v : α)
    (h : ranges param = some (lo, hi)) :
    lo ≤ clampParameter param v ∧ clampParameter param v ≤ hi := by
  by_cases hp : param = "hue"
  · subst hp
    have hr : (lo, hi) = ((0 : α), (360 : α)) := by
      have : (ranges "hue" : Option (α × α)) = some (0, 360) := by simp [ranges]
      rw [this] at h
      exact (Option.some.inj h).symm
    obtain ⟨rfl, rfl⟩ := Prod.mk.inj hr
    rw [clampParameter_hue]
    split_ifs with hc
    · exact ⟨hc.1, hc.2.le⟩
    · exact ⟨le_refl _, by norm_num⟩
  · have hle := ranges_le param lo hi h
    unfold clampParameter
    rw [h, if_neg hp]
    exact ⟨le_max_left _ _, max_le hle (min_le_left _ _)⟩

/-- C3 (the code at the failing inputs): `clampParameter('hue', 400)` is `0`,
not `40`, and `clampParameter('hue', -30)` is `0`, not `330`: the value is
clamped to `[0, 360]` before the modulo is taken, so the wrap only ever turns
`360` into `0`. -/
theorem C3_hue_clamped_before_wrap :
    clampParameter "hue" (400 : ℝ) = 0 ∧ clampParameter "hue" (-30 : ℝ) = 0 := by
  constructor
  · rw [clampParameter_hue]
    norm_num
  · rw [clampParameter_hue]
    norm_num

/-- C4: for every parameter name with a declared range `[min, max]` and every
value `v`, `clampParameter(name, v)` lies in `[min, max]`; and for the name
`hue` the result lies in the half-open interval `[0, 360)`. -/
theorem C4_clamp_in_range (param : String) (lo hi v : α)
    (h : ranges param = some (lo, hi)) :
    (lo ≤ clampParameter param v ∧ clampParameter param v ≤ hi)
    ∧ (0 ≤ clampParameter "hue" v ∧ clampParameter "hue" v < 360) := by
  refine ⟨clampParameter_mem param lo hi v h, ?_⟩
  rw [clampParameter_hue]
  split_ifs with hc
  · exact hc
  · exact ⟨le_refl _, by norm_num⟩

/-- C4, witness: the name `speed` with range `[0.1, 3]` at the value `400`,
and `hue` at `400`. -/
theorem C4_clamp_in_range_witness :
    (ranges "speed" : Option (ℝ × ℝ)) = some (0.1, 3)
    ∧ ((0.1 : ℝ) ≤ clampParameter "speed" 400 ∧ clampParameter "speed" (400 : ℝ) ≤ 3)
    ∧ ((0 : ℝ) ≤ clampParameter "hue" 400 ∧ clampParameter "hue" (400 : ℝ) < 360) :=
  have h : (ranges "speed" : Option (ℝ × ℝ)) = some (0.1, 3) := by simp [ranges]
  ⟨h, (C4_clamp_in_range "speed" 0.1 3 400 h).1, (C4_clamp_in_range "speed" 0.1 3 400 h).2⟩

end ClampTheorems

section EngineLemmas

variable {α : Type} [LinearOrderedField α] [FloorRing α]

/-- A field that every step of a fold leaves alone is left alone by the fold. -/
theorem foldl_field {σ β γ : Type} (f : σ → β → σ) (g : σ → γ)
    (h : ∀ s x, g (f s x) = g s) (l : List β) (s : σ) : g (l.foldl f s) = g s := by
  induction l generalizing s with
  | nil => rfl
  | cons x xs ih => rw [List.foldl_cons, ih, h]

/-- The method `applyPattern` does not write `audioMapping`. -/
theorem applyPattern_audioMapping (m : JSMath α) (e : Engine α) (pattern : Pattern α)
    (progress currentTime : α) :
    (applyPattern m e pattern progress currentTime).audioMapping = e.audioMapping := by
  unfold applyPattern
  cases patterns m e pattern.type <;> rfl

/-- The method `applyBeatSync` does not write `audioMapping`. -/
theorem applyBeatSync_audioMapping (e : Engine α) (beatSync : BeatSync α)
    (audioData : Option (AudioData α)) :
    (applyBeatSync e beatSync audioData).audioMapping = e.audioMapping := by
  unfold applyBeatSync
  cases audioData <;> rfl

/-- The method `applyTransition` does not write `audioMapping`. -/
theorem applyTransition_audioMapping (e : Engine α) (transition : Transition α)
    (currentTime : α) (sequence : Sequence α) :
    (applyTransition e transition currentTime sequence).audioMapping = e.audioMapping := by
  unfold applyTransition
  cases transition.parameters <;> simp only [] <;> split <;> rfl

/-- The method `updateBaseParameters` does not write `audioMapping`. -/
theorem updateBaseParameters_audioMapping (m : JSMath α) (e : Engine α)
    (sequence : Sequence α) (currentTime : α) (audioData : Option (AudioData α)) :
    (updateBaseParameters m e sequence currentTime audioData).audioMapping
      = e.audioMapping := by
  unfold updateBaseParameters
  simp only []
  rw [foldl_field _ _ (fun s x => applyTransition_audioMapping s x currentTime sequence),
    applyBeatSync_audioMapping,
    foldl_field _ _ (fun s x => applyPattern_audioMapping m s x _ currentTime)]

/-- The method `update` does not write `audioMapping`. -/
theorem update_audioMapping (m : JSMath α) (e : Engine α) (currentTime : α)
    (audioData : Option (AudioData α)) :
    (update m e currentTime audioData).1.audioMapping = e.audioMapping := by
  unfold update
  simp only []
  cases audioData with
  | none =>
    cases findActiveSequence { e with playbackTime := currentTime } currentTime with
    | none => rfl
    | some s => exact updateBaseParameters_audioMapping m _ s currentTime none
  | some a =>
    have key : ∀ e0 : Engine α,
        (if a.onsetDetected then onBeatDetected e0 a else e0).audioMapping
          = e0.audioMapping := by
      intro e0
      split <;> rfl
    cases findActiveSequence { e with playbackTime := currentTime } currentTime with
    | none => exact key _
    | some s =>
      exact (key _).trans (updateBaseParameters_audioMapping m _ s currentTime (some a))

/-- The returned parameter set is the audio modulation of the base parameters
the call leaves in the engine. -/
theorem update_result (m : JSMath α) (e : Engine α) (currentTime : α)
    (audioData : Option (AudioData α)) :
    (update m e currentTime audioData).2
      = applyAudioModulation m (update m e currentTime audioData).1
          (update m e currentTime audioData).1.baseParams audioData currentTime := rfl

/-- With a feature vector present, a key that has an enabled audio mapping is
returned as a clamped value. -/
theorem applyAudioModulation_mapped (m : JSMath α) (e : Engine α) (baseParams : Params α)
    (a : AudioData α) (currentTime : α) (param : String) (mapping : AudioMapping α)
    (hmap : e.audioMapping param = some mapping) (hen : mapping.enabled ≠ some false) :
    ∃ value : Option α,
      applyAudioModulation m e baseParams (some a) currentTime param
        = value.map (clampParameter param) := by
  unfold applyAudioModulation
  simp only [hmap, if_neg hen]
  exact ⟨_, rfl⟩

/-- Two folds over the same list keep a relation that each step keeps. -/
theorem foldl_rel {σ β : Type} (R : σ → σ → Prop) (f g : σ → β → σ) (l : List β)
    (h : ∀ s t x, x ∈ l → R s t → R (f s x) (g t x)) (s t : σ) (hst : R s t) :
    R (l.foldl f s) (l.foldl g t) := by
  induction l generalizing s t with
  | nil => exact hst
  | cons x xs ih =>
    rw [List.foldl_cons, List.foldl_cons]
    exact ih (fun s t y hy => h s t y (List.mem_cons_of_mem x hy)) _ _
      (h s t x (List.mem_cons_self x xs) hst)

/-- Two registry chains with the same tests agree after a projection when
their entries do. -/
theorem option_map_ite_congr {β γ : Type} {c : Prop} [Decidable c] {f g : β}
    {r s : Option β} (k : β → γ) (h1 : c → k f = k g) (h2 : ¬c → r.map k = s.map k) :
    (if c then some f else r).map k = (if c then some g else s).map k := by
  by_cases hc : c
  · rw [if_pos hc, if_pos hc, Option.map_some', Option.map_some', h1 hc]
  · rw [if_neg hc, if_neg hc, h2 hc]

/-- For a pattern other than `hyperchaos`, the object literal a pattern
function returns depends on the engine through its base parameters only, and
not on the stream of random numbers. -/
theorem patterns_congr (m : JSMath α) (random : ℕ → α) (e f : Engine α) (type : String)
    (progress currentTime : α) (config : PatternConfig α)
    (hb : e.baseParams = f.baseParams) (ht : type ≠ "hyperchaos") :
    (patterns m e type).map (fun fn => (fn progress currentTime config).1)
      = (patterns { m with random := random } f type).map
          (fun fn => (fn progress currentTime config).1) := by
  unfold patterns
  rw [hb]
  repeat
    apply option_map_ite_congr
    · intro
      rfl
    intro
  apply option_map_ite_congr
  · intro h
    exact absurd h ht
  · intro
    rfl

/-- The method `applyPattern` computes the core of the engine from the core,
for a pattern other than `hyperchaos`. -/
theorem applyPattern_core (m : JSMath α) (random : ℕ → α) (e f : Engine α)
    (pattern : Pattern α) (progress currentTime : α)
    (h : core e = core f) (ht : pattern.type ≠ "hyperchaos") :
    core (applyPattern m e pattern progress currentTime)
      = core (applyPattern { m with random := random } f pattern progress currentTime) := by
  have hb : e.baseParams = f.baseParams := congrArg (fun c => c.2.1) h
  have hp := patterns_congr m random e f pattern.type progress currentTime pattern.config hb ht
  unfold applyPattern
  cases h1 : patterns m e pattern.type with
  | none =>
    cases h2 : patterns { m with random := random } f pattern.type with
    | none => exact h
    | some g => rw [h1, h2] at hp; cases hp
  | some g1 =>
    cases h2 : patterns { m with random := random } f pattern.type with
    | none => rw [h1, h2] at hp; cases hp
    | some g2 =>
      rw [h1, h2] at hp
      have hfst : (g1 progress currentTime pattern.config).1
          = (g2 progress currentTime pattern.config).1 := Option.some.inj hp
      simp only [core, Prod.mk.injEq] at h
      obtain ⟨h0, h1, h2, h3, h4⟩ := h
      simp only [core, hfst, h0, h1, h2, h3, h4]

/-- The method `applyBeatSync` computes the core of the engine from the core. -/
theorem applyBeatSync_core (e f : Engine α) (beatSync : BeatSync α)
    (audioData : Option (AudioData α)) (h : core e = core f) :
    core (applyBeatSync e beatSync audioData) = core (applyBeatSync f beatSync audioData) := by
  simp only [core, Prod.mk.injEq] at h
  obtain ⟨h0, h1, h2, h3, h4⟩ := h
  unfold applyBeatSync
  cases audioData with
  | none => simp only [core, h0, h1, h2, h3, h4]
  | some a => simp only [core, h0, h1, h2, h3, h4]

/-- The method `applyTransition` computes the core of the engine from the
core. -/
theorem applyTransition_core (e f : Engine α) (transition : Transition α)
    (currentTime : α) (sequence : Sequence α) (h : core e = core f) :
    core (applyTransition e transition currentTime sequence)
      = core (applyTransition f transition currentTime sequence) := by
  simp only [core, Prod.mk.injEq] at h
  obtain ⟨h0, h1, h2, h3, h4⟩ := h
  unfold applyTransition
  simp only []
  split
  · cases transition.parameters with
    | none => simp only [core, h0, h1, h2, h3, h4]
    | some ps => simp only [core, h0, h1, h2, h3, h4]
  · simp only [core, h0, h1, h2, h3, h4]

/-- The method `updateBaseParameters` computes the core of the engine from
the core, for a sequence without the pattern `hyperchaos`. -/
theorem updateBaseParameters_core (m : JSMath α) (random : ℕ → α) (e f : Engine α)
    (sequence : Sequence α) (currentTime : α) (audioData : Option (AudioData α))
    (h : core e = core f) (ht : ∀ p ∈ sequence.patterns, p.type ≠ "hyperchaos") :
    core (updateBaseParameters m e sequence currentTime audioData)
      = core (updateBaseParameters { m with random := random } f sequence currentTime
          audioData) := by
  unfold updateBaseParameters
  simp only []
  apply foldl_rel (fun s t => core s = core t)
  · intro s t x _ hst
    exact applyTransition_core s t x currentTime sequence hst
  apply applyBeatSync_core
  apply foldl_rel (fun s t => core s = core t)
  · intro s t x hx hst
    exact applyPattern_core m random s t x _ currentTime hst (ht x hx)
  simp only [core, Prod.mk.injEq] at h ⊢
  obtain ⟨h0, h1, h2, h3, h4⟩ := h
  simp only [h0, h1, h2, h3, h4, and_self]

/-- The method `applyAudioModulation`, applied to the engine's own base
parameters, computes its result from the core and does not read the stream of
random numbers. -/
theorem applyAudioModulation_core (m : JSMath α) (random : ℕ → α) (e f : Engine α)
    (audioData : Option (AudioData α)) (currentTime : α) (h : core e = core f) :
    applyAudioModulation m e e.baseParams audioData currentTime
      = applyAudioModulation { m with random := random } f f.baseParams audioData
          currentTime := by
  simp only [core, Prod.mk.injEq] at h
  obtain ⟨h0, h1, h2, h3, h4⟩ := h
  unfold applyAudioModulation
  simp only [h1, h4]

/-- The method `update` computes the core of the engine from the core, when no
sequence uses the pattern `hyperchaos`. -/
theorem update_core (m : JSMath α) (random : ℕ → α) (e f : Engine α) (currentTime : α)
    (audioData : Option (AudioData α)) (h : core e = core f)
    (hno : NoHyperChaos e.sequences) :
    core (update m e currentTime audioData).1
      = core (update { m with random := random } f currentTime audioData).1 := by
  have hseq : e.sequences = f.sequences := congrArg Prod.fst h
  have hfind : findActiveSequence { e with playbackTime := currentTime } currentTime
      = findActiveSequence { f with playbackTime := currentTime } currentTime := by
    unfold findActiveSequence
    simp only [hseq]
  have hbeat : ∀ (e0 f0 : Engine α) (a : AudioData α), core e0 = core f0 →
      core (if a.onsetDetected then onBeatDetected e0 a else e0)
        = core (if a.onsetDetected then onBeatDetected f0 a else f0) := by
    intro e0 f0 a h0
    split
    · simp only [core, Prod.mk.injEq] at h0
      obtain ⟨g0, g1, g2, g3, g4⟩ := h0
      simp only [core, onBeatDetected, g0, g1, g2, g3, g4]
    · exact h0
  unfold update
  simp only []
  rw [← hfind]
  cases hs : findActiveSequence { e with playbackTime := currentTime } currentTime with
  | none =>
    cases audioData with
    | none => exact h
    | some a => exact hbeat _ _ a h
  | some s =>
    have hmem : s ∈ e.sequences := List.mem_of_find?_eq_some hs
    have hstep := updateBaseParameters_core m random
      { e with playbackTime := currentTime, currentSequence := some s }
      { f with playbackTime := currentTime, currentSequence := some s }
      s currentTime audioData h (hno s hmem)
    cases audioData with
    | none => exact hstep
    | some a => exact hbeat _ _ a hstep

end EngineLemmas

section EngineClaims

variable {α : Type} [LinearOrderedField α] [FloorRing α]

/-- C1 (as stated, refuted): on the scenario of the claim, with the real
`Math` functions, the chaos returned by `update(5, silent)` is not `0.1`. -/
theorem C1_counterexample :
    (update (realMath fun _ => 0) (loadSequences new [chaosSequence]) 5
      (some silentAudio)).2 "chaos" ≠ some 0.1 := by
  simp [update, loadSequences, new, chaosSequence, silentAudio, validateSequence,
    findActiveSequence, updateBaseParameters, applyBeatSync, applyAudioModulation,
    defaultAudioMapping, defaultBaseParams, assign, audioSource, orDefault, truthy,
    clampParameter, ranges]
  norm_num
  simp [defaultAudioMapping, defaultBaseParams, assign, clampParameter, ranges]
  norm_num

/-- C1 (amended): for the engine with its default audio mapping loaded with
the single sequence `{ time: 0, duration: 10, parameters: { chaos: 0.1 } }`,
`update(5, fv)` with a silent feature vector returns chaos `0` (the mapping
adds `(0 - 0.5) * 0.4` to the base `0.1` and the result `-0.1` is clamped),
and `update(5)` without a feature vector returns the base value `0.1`. -/
theorem C1_silent_chaos (m : JSMath α) :
    (update m (loadSequences new [chaosSequence]) 5 (some silentAudio)).2 "chaos" = some 0
    ∧ (update m (loadSequences new [chaosSequence]) 5 none).2 "chaos" = some 0.1 := by
  constructor
  · simp [update, loadSequences, new, chaosSequence, silentAudio, validateSequence,
      findActiveSequence, updateBaseParameters, applyBeatSync, applyAudioModulation,
      defaultAudioMapping, defaultBaseParams, assign, audioSource, orDefault, truthy,
      clampParameter, ranges]
    norm_num
    simp [defaultAudioMapping, defaultBaseParams, assign, clampParameter, ranges]
    norm_num
  · simp [update, loadSequences, new, chaosSequence, validateSequence,
      findActiveSequence, updateBaseParameters, applyBeatSync, applyAudioModulation,
      defaultBaseParams, assign]
    norm_num
    simp [assign]

/-- C2 (as stated, refuted), with the real `Math` functions at time `5`:
(a) a sequence that sets `geometry: 99` returns geometry `99` although the
declared range is `[0, 7]` (geometry has no audio mapping, so it is never
clamped); (b) without a feature vector a sequence that sets `chaos: 5` returns
chaos `5`, outside `[0, 1]`; (c) with an empty `hueSnap` palette and a detected
onset the returned hue is not a number. -/
theorem C2_counterexample :
    ¬ WithinRange "geometry"
        ((update (realMath fun _ => 0) (loadSequences new [geometrySequence]) 5
          (some silentAudio)).2 "geometry")
    ∧ ¬ WithinRange "chaos"
        ((update (realMath fun _ => 0) (loadSequences new [wildChaosSequence]) 5
          none).2 "chaos")
    ∧ ¬ WithinRange "hue"
        ((update (realMath fun _ => 0) (loadSequences new [emptyPaletteSequence]) 5
          (some beatAudio)).2 "hue") := by
  refine ⟨?_, ?_, ?_⟩
  · have h : (update (realMath fun _ => 0) (loadSequences new [geometrySequence]) 5
        (some silentAudio)).2 "geometry" = some 99 := by
      simp [update, loadSequences, new, geometrySequence, silentAudio, validateSequence,
        findActiveSequence, updateBaseParameters, applyBeatSync, applyAudioModulation,
        defaultAudioMapping, defaultBaseParams, assign, orDefault, truthy]
      norm_num
      simp [defaultAudioMapping, assign]
    rw [h]
    intro hw
    obtain ⟨v, hv, -, hle⟩ := hw 0 7 (by simp [ranges])
    cases hv
    norm_num at hle
  · have h : (update (realMath fun _ => 0) (loadSequences new [wildChaosSequence]) 5
        none).2 "chaos" = some 5 := by
      simp [update, loadSequences, new, wildChaosSequence, validateSequence,
        findActiveSequence, updateBaseParameters, applyBeatSync, applyAudioModulation,
        defaultBaseParams, assign]
      norm_num
      simp [assign]
    rw [h]
    intro hw
    obtain ⟨v, hv, -, hle⟩ := hw 0 1 (by simp [ranges])
    cases hv
    norm_num at hle
  · have h : (update (realMath fun _ => 0) (loadSequences new [emptyPaletteSequence]) 5
        (some beatAudio)).2 "hue" = none := by
      simp [update, loadSequences, new, emptyPaletteSequence, beatAudio, validateSequence,
        findActiveSequence, updateBaseParameters, applyBeatSync, applyAudioModulation,
        onBeatDetected, defaultAudioMapping, defaultBaseParams, assign, setKey, orDefault,
        truthy, audioSource]
      norm_num
      simp [defaultAudioMapping, assign, setKey, truthy, onBeatDetected]
    rw [h]
    intro hw
    obtain ⟨v, hv, -, -⟩ := hw 0 360 (by simp [ranges])
    cases hv

/-- C2 (amended): for every engine state (any sequence list, base parameters
and audio mapping), every time and every present feature vector, a field of
the parameter set returned by `update` that has an enabled audio mapping and
holds a number lies within the range `clampParameter` declares for it.  With
the default mapping these are the ten fields other than `geometry`. -/
theorem C2_mapped_fields_in_range (m : JSMath α) (e : Engine α) (currentTime : α)
    (a : AudioData α) (param : String) (mapping : AudioMapping α) (v lo hi : α)
    (hmap : e.audioMapping param = some mapping) (hen : mapping.enabled ≠ some false)
    (hr : ranges param = some (lo, hi))
    (hv : (update m e currentTime (some a)).2 param = some v) :
    lo ≤ v ∧ v ≤ hi := by
  rw [update_result] at hv
  obtain ⟨value, hval⟩ := applyAudioModulation_mapped m (update m e currentTime (some a)).1
    (update m e currentTime (some a)).1.baseParams a currentTime param mapping
    (by rw [update_audioMapping]; exact hmap) hen
  rw [hval] at hv
  cases value with
  | none => cases hv
  | some w =>
    have hw : clampParameter param w = v := Option.some.inj hv
    rw [← hw]
    exact clampParameter_mem param lo hi w hr

/-- C2, witness: the amended statement at the scenario engine, for the field
`speed` (default mapping `energy`, `multiply`), which holds `0.6`. -/
theorem C2_mapped_fields_in_range_witness :
    (new : Engine ℝ).audioMapping "speed"
        = some { source := "energy", amount := 0.8, mode := "multiply" }
    ∧ (ranges "speed" : Option (ℝ × ℝ)) = some (0.1, 3)
    ∧ (update (realMath fun _ => 0) (new : Engine ℝ) 5 (some silentAudio)).2 "speed"
        = some 0.6
    ∧ ((0.1 : ℝ) ≤ 0.6 ∧ (0.6 : ℝ) ≤ 3) :=
  have hmap : (new : Engine ℝ).audioMapping "speed"
      = some { source := "energy", amount := 0.8, mode := "multiply" } := by
    simp [new, defaultAudioMapping]
  have hr : (ranges "speed" : Option (ℝ × ℝ)) = some (0.1, 3) := by simp [ranges]
  have hv : (update (realMath fun _ => 0) (new : Engine ℝ) 5 (some silentAudio)).2 "speed"
      = some 0.6 := by
    simp [update, new, silentAudio, findActiveSequence, applyAudioModulation,
      defaultAudioMapping, defaultBaseParams, audioSource, orDefault, clampParameter, ranges]
    norm_num
  ⟨hmap, hr, hv,
    C2_mapped_fields_in_range (realMath fun _ => 0) new 5 silentAudio "speed"
      { source := "energy", amount := 0.8, mode := "multiply" } 0.6 0.1 3 hmap (by simp) hr hv⟩

/-- C5 (as stated, refuted), with the real `Math` functions: on the engine
loaded with `{ time: 0, duration: 10, beatSync: { densityPulse: 10 } }`, the
call `update(5, fv)` with a detected onset returns grid density `25`, and the
same call repeated on the same engine returns `35`: the parameter sets of two
calls with identical arguments differ. -/
theorem C5_counterexample :
    (update (realMath fun _ => 0) (loadSequences new [pulseSequence]) 5
        (some beatAudio)).2
      ≠ (update (realMath fun _ => 0)
          (update (realMath fun _ => 0) (loadSequences new [pulseSequence]) 5
            (some beatAudio)).1 5 (some beatAudio)).2 := by
  intro h
  have h1 : (update (realMath fun _ => 0) (loadSequences new [pulseSequence]) 5
      (some beatAudio)).2 "gridDensity" = some 25 := by
    simp [update, loadSequences, new, pulseSequence, beatAudio, validateSequence,
      findActiveSequence, updateBaseParameters, applyBeatSync, applyAudioModulation,
      onBeatDetected, defaultAudioMapping, defaultBaseParams, assign, setKey, orDefault,
      truthy, audioSource, clampParameter, ranges]
    norm_num
    simp [defaultAudioMapping, defaultBaseParams, assign, setKey, truthy, onBeatDetected,
      clampParameter, ranges]
    norm_num
  have h2 : (update (realMath fun _ => 0)
      (update (realMath fun _ => 0) (loadSequences new [pulseSequence]) 5
        (some beatAudio)).1 5 (some beatAudio)).2 "gridDensity" = some 35 := by
    simp [update, loadSequences, new, pulseSequence, beatAudio, validateSequence,
      findActiveSequence, updateBaseParameters, applyBeatSync, applyAudioModulation,
      onBeatDetected, defaultAudioMapping, defaultBaseParams, assign, setKey, orDefault,
      truthy, audioSource, clampParameter, ranges]
    norm_num
    simp [defaultAudioMapping, defaultBaseParams, assign, setKey, truthy, onBeatDetected,
      clampParameter, ranges]
    norm_num
  rw [h] at h1
  rw [h1] at h2
  norm_num at h2

/-- C5 (amended): the result of `update` is a function of the time, the
feature vector and the engine state it reads (sequence list, carried base
parameters, beat counter, measure length, audio mapping), and of nothing else.
For sequences that do not use the pattern `hyperchaos`, two calls with
identical arguments on engines that agree on that state return identical
parameter sets and leave engines that agree on it again, whatever stream of
random numbers `Math.random()` produces and however the engines differ in
their other fields. -/
theorem C5_update_deterministic (m : JSMath α) (random : ℕ → α) (e f : Engine α)
    (currentTime : α) (audioData : Option (AudioData α)) (h : core e = core f)
    (hno : NoHyperChaos e.sequences) :
    (update m e currentTime audioData).2
        = (update { m with random := random } f currentTime audioData).2
    ∧ core (update m e currentTime audioData).1
        = core (update { m with random := random } f currentTime audioData).1 := by
  have hc := update_core m random e f currentTime audioData h hno
  refine ⟨?_, hc⟩
  rw [update_result, update_result]
  exact applyAudioModulation_core m random _ _ audioData currentTime hc

/-- C5, witness: the amended statement for the engine loaded with the
`densityPulse` sequence and a copy of it that differs in `randomCalls`, under
two different random streams. -/
theorem C5_update_deterministic_witness :
    core (loadSequences new [pulseSequence] : Engine ℝ)
        = core { (loadSequences new [pulseSequence] : Engine ℝ) with randomCalls := 7 }
    ∧ NoHyperChaos (loadSequences new [pulseSequence] : Engine ℝ).sequences
    ∧ (update (realMath fun _ => 0) (loadSequences new [pulseSequence]) 5
          (some beatAudio)).2
        = (update { realMath (fun _ => 0) with random := fun _ => 1 }
            { (loadSequences new [pulseSequence] : Engine ℝ) with randomCalls := 7 } 5
            (some beatAudio)).2 :=
  have hno : NoHyperChaos (loadSequences new [pulseSequence] : Engine ℝ).sequences := by
    intro s hs p hp
    simp [loadSequences, validateSequence, pulseSequence] at hs
    subst hs
    simp at hp
  ⟨rfl, hno,
    (C5_update_deterministic (realMath fun _ => 0) (fun _ => 1)
      (loadSequences new [pulseSequence])
      { (loadSequences new [pulseSequence] : Engine ℝ) with randomCalls := 7 } 5
      (some beatAudio) rfl hno).1⟩

end EngineClaims

end ChoreographyEngine

namespace ADSREnvelope

section EnvelopeClaims

variable {α : Type} [LinearOrderedField α] [FloorRing α]

/-- C6 (as stated, refuted), with the real `Math` functions and no time
elapsing: after `trigger(1.0)` on `new ADSREnvelope(0, 0, 0.5, 0)` the first
`update()` does not return `0.5`. -/
theorem C6_counterexample :
    (update (realMath fun _ => 0) (trigger (new 0 0 0.5 0) 1 0) 0 0).2 ≠ 0.5 := by
  simp [update, trigger, new, updateAttack]
  norm_num

/-- C6 (amended): for `new ADSREnvelope(0, 0, 0.5, 0)` triggered with target
`1.0`, whatever the clock readings, the first `update()` returns exactly `1.0`
(the instant attack, leaving the envelope in the decay phase), the second
returns exactly `0.5` (the instant decay, leaving it in the sustain phase) and
the third returns `0.5` again: each call completes one phase. -/
theorem C6_instant_chain (m : JSMath α) (t0 t1 l1 t2 l2 t3 l3 : α) :
    (update m (trigger (new 0 0 0.5 0) 1 t0) t1 l1).2 = 1
    ∧ (update m (trigger (new 0 0 0.5 0) 1 t0) t1 l1).1.phase = Phase.decay
    ∧ (update m (update m (trigger (new 0 0 0.5 0) 1 t0) t1 l1).1 t2 l2).2 = 0.5
    ∧ (update m (update m (trigger (new 0 0 0.5 0) 1 t0) t1 l1).1 t2 l2).1.phase
        = Phase.sustain
    ∧ (update m (update m (update m (trigger (new 0 0 0.5 0) 1 t0) t1 l1).1 t2 l2).1
        t3 l3).2 = 0.5 := by
  simp [update, trigger, new, updateAttack, updateDecay, updateSustain]

/-- With the identity as rounding, `updateRounded` is `update`. -/
theorem updateRounded_id (m : JSMath α) (env : Envelope α) (now later : α) :
    updateRounded id m env now later = update m env now later := by
  unfold updateRounded update
  cases hp : env.phase <;> simp only [hp] <;> rfl

/-- Rounding to the nearest integer moves a number by at most `1/2`. -/
theorem roundHalfEven_near (x : α) : |((roundHalfEven x : ℤ) : α) - x| ≤ 1 / 2 := by
  have h1 : ((⌊x⌋ : ℤ) : α) ≤ x := Int.floor_le x
  have h2 : x < ((⌊x⌋ : ℤ) : α) + 1 := Int.lt_floor_add_one x
  unfold roundHalfEven
  simp only []
  rw [abs_le]
  split_ifs with ha hb hc
  · constructor <;> linarith
  · push_cast
    constructor <;> linarith
  · constructor <;> linarith
  · push_cast
    constructor <;> linarith

/-- A number that is less than `1/2` away from an integer is rounded to it. -/
theorem roundHalfEven_eq (x : α) (n : ℤ) (h : |x - (n : α)| < 1 / 2) : roundHalfEven x = n := by
  have h1 := roundHalfEven_near x
  have h2 : |((roundHalfEven x : ℤ) : α) - (n : α)| < 1 := by
    have := abs_sub_le ((roundHalfEven x : ℤ) : α) x (n : α)
    linarith
  have h3 : |roundHalfEven x - n| < 1 := by
    have : ((|roundHalfEven x - n| : ℤ) : α) < ((1 : ℤ) : α) := by
      push_cast
      exact h2
    exact_mod_cast this
  have h4 : roundHalfEven x - n = 0 := Int.abs_lt_one_iff.mp h3
  omega

/-- The rounding to a double of a number in the binade `[2 ^ k, 2 ^ (k + 1))`. -/
theorem roundDouble_eq (x : α) (k n : ℤ) (h1 : (2 : α) ^ k ≤ |x|) (h2 : |x| < (2 : α) ^ (k + 1))
    (hn : |x / (2 : α) ^ (k - 52) - (n : α)| < 1 / 2) :
    roundDouble x = (n : α) * (2 : α) ^ (k - 52) := by
  have hpos : 0 < |x| := lt_of_lt_of_le (zpow_pos (by norm_num) k) h1
  have hx : x ≠ 0 := abs_pos.mp hpos
  have hlog : Int.log 2 |x| = k := by
    apply le_antisymm
    · have := (Int.lt_zpow_iff_log_lt (by norm_num : 1 < 2) hpos).mp
        (by exact_mod_cast h2 : |x| < ((2 : ℕ) : α) ^ (k + 1))
      omega
    · exact (Int.zpow_le_iff_le_log (by norm_num : 1 < 2) hpos).mp
        (by exact_mod_cast h1 : ((2 : ℕ) : α) ^ k ≤ |x|)
  unfold roundDouble
  simp only [if_neg hx, hlog]
  rw [roundHalfEven_eq _ n hn]

/-- The rounding to a double has a relative error of at most `2 ^ (-53)`. -/
theorem roundDouble_relative (x : α) : |roundDouble x - x| ≤ (2 : α) ^ (-53 : ℤ) * |x| := by
  by_cases hx : x = 0
  · simp [roundDouble, hx]
  · have hpos : 0 < |x| := abs_pos.mpr hx
    unfold roundDouble
    simp only [if_neg hx]
    generalize hk : Int.log 2 |x| = k
    have hlow : (2 : α) ^ k ≤ |x| := by
      have := Int.zpow_log_le_self (by norm_num : 1 < 2) hpos
      rw [hk] at this
      exact_mod_cast this
    have hp : (0 : α) < (2 : α) ^ (k - 52) := zpow_pos (by norm_num) _
    have hnear := roundHalfEven_near (x / (2 : α) ^ (k - 52))
    have heq : ((roundHalfEven (x / (2 : α) ^ (k - 52)) : ℤ) : α) * (2 : α) ^ (k - 52) - x
        = (((roundHalfEven (x / (2 : α) ^ (k - 52)) : ℤ) : α) - x / (2 : α) ^ (k - 52))
          * (2 : α) ^ (k - 52) := by
      field_simp
    rw [heq, abs_mul, abs_of_pos hp]
    have hsplit : (2 : α) ^ (k - 52) = (2 : α) ^ k * (2 : α) ^ (-52 : ℤ) := by
      rw [← zpow_add₀ (by norm_num : (2 : α) ≠ 0)]
      rfl
    have h53 : (2 : α) ^ (-53 : ℤ) = (2 : α) ^ (-52 : ℤ) / 2 := by
      rw [show (-53 : ℤ) = -52 - 1 from rfl, zpow_sub_one₀ (by norm_num : (2 : α) ≠ 0),
        div_eq_mul_inv]
    have hp52 : (0 : α) < (2 : α) ^ (-52 : ℤ) := zpow_pos (by norm_num) _
    calc |((roundHalfEven (x / (2 : α) ^ (k - 52)) : ℤ) : α) - x / (2 : α) ^ (k - 52)|
          * (2 : α) ^ (k - 52)
        ≤ 1 / 2 * (2 : α) ^ (k - 52) := mul_le_mul_of_nonneg_right hnear hp.le
      _ = (2 : α) ^ (-53 : ℤ) * (2 : α) ^ k := by rw [hsplit, h53]; ring
      _ ≤ (2 : α) ^ (-53 : ℤ) * |x| :=
          mul_le_mul_of_nonneg_left hlow (zpow_pos (by norm_num) _).le

/-- The rounding to a double takes no number from `1` on below `1`. -/
theorem roundDouble_one_le (x : α) (h : 1 ≤ x) : 1 ≤ roundDouble x := by
  have hpos : 0 < x := lt_of_lt_of_le one_pos h
  have hx : x ≠ 0 := ne_of_gt hpos
  have habs : |x| = x := abs_of_pos hpos
  unfold roundDouble
  simp only [if_neg hx, habs]
  generalize hk : Int.log 2 x = k
  have hk0 : 0 ≤ k := by
    rw [← hk]
    apply (Int.zpow_le_iff_le_log (by norm_num : 1 < 2) hpos).mp
    simpa using h
  have hlow : (2 : α) ^ k ≤ x := by
    have := Int.zpow_log_le_self (by norm_num : 1 < 2) hpos
    rw [hk] at this
    exact_mod_cast this
  have hp : (0 : α) < (2 : α) ^ (k - 52) := zpow_pos (by norm_num) _
  have hsplit : (2 : α) ^ k = (2 : α) ^ (52 : ℤ) * (2 : α) ^ (k - 52) := by
    rw [← zpow_add₀ (by norm_num : (2 : α) ≠ 0)]
    congr 1
    ring
  have hy : (2 : α) ^ (52 : ℤ) ≤ x / (2 : α) ^ (k - 52) := by
    rw [le_div_iff₀ hp, ← hsplit]
    exact hlow
  have hnear := roundHalfEven_near (x / (2 : α) ^ (k - 52))
  generalize roundHalfEven (x / (2 : α) ^ (k - 52)) = n at hnear
  have hn : (2 : ℤ) ^ (52 : ℕ) ≤ n := by
    have h1 : ((2 : ℤ) ^ (52 : ℕ) - 1 : ℤ) < n := by
      have : (((2 : ℤ) ^ (52 : ℕ) - 1 : ℤ) : α) < (n : α) := by
        push_cast
        have h2 := (abs_le.mp hnear).1
        have h3 : (2 : α) ^ (52 : ℤ) = (2 : α) ^ (52 : ℕ) := zpow_natCast 2 52
        rw [h3] at hy
        linarith
      exact_mod_cast this
    omega
  have hn2 : (2 : α) ^ (52 : ℤ) ≤ (n : α) := by
    have h3 : (2 : α) ^ (52 : ℤ) = (2 : α) ^ (52 : ℕ) := zpow_natCast 2 52
    rw [h3]
    exact_mod_cast hn
  calc (1 : α) = (2 : α) ^ (0 : ℤ) := (zpow_zero 2).symm
    _ ≤ (2 : α) ^ k := zpow_le_zpow_right₀ (by norm_num) hk0
    _ = (2 : α) ^ (52 : ℤ) * (2 : α) ^ (k - 52) := hsplit
    _ ≤ (n : α) * (2 : α) ^ (k - 52) := mul_le_mul_of_nonneg_right hn2 hp.le

/-- The doubles nearest to `0.7` and `0.1`. -/
theorem roundDouble_seven_tenths :
    roundDouble (0.7 : ℝ) = 6305039478318694 / 2 ^ 53
    ∧ roundDouble (0.1 : ℝ) = 7205759403792794 / 2 ^ 56 := by
  constructor
  · rw [roundDouble_eq (0.7 : ℝ) (-1) 6305039478318694 (by norm_num [abs_of_pos])
      (by norm_num [abs_of_pos]) (by norm_num [abs_lt])]
    norm_num
  · rw [roundDouble_eq (0.1 : ℝ) (-4) 7205759403792794 (by norm_num [abs_of_pos])
      (by norm_num [abs_of_pos]) (by norm_num [abs_lt])]
    norm_num

/-- The first `update()` after `trigger(v)` for a positive attack time, with
rounding `fl`: the fields it writes, in terms of the rounded progress. -/
theorem updateRounded_trigger (fl : α → α) (m : JSMath α) (env : Envelope α)
    (v t0 t later : α) (h : 0 < env.attack) :
    (1 ≤ fl (fl (t - t0) / env.attack) →
      (updateRounded fl m (trigger env v t0) t later).2
          = fl (env.value + fl (fl (v - env.value) * 1))
      ∧ (updateRounded fl m (trigger env v t0) t later).1.value
          = fl (env.value + fl (fl (v - env.value) * 1))
      ∧ (updateRounded fl m (trigger env v t0) t later).1.peakValue = v
      ∧ (updateRounded fl m (trigger env v t0) t later).1.phase = Phase.decay)
    ∧ (fl (fl (t - t0) / env.attack) < 1 →
      (updateRounded fl m (trigger env v t0) t later).2
          = fl (env.value + fl (fl (v - env.value) * fl (fl (t - t0) / env.attack)))
      ∧ (updateRounded fl m (trigger env v t0) t later).1.phase = Phase.attack) := by
  have hne : env.attack ≠ 0 := ne_of_gt h
  constructor
  · intro hq
    have hmin : min 1 (fl (fl (t - t0) / env.attack)) = 1 := min_eq_left hq
    simp only [updateRounded, trigger, updateAttackRounded, if_neg hne, hmin, ge_iff_le,
      le_refl, if_true, and_self]
  · intro hq
    have hmin : min 1 (fl (fl (t - t0) / env.attack)) = fl (fl (t - t0) / env.attack) :=
      min_eq_right hq.le
    simp only [updateRounded, trigger, updateAttackRounded, if_neg hne, hmin, ge_iff_le,
      if_neg (not_le.mpr hq), and_self]

/-- The value `fl (s + fl (fl (v - s) * 1))` is within rounding error of `v`
for a rounding of relative error at most `u`. -/
theorem ramp_end_error (fl : α → α) (u s v : α) (hu : ∀ x, |fl x - x| ≤ u * |x|) :
    |fl (s + fl (fl (v - s) * 1)) - v|
      ≤ u * (|s| + ((1 + u) ^ 2 + (1 + u) + 1) * |v - s|) := by
  have hu0 : 0 ≤ u := by
    have := hu 1
    rw [abs_one, mul_one] at this
    exact le_trans (abs_nonneg _) this
  have ha := hu (v - s)
  have hb := hu (fl (v - s) * 1)
  have hc := hu (s + fl (fl (v - s) * 1))
  rw [mul_one] at hb
  rw [mul_one] at hc ⊢
  generalize fl (v - s) = a at ha hb hc ⊢
  generalize fl a = b at hb hc ⊢
  generalize fl (s + b) = c at hc ⊢
  have hD : 0 ≤ |v - s| := abs_nonneg _
  have ha1 : |a| ≤ (1 + u) * |v - s| := by
    have := abs_sub_abs_le_abs_sub a (v - s)
    linarith
  have hb1 : |b| ≤ (1 + u) ^ 2 * |v - s| := by
    have h1 := abs_sub_abs_le_abs_sub b a
    have h2 : u * |a| ≤ u * ((1 + u) * |v - s|) := mul_le_mul_of_nonneg_left ha1 hu0
    nlinarith
  have hsb : |s + b| ≤ |s| + (1 + u) ^ 2 * |v - s| := by
    have := abs_add s b
    linarith
  have h3 : u * |s + b| ≤ u * (|s| + (1 + u) ^ 2 * |v - s|) :=
    mul_le_mul_of_nonneg_left hsb hu0
  have h4 : u * |a| ≤ u * ((1 + u) * |v - s|) := mul_le_mul_of_nonneg_left ha1 hu0
  have hsum : c - v = (c - (s + b)) + (b - a) + (a - (v - s)) := by ring
  have htri : |c - v| ≤ |c - (s + b)| + |b - a| + |a - (v - s)| := by
    rw [hsum]
    exact (abs_add _ _).trans (add_le_add_right (abs_add _ _) _)
  nlinarith

/-- Doubles that are rounded to themselves: `1`, `50`. -/
theorem roundDouble_exact :
    roundDouble (1 : ℝ) = 1 ∧ roundDouble (50 : ℝ) = 50 := by
  constructor
  · rw [roundDouble_eq (1 : ℝ) 0 (2 ^ 52) (by norm_num) (by norm_num) (by norm_num)]
    norm_num
  · rw [roundDouble_eq (50 : ℝ) 5 (50 * 2 ^ 47) (by norm_num) (by norm_num) (by norm_num)]
    norm_num

/-- The rounded operations of the ramp from the double `0.7` to the double
`0.1` at progress `1`. -/
theorem roundDouble_ramp :
    roundDouble ((7205759403792794 / 2 ^ 56 : ℝ) - 6305039478318694 / 2 ^ 53)
      = -(5404319552844595 / 2 ^ 53)
    ∧ roundDouble (-(5404319552844595 / 2 ^ 53 : ℝ) * 1) = -(5404319552844595 / 2 ^ 53)
    ∧ roundDouble ((6305039478318694 / 2 ^ 53 : ℝ) + -(5404319552844595 / 2 ^ 53))
      = 7205759403792792 / 2 ^ 56 := by
  refine ⟨?_, ?_, ?_⟩
  · rw [roundDouble_eq _ (-1) (-5404319552844595) (by norm_num [abs_of_neg])
      (by norm_num [abs_of_neg]) (by norm_num [abs_lt])]
    norm_num
  · rw [roundDouble_eq _ (-1) (-5404319552844595) (by norm_num [abs_of_neg])
      (by norm_num [abs_of_neg]) (by norm_num [abs_lt])]
    norm_num
  · rw [roundDouble_eq _ (-4) 7205759403792792 (by norm_num [abs_of_pos])
      (by norm_num [abs_of_pos]) (by norm_num [abs_lt])]
    norm_num

/-- On doubles, the progress of an update `50` ms after the trigger of an
envelope with `attackMs = 50` is `1`. -/
theorem warm_progress :
    (1 : ℝ) ≤ roundDouble (roundDouble (1050 - 1000) / (warmEnvelope : Envelope ℝ).attack) := by
  have h50 : (1050 - 1000 : ℝ) = 50 := by norm_num
  have ha : (warmEnvelope : Envelope ℝ).attack = 50 := rfl
  rw [h50, roundDouble_exact.2, ha, div_self (by norm_num), roundDouble_exact.1]

/-- On doubles, the update at the end of the attack from the double nearest
to `0.7` towards the double nearest to `0.1` returns `7205759403792792 /
2 ^ 56`. -/
theorem warm_value (m : JSMath ℝ) (later : ℝ) :
    (updateRounded roundDouble m (trigger warmEnvelope (roundDouble 0.1) 1000) 1050 later).2
      = 7205759403792792 / 2 ^ 56 := by
  have h := (updateRounded_trigger roundDouble m (warmEnvelope : Envelope ℝ) (roundDouble 0.1)
    1000 1050 later (by norm_num [warmEnvelope, new])).1 warm_progress
  rw [h.1]
  have hv : (warmEnvelope : Envelope ℝ).value = roundDouble 0.7 := rfl
  rw [hv, roundDouble_seven_tenths.1, roundDouble_seven_tenths.2, roundDouble_ramp.1,
    roundDouble_ramp.2.1, roundDouble_ramp.2.2]

/-- C7 (as stated, refuted), on doubles: an envelope with `attackMs = 50`
whose value is the double nearest to `0.7` is triggered at clock time `1000`
with the double nearest to `0.1`; the `update()` at clock time `1050`, the end
of the attack, returns `7205759403792792 / 2 ^ 56` (printed
`0.09999999999999998`), which is not the target `7205759403792794 / 2 ^ 56`. -/
theorem C7_counterexample :
    (0 : ℝ) < (warmEnvelope : Envelope ℝ).attack
    ∧ (1000 : ℝ) + (warmEnvelope : Envelope ℝ).attack ≤ 1050
    ∧ roundDouble (roundDouble (0.1 : ℝ)) = roundDouble 0.1
    ∧ (updateRounded roundDouble (realMath fun _ => 0)
        (trigger warmEnvelope (roundDouble 0.1) 1000) 1050 1050).2
        = 7205759403792792 / 2 ^ 56
    ∧ roundDouble (0.1 : ℝ) = 7205759403792794 / 2 ^ 56
    ∧ (updateRounded roundDouble (realMath fun _ => 0)
        (trigger warmEnvelope (roundDouble 0.1) 1000) 1050 1050).2 ≠ roundDouble 0.1 := by
  refine ⟨by norm_num [warmEnvelope, new], by norm_num [warmEnvelope, new], ?_,
    warm_value _ _, roundDouble_seven_tenths.2, ?_⟩
  · rw [roundDouble_seven_tenths.2]
    rw [roundDouble_eq _ (-4) 7205759403792794 (by norm_num [abs_of_pos])
      (by norm_num [abs_of_pos]) (by norm_num [abs_lt])]
    norm_num
  · rw [warm_value, roundDouble_seven_tenths.2]
    norm_num

/-- C7 (amended): for an envelope with `attackMs > 0`, in any prior state with
value `s`, consider the first `update()` at clock time `t` after `trigger(v)`
at clock time `t0`.  In exact arithmetic it returns `s + (v - s) * (t - t0) /
attackMs` when `t < t0 + attackMs`.  With a rounding `fl` after every
operation (`fl = id` gives the exact method) and `p = fl (fl (t - t0) /
attackMs)`: when `p < 1` it returns `fl (s + fl (fl (v - s) * p))` and stays
in the attack phase; when `p ≥ 1`, which holds for `t ≥ t0 + attackMs`
whenever `t - t0` is exact and `fl` takes no number from `1` on below `1`, it
returns `fl (s + fl (fl (v - s) * 1))`, stores that as the value, records
exactly `v` as the peak value and moves to the decay phase.  The returned
value is never replaced by `v`: it is `v` when the subtraction `v - s` is
exact and `v` is a fixed point of `fl`, and in general it is within `u * (|s|
+ ((1 + u)^2 + (1 + u) + 1) * |v - s|)` of `v` for a rounding of relative
error at most `u`. -/
theorem C7_attack_ramp (fl : α → α) (m : JSMath α) (env : Envelope α) (v t0 t later : α)
    (h : 0 < env.attack) :
    (t < t0 + env.attack →
      (update m (trigger env v t0) t later).2
        = env.value + (v - env.value) * (t - t0) / env.attack)
    ∧ updateRounded id m (trigger env v t0) t later = update m (trigger env v t0) t later
    ∧ (fl (fl (t - t0) / env.attack) < 1 →
        (updateRounded fl m (trigger env v t0) t later).2
          = fl (env.value + fl (fl (v - env.value) * fl (fl (t - t0) / env.attack)))
        ∧ (updateRounded fl m (trigger env v t0) t later).1.phase = Phase.attack)
    ∧ ((∀ x, 1 ≤ x → 1 ≤ fl x) → fl (t - t0) = t - t0 → t0 + env.attack ≤ t →
        1 ≤ fl (fl (t - t0) / env.attack))
    ∧ (1 ≤ fl (fl (t - t0) / env.attack) →
        (updateRounded fl m (trigger env v t0) t later).2
          = fl (env.value + fl (fl (v - env.value) * 1))
        ∧ (updateRounded fl m (trigger env v t0) t later).1.value
          = (updateRounded fl m (trigger env v t0) t later).2
        ∧ (updateRounded fl m (trigger env v t0) t later).1.peakValue = v
        ∧ (updateRounded fl m (trigger env v t0) t later).1.phase = Phase.decay
        ∧ (fl (v - env.value) = v - env.value → fl v = v →
            (updateRounded fl m (trigger env v t0) t later).2 = v)
        ∧ ∀ u, (∀ x, |fl x - x| ≤ u * |x|) →
            |(updateRounded fl m (trigger env v t0) t later).2 - v|
              ≤ u * (|env.value| + ((1 + u) ^ 2 + (1 + u) + 1) * |v - env.value|)) := by
  have hne : env.attack ≠ 0 := ne_of_gt h
  have hr := updateRounded_trigger fl m env v t0 t later h
  refine ⟨?_, updateRounded_id m _ t later, hr.2, ?_, ?_⟩
  · intro ht
    have hlt : (t - t0) / env.attack < 1 := by
      rw [div_lt_one h]
      linarith
    have hmin : min 1 ((t - t0) / env.attack) = (t - t0) / env.attack :=
      min_eq_right hlt.le
    simp only [update, trigger, updateAttack, if_neg hne, hmin, ge_iff_le,
      if_neg (not_le.mpr hlt)]
    rw [mul_div_assoc]
  · intro hfl hexact ht
    rw [hexact]
    apply hfl
    rw [le_div_iff₀ h]
    linarith
  · intro hq
    obtain ⟨h2, h1, hpeak, hphase⟩ := hr.1 hq
    refine ⟨h2, h1.trans h2.symm, hpeak, hphase, ?_, ?_⟩
    · intro hsub hv
      rw [h2, hsub, mul_one, hsub, add_sub_cancel, hv]
    · intro u hu
      rw [h2]
      exact ramp_end_error fl u env.value v hu

/-- C7 (amended), witness: the kick preset shape `attackMs = 50`, triggered at
clock time `1000`.  From value `0` with target `1`, half way through the
attack `update()` returns `0.5` in exact arithmetic, and at its end it returns
exactly `1` on doubles.  From the double nearest to `0.7` with the double
nearest to `0.1` as target, the update at the end of the attack records
the target as peak, moves to the decay phase and returns a value within the
rounding bound, with `u = 2 ^ (-53)`, of the target. -/
theorem C7_attack_ramp_witness :
    (update (realMath fun _ => 0) (trigger (new (50 : ℝ) 200 0.3 1500) 1 1000) 1025 1025).2
        = 0.5
    ∧ (updateRounded roundDouble (realMath fun _ => 0)
        (trigger (new (50 : ℝ) 200 0.3 1500) 1 1000) 1050 1050).2 = 1
    ∧ (updateRounded roundDouble (realMath fun _ => 0)
        (trigger warmEnvelope (roundDouble 0.1) 1000) 1050 1050).1.peakValue = roundDouble 0.1
    ∧ (updateRounded roundDouble (realMath fun _ => 0)
        (trigger warmEnvelope (roundDouble 0.1) 1000) 1050 1050).1.phase = Phase.decay
    ∧ |(updateRounded roundDouble (realMath fun _ => 0)
          (trigger warmEnvelope (roundDouble 0.1) 1000) 1050 1050).2 - roundDouble (0.1 : ℝ)|
        ≤ (2 : ℝ) ^ (-53 : ℤ) * (|(warmEnvelope : Envelope ℝ).value|
            + ((1 + (2 : ℝ) ^ (-53 : ℤ)) ^ 2 + (1 + (2 : ℝ) ^ (-53 : ℤ)) + 1)
              * |roundDouble (0.1 : ℝ) - (warmEnvelope : Envelope ℝ).value|) := by
  have h50 : (0 : ℝ) < (new (50 : ℝ) 200 0.3 1500).attack := by norm_num [new]
  have hexact : roundDouble (1050 - 1000 : ℝ) = 1050 - 1000 := by
    have h50 : (1050 - 1000 : ℝ) = 50 := by norm_num
    rw [h50, roundDouble_exact.2]
  have hfresh := C7_attack_ramp roundDouble (realMath fun _ => 0) (new (50 : ℝ) 200 0.3 1500)
    1 1000 1025 1025 h50
  have hend := C7_attack_ramp roundDouble (realMath fun _ => 0) (new (50 : ℝ) 200 0.3 1500)
    1 1000 1050 1050 h50
  have hwarm := C7_attack_ramp roundDouble (realMath fun _ => 0) (warmEnvelope : Envelope ℝ)
    (roundDouble 0.1) 1000 1050 1050 (by norm_num [warmEnvelope, new])
  have hw := hwarm.2.2.2.2
    (hwarm.2.2.2.1 roundDouble_one_le hexact (by norm_num [warmEnvelope, new]))
  have he := hend.2.2.2.2 (hend.2.2.2.1 roundDouble_one_le hexact (by norm_num [new]))
  refine ⟨?_, ?_, hw.2.2.1, hw.2.2.2.1, hw.2.2.2.2.2 _ roundDouble_relative⟩
  · rw [hfresh.1 (by norm_num [new])]
    norm_num [new]
  · apply he.2.2.2.2.1
    · have : ((1 : ℝ) - (new (50 : ℝ) 200 0.3 1500).value) = 1 := by norm_num [new]
      rw [this, roundDouble_exact.1]
    · exact roundDouble_exact.1

/-- C8: for an envelope with a non-negative release time `releaseMs` that is
in the attack, decay or sustain phase, after `triggerRelease()` at clock time
`t0` an `update()` at any clock time `t ≥ t0 + releaseMs` returns exactly `0`
and leaves the envelope idle with value `0` (for `releaseMs = 0` this is every
`t`, so it holds for the very first update); and `triggerRelease()` in the idle
or release phase changes no field of the envelope. -/
theorem C8_release (m : JSMath α) (env : Envelope α) (t0 t later : α)
    (hr : 0 ≤ env.release) :
    ((env.phase = Phase.attack ∨ env.phase = Phase.decay ∨ env.phase = Phase.sustain) →
      t0 + env.release ≤ t →
      (update m (triggerRelease env t0) t later).2 = 0
      ∧ (update m (triggerRelease env t0) t later).1.value = 0
      ∧ (update m (triggerRelease env t0) t later).1.phase = Phase.idle)
    ∧ ((env.phase = Phase.idle ∨ env.phase = Phase.release) →
      triggerRelease env t0 = env) := by
  constructor
  · intro hp ht
    have hcond : env.phase ≠ Phase.idle ∧ env.phase ≠ Phase.release := by
      rcases hp with hp | hp | hp <;> rw [hp] <;> exact ⟨by decide, by decide⟩
    by_cases h0 : env.release = 0
    · simp [update, triggerRelease, if_pos hcond, updateRelease, h0]
    · have hpos : 0 < env.release := lt_of_le_of_ne hr (Ne.symm h0)
      have hge : 1 ≤ (t - t0) / env.release := by
        rw [le_div_iff₀ hpos]
        linarith
      have hmin : min 1 ((t - t0) / env.release) = 1 := min_eq_left hge
      simp [update, triggerRelease, if_pos hcond, updateRelease, h0, hmin]
  · intro hp
    have hcond : ¬ (env.phase ≠ Phase.idle ∧ env.phase ≠ Phase.release) := by
      rcases hp with hp | hp <;> rw [hp] <;> decide
    simp only [triggerRelease, if_neg hcond]

/-- C8, witness: the kick preset shape `releaseMs = 1500`, released at clock
time `1000` from the sustain phase; the update at `2500` returns `0` and
leaves the envelope idle. -/
theorem C8_release_witness :
    (0 : ℝ) ≤ ({ new (50 : ℝ) 200 0.3 1500 with
        phase := Phase.sustain, value := 0.3, peakValue := 1 } : Envelope ℝ).release
    ∧ (update (realMath fun _ => 0)
        (triggerRelease ({ new (50 : ℝ) 200 0.3 1500 with
          phase := Phase.sustain, value := 0.3, peakValue := 1 } : Envelope ℝ) 1000)
        2500 2500).2 = 0
    ∧ (update (realMath fun _ => 0)
        (triggerRelease ({ new (50 : ℝ) 200 0.3 1500 with
          phase := Phase.sustain, value := 0.3, peakValue := 1 } : Envelope ℝ) 1000)
        2500 2500).1.phase = Phase.idle :=
  have h : (0 : ℝ) ≤ ({ new (50 : ℝ) 200 0.3 1500 with
      phase := Phase.sustain, value := 0.3, peakValue := 1 } : Envelope ℝ).release := by
    norm_num [new]
  ⟨h,
    ((C8_release (realMath fun _ => 0) _ 1000 2500 2500 h).1
      (Or.inr (Or.inr rfl)) (by norm_num [new])).1,
    ((C8_release (realMath fun _ => 0) _ 1000 2500 2500 h).1
      (Or.inr (Or.inr rfl)) (by norm_num [new])).2.2⟩

/-- The real power of a number in `[0, 1]` with a non-negative exponent is
in `[0, 1]`. -/
theorem pow_unit (r : ℕ → ℝ) (p y : ℝ) (hp0 : 0 ≤ p) (hp1 : p ≤ 1) (hy : 0 ≤ y) :
    0 ≤ (realMath r).pow p y ∧ (realMath r).pow p y ≤ 1 :=
  ⟨Real.rpow_nonneg hp0 y, Real.rpow_le_one hp0 hp1 hy⟩

/-- The progress `min(1, elapsed / duration)` of a phase is in `[0, 1]` when
no negative time has elapsed and the duration is positive. -/
theorem progress_unit (elapsed duration : α) (he : 0 ≤ elapsed) (hd : 0 < duration) :
    0 ≤ min 1 (elapsed / duration) ∧ min 1 (elapsed / duration) ≤ 1 :=
  ⟨le_min zero_le_one (div_nonneg he hd.le), min_le_left _ _⟩

/-- One `update()` under the invariant: the invariant holds afterwards, and
the returned value is bounded by the peak in the decay and sustain phases and
by the captured previous value in the release phase. -/
theorem update_spec (r : ℕ → ℝ) (env : Envelope ℝ) (c now later : ℝ) (hinv : Inv env c)
    (h1 : c ≤ now) (h2 : now ≤ later) :
    Inv (update (realMath r) env now later).1 later
    ∧ ((env.phase = Phase.decay ∨ env.phase = Phase.sustain) →
        0 ≤ (update (realMath r) env now later).2
        ∧ (update (realMath r) env now later).2 ≤ env.peakValue)
    ∧ (env.phase = Phase.release →
        0 ≤ (update (realMath r) env now later).2
        ∧ (update (realMath r) env now later).2 ≤ env.previousValue) := by
  obtain ⟨a, d, s, rl, ph, val, tv, pk, pst, lut, pv⟩ := env
  simp only [Inv] at hinv
  obtain ⟨ha, hd, hrl, hs0, hs1, hval, htv, hpk, hpv, hst⟩ := hinv
  cases ph with
  | idle =>
    simp only [update, Inv]
    refine ⟨⟨ha, hd, hrl, hs0, hs1, le_refl _, htv, hpk, hpv, fun h => absurd rfl h⟩, ?_, ?_⟩
    · intro h
      rcases h with h | h <;> cases h
    · intro h
      cases h
  | attack =>
    have hst2 : pst ≤ now := le_trans (hst (by decide)) h1
    refine ⟨?_, ?_, ?_⟩
    · by_cases h0 : a = 0
      · simp only [update, updateAttack, if_pos h0, Inv]
        exact ⟨ha, hd, hrl, hs0, hs1, htv, htv, htv, hpv, fun _ => le_refl _⟩
      · have hpos : 0 < a := lt_of_le_of_ne ha (Ne.symm h0)
        obtain ⟨hp0, hp1⟩ := progress_unit (now - pst) a (by linarith) hpos
        have hv : 0 ≤ pv + (tv - pv) * min 1 ((now - pst) / a) := by
          nlinarith [mul_nonneg htv hp0, mul_nonneg hpv (sub_nonneg.mpr hp1)]
        simp only [update, updateAttack, if_neg h0]
        split
        · exact ⟨ha, hd, hrl, hs0, hs1, hv, htv, htv, hv, fun _ => le_refl _⟩
        · exact ⟨ha, hd, hrl, hs0, hs1, hv, htv, hpk, hpv,
            fun _ => le_trans hst2 h2⟩
    · intro h
      rcases h with h | h <;> cases h
    · intro h
      cases h
  | decay =>
    have hst2 : pst ≤ now := le_trans (hst (by decide)) h1
    have hsv0 : 0 ≤ pk * s := mul_nonneg hpk hs0
    have hsv1 : pk * s ≤ pk := by nlinarith
    by_cases h0 : d = 0
    · simp only [update, updateDecay, if_pos h0, Inv]
      refine ⟨⟨ha, hd, hrl, hs0, hs1, hsv0, htv, hpk, hpv, fun _ => le_refl _⟩, ?_, ?_⟩
      · intro _
        exact ⟨hsv0, hsv1⟩
      · intro h
        cases h
    · have hpos : 0 < d := lt_of_le_of_ne hd (Ne.symm h0)
      obtain ⟨hp0, hp1⟩ := progress_unit (now - pst) d (by linarith) hpos
      obtain ⟨hq0, hq1⟩ := pow_unit r (min 1 ((now - pst) / d)) 1.5 hp0 hp1 (by norm_num)
      have hv0 : 0 ≤ pk * s + (pk - pk * s)
          * (1 - (realMath r).pow (min 1 ((now - pst) / d)) 1.5) := by
        have : 0 ≤ (pk - pk * s) * (1 - (realMath r).pow (min 1 ((now - pst) / d)) 1.5) :=
          mul_nonneg (by linarith) (by linarith)
        linarith
      have hv1 : pk * s + (pk - pk * s)
          * (1 - (realMath r).pow (min 1 ((now - pst) / d)) 1.5) ≤ pk := by
        have : (pk - pk * s) * (1 - (realMath r).pow (min 1 ((now - pst) / d)) 1.5)
            ≤ (pk - pk * s) * 1 :=
          mul_le_mul_of_nonneg_left (by linarith) (by linarith)
        linarith
      simp only [update, updateDecay, if_neg h0]
      refine ⟨?_, ?_, ?_⟩
      · split
        · exact ⟨ha, hd, hrl, hs0, hs1, hv0, htv, hpk, hv0, fun _ => le_refl _⟩
        · exact ⟨ha, hd, hrl, hs0, hs1, hv0, htv, hpk, hpv, fun _ => le_trans hst2 h2⟩
      · intro _
        split <;> exact ⟨hv0, hv1⟩
      · intro h
        cases h
  | sustain =>
    have hst2 : pst ≤ now := le_trans (hst (by decide)) h1
    have hsv0 : 0 ≤ pk * s := mul_nonneg hpk hs0
    have hsv1 : pk * s ≤ pk := by nlinarith
    simp only [update, updateSustain, Inv]
    refine ⟨⟨ha, hd, hrl, hs0, hs1, hsv0, htv, hpk, hpv, fun _ => le_trans hst2 h2⟩, ?_, ?_⟩
    · intro _
      exact ⟨hsv0, hsv1⟩
    · intro h
      cases h
  | release =>
    have hst2 : pst ≤ now := le_trans (hst (by decide)) h1
    by_cases h0 : rl = 0
    · simp only [update, updateRelease, if_pos h0, Inv]
      refine ⟨⟨ha, hd, hrl, hs0, hs1, le_refl _, htv, hpk, hpv, fun h => absurd rfl h⟩, ?_, ?_⟩
      · intro h
        rcases h with h | h <;> cases h
      · intro _
        exact ⟨le_refl _, hpv⟩
    · have hpos : 0 < rl := lt_of_le_of_ne hrl (Ne.symm h0)
      obtain ⟨hp0, hp1⟩ := progress_unit (now - pst) rl (by linarith) hpos
      obtain ⟨hq0, hq1⟩ := pow_unit r (min 1 ((now - pst) / rl)) 2 hp0 hp1 (by norm_num)
      have hv0 : 0 ≤ pv * (1 - (realMath r).pow (min 1 ((now - pst) / rl)) 2) :=
        mul_nonneg hpv (by linarith)
      have hv1 : pv * (1 - (realMath r).pow (min 1 ((now - pst) / rl)) 2) ≤ pv := by
        have : pv * (1 - (realMath r).pow (min 1 ((now - pst) / rl)) 2) ≤ pv * 1 :=
          mul_le_mul_of_nonneg_left (by linarith) hpv
        linarith
      simp only [update, updateRelease, if_neg h0]
      refine ⟨?_, ?_, ?_⟩
      · split
        · exact ⟨ha, hd, hrl, hs0, hs1, le_refl _, htv, hpk, hpv, fun h => absurd rfl h⟩
        · exact ⟨ha, hd, hrl, hs0, hs1, hv0, htv, hpk, hpv, fun _ => le_trans hst2 h2⟩
      · intro h
        rcases h with h | h <;> cases h
      · intro _
        split
        · exact ⟨le_refl _, hpv⟩
        · exact ⟨hv0, hv1⟩

/-- A freshly constructed envelope with non-negative durations and a sustain
level in `[0, 1]` satisfies the invariant at every clock reading. -/
theorem new_inv (a d s rl c : ℝ) (ha : 0 ≤ a) (hd : 0 ≤ d) (hs0 : 0 ≤ s) (hs1 : s ≤ 1)
    (hrl : 0 ≤ rl) : Inv (new a d s rl) c :=
  ⟨ha, hd, hrl, hs0, hs1, le_refl _, le_refl _, le_refl _, le_refl _,
    fun h => absurd rfl h⟩

/-- One admissible call with non-decreasing clock readings keeps the
invariant. -/
theorem step_inv (r : ℕ → ℝ) (env : Envelope ℝ) (c : ℝ) (call : Call ℝ)
    (hinv : Inv env c) (hadm : call.Admissible) (hclk : Clocked c [call]) :
    Inv (step (realMath r) env call) (endClock c [call]) := by
  cases call with
  | trigger value now =>
    obtain ⟨ha, hd, hrl, hs0, hs1, hval, -, hpk, -, -⟩ := hinv
    exact ⟨ha, hd, hrl, hs0, hs1, hval, hadm, hpk, hval, fun _ => le_refl _⟩
  | triggerRelease now =>
    obtain ⟨ha, hd, hrl, hs0, hs1, hval, htv, hpk, hpv, hst⟩ := hinv
    simp only [step, triggerRelease, endClock]
    split
    · exact ⟨ha, hd, hrl, hs0, hs1, hval, htv, hpk, hval, fun _ => le_refl _⟩
    · exact ⟨ha, hd, hrl, hs0, hs1, hval, htv, hpk, hpv, fun h => le_trans (hst h) hclk.1⟩
  | update now later =>
    exact (update_spec r env c now later hinv hclk.1 hclk.2.1).1
  | setParameters a d s rl =>
    obtain ⟨-, -, -, -, -, hval, htv, hpk, hpv, hst⟩ := hinv
    obtain ⟨ha, hd, hs0, hs1, hrl⟩ := hadm
    exact ⟨ha, hd, hrl, hs0, hs1, hval, htv, hpk, hpv, hst⟩

/-- Any list of admissible calls with non-decreasing clock readings keeps the
invariant. -/
theorem run_inv (r : ℕ → ℝ) (calls : List (Call ℝ)) (env : Envelope ℝ) (c : ℝ)
    (hinv : Inv env c) (hadm : ∀ call ∈ calls, call.Admissible) (hclk : Clocked c calls) :
    Inv (run (realMath r) env calls) (endClock c calls) := by
  induction calls generalizing env c with
  | nil => exact hinv
  | cons call rest ih =>
    have hhead : call.Admissible := hadm call (List.mem_cons_self call rest)
    have htail : ∀ x ∈ rest, x.Admissible := fun x hx => hadm x (List.mem_cons_of_mem call hx)
    cases call with
    | trigger value now =>
      exact ih _ now (step_inv r env c (Call.trigger value now) hinv hhead ⟨hclk.1, trivial⟩)
        htail hclk.2
    | triggerRelease now =>
      exact ih _ now (step_inv r env c (Call.triggerRelease now) hinv hhead
        ⟨hclk.1, trivial⟩) htail hclk.2
    | update now later =>
      exact ih _ later (step_inv r env c (Call.update now later) hinv hhead
        ⟨hclk.1, hclk.2.1, trivial⟩) htail hclk.2.2
    | setParameters a d s rl =>
      exact ih _ c (step_inv r env c (Call.setParameters a d s rl) hinv hhead trivial)
        htail hclk

/-- C9: take an envelope constructed with non-negative durations and a
sustain level in `[0, 1]`, and any interleaving of `trigger` (targets `≥ 0`),
`triggerRelease`, `update` and `setParameters` (non-negative durations, sustain
in `[0, 1]`) calls whose clock readings never decrease.  Then an `update()`
made in the decay or sustain phase returns a value in `[0, peakValue]`, and an
`update()` made in the release phase returns a value in `[0, previousValue]`,
the value captured when the release began. -/
theorem C9_envelope_bounds (r : ℕ → ℝ) (a d s rl : ℝ) (ha : 0 ≤ a) (hd : 0 ≤ d)
    (hs0 : 0 ≤ s) (hs1 : s ≤ 1) (hrl : 0 ≤ rl) (c : ℝ) (calls : List (Call ℝ))
    (hadm : ∀ call ∈ calls, call.Admissible) (hclk : Clocked c calls)
    (now later : ℝ) (h1 : endClock c calls ≤ now) (h2 : now ≤ later) :
    (((run (realMath r) (new a d s rl) calls).phase = Phase.decay
        ∨ (run (realMath r) (new a d s rl) calls).phase = Phase.sustain) →
      0 ≤ (update (realMath r) (run (realMath r) (new a d s rl) calls) now later).2
      ∧ (update (realMath r) (run (realMath r) (new a d s rl) calls) now later).2
          ≤ (run (realMath r) (new a d s rl) calls).peakValue)
    ∧ ((run (realMath r) (new a d s rl) calls).phase = Phase.release →
      0 ≤ (update (realMath r) (run (realMath r) (new a d s rl) calls) now later).2
      ∧ (update (realMath r) (run (realMath r) (new a d s rl) calls) now later).2
          ≤ (run (realMath r) (new a d s rl) calls).previousValue) :=
  (update_spec r _ _ now later
    (run_inv r calls (new a d s rl) c (new_inv a d s rl c ha hd hs0 hs1 hrl) hadm hclk)
    h1 h2).2

/-- C9, witness: the snare preset shape `(100, 300, 0.5, 800)`, triggered with
`1` at clock time `0`, updated at `100` (end of the attack) and released at
`100`; the update at `500` is made in the release phase and returns a value
between `0` and the captured previous value `1`. -/
theorem C9_envelope_bounds_witness :
    (run (realMath fun _ => 0) (new 100 300 0.5 800)
        [Call.trigger 1 0, Call.update 100 100, Call.triggerRelease 100]).phase
      = Phase.release
    ∧ (run (realMath fun _ => 0) (new 100 300 0.5 800)
        [Call.trigger 1 0, Call.update 100 100, Call.triggerRelease 100]).previousValue = 1
    ∧ 0 ≤ (update (realMath fun _ => 0) (run (realMath fun _ => 0) (new 100 300 0.5 800)
        [Call.trigger 1 0, Call.update 100 100, Call.triggerRelease 100]) 500 500).2
    ∧ (update (realMath fun _ => 0) (run (realMath fun _ => 0) (new 100 300 0.5 800)
        [Call.trigger 1 0, Call.update 100 100, Call.triggerRelease 100]) 500 500).2
      ≤ (run (realMath fun _ => 0) (new 100 300 0.5 800)
        [Call.trigger 1 0, Call.update 100 100, Call.triggerRelease 100]).previousValue :=
  have hph : (run (realMath fun _ => 0) (new 100 300 0.5 800)
      [Call.trigger 1 0, Call.update 100 100, Call.triggerRelease 100]).phase
      = Phase.release := by
    simp [run, step, trigger, update, updateAttack, triggerRelease, new]
  have hpv : (run (realMath fun _ => 0) (new 100 300 0.5 800)
      [Call.trigger 1 0, Call.update 100 100, Call.triggerRelease 100]).previousValue
      = 1 := by
    simp [run, step, trigger, update, updateAttack, triggerRelease, new]
  have hb := (C9_envelope_bounds (fun _ => 0) 100 300 0.5 800 (by norm_num) (by norm_num)
    (by norm_num) (by norm_num) (by norm_num) 0
    [Call.trigger 1 0, Call.update 100 100, Call.triggerRelease 100]
    (by
      intro call hc
      simp only [List.mem_cons, List.mem_singleton, List.not_mem_nil, or_false] at hc
      rcases hc with rfl | rfl | rfl
      · exact zero_le_one
      · trivial
      · trivial)
    (by simp [Clocked]) 500 500 (by norm_num [endClock]) (le_refl _)).2 hph
  ⟨hph, hpv, hb.1, hb.2⟩

end EnvelopeClaims

end ADSREnvelope

namespace ParameterMapper

section MapperClaims

/-- C10: with the real `Math` functions, each of the curves `linear` (`x`),
`exponential` (`x^2`) and `logarithmic` (`log10(1 + 9x) / log10(10)`) is
monotonic non-decreasing on `[0, 1]`: for `0 ≤ x ≤ y ≤ 1` the curve value at
`x` is at most the value at `y`; and the curve `threshold` takes only the
values `0` and `1`, for every input and every threshold (given or omitted). -/
theorem C10_curves (r : ℕ → ℝ) (x y : ℝ) (hx : 0 ≤ x) (hxy : x ≤ y) (_hy : y ≤ 1)
    (threshold : Option ℝ) :
    applyCurve (realMath r) x "linear" threshold
        ≤ applyCurve (realMath r) y "linear" threshold
    ∧ applyCurve (realMath r) x "exponential" threshold
        ≤ applyCurve (realMath r) y "exponential" threshold
    ∧ applyCurve (realMath r) x "logarithmic" threshold
        ≤ applyCurve (realMath r) y "logarithmic" threshold
    ∧ (∀ (v : ℝ) (t : Option ℝ),
        applyCurve (realMath r) v "threshold" t = 0
        ∨ applyCurve (realMath r) v "threshold" t = 1) := by
  have hlog10 : 0 < Real.log 10 := Real.log_pos (by norm_num)
  refine ⟨?_, ?_, ?_, ?_⟩
  · simpa [applyCurve] using hxy
  · have h : x ^ (2 : ℝ) ≤ y ^ (2 : ℝ) := Real.rpow_le_rpow hx hxy (by norm_num)
    simpa [applyCurve, realMath] using h
  · have h1 : Real.log (1 + x * 9) ≤ Real.log (1 + y * 9) :=
      Real.log_le_log (by linarith) (by linarith)
    have h2 : Real.log (1 + x * 9) / Real.log 10 ≤ Real.log (1 + y * 9) / Real.log 10 :=
      div_le_div_of_nonneg_right h1 hlog10.le
    have h3 : Real.log 10 / Real.log 10 = 1 := div_self (ne_of_gt hlog10)
    have e : ∀ z : ℝ, applyCurve (realMath r) z "logarithmic" threshold
        = Real.log (1 + z * 9) / Real.log 10 := by
      intro z
      simp only [applyCurve, realMath]
      simp [h3]
    rw [e x, e y]
    exact h2
  · intro v t
    simp only [applyCurve]
    simp only [String.reduceEq, if_false, if_true]
    split
    · exact Or.inr rfl
    · exact Or.inl rfl

/-- C10, witness: the three monotonic curves compared at `x = 0.25` and
`y = 0.5`, and the threshold curve at input `0.2` with the default cutoff. -/
theorem C10_curves_witness :
    ((0 : ℝ) ≤ 0.25 ∧ (0.25 : ℝ) ≤ 0.5 ∧ (0.5 : ℝ) ≤ 1)
    ∧ applyCurve (realMath fun _ => 0) 0.25 "exponential" none
        ≤ applyCurve (realMath fun _ => 0) 0.5 "exponential" none
    ∧ applyCurve (realMath fun _ => 0) 0.25 "logarithmic" none
        ≤ applyCurve (realMath fun _ => 0) 0.5 "logarithmic" none
    ∧ (applyCurve (realMath fun _ => 0) 0.2 "threshold" none = 0
        ∨ applyCurve (realMath fun _ => 0) 0.2 "threshold" none = 1) :=
  have h := C10_curves (fun _ => 0) 0.25 0.5 (by norm_num) (by norm_num) (by norm_num) none
  ⟨⟨by norm_num, by norm_num, by norm_num⟩, h.2.1, h.2.2.1, h.2.2.2 0.2 none⟩

end MapperClaims

end ParameterMapper

namespace ParameterMapper

section MapperStateClaims

variable {α : Type} [LinearOrderedField α] [FloorRing α]

/-- Reading one key of the object returned by `map`. -/
theorem map_apply (m : JSMath α) (mapper : Mapper α) (audioData : AudioData α)
    (userParameters : String → Option α) (clock : String → Readings α) (name : String)
    (mapping : Mapping α) (h : mapper.mappings name = some mapping) :
    (map m mapper audioData userParameters clock).2 name
      = some (mapEntryFrom m mapping (getSourceValue audioData mapping.source)
          (userParameters name) (clock name)).2 := by
  simp only [map, h, Option.map_some', mapEntry]

/-- A mapping with the `linear` curve and no envelope, without a user value,
maps the source value `0` to `baseValue - (max - min) / 2`. -/
theorem mapEntryFrom_linear_zero (m : JSMath α) (mapping : Mapping α) (clock : Readings α)
    (hc : mapping.curve = "linear") (he : mapping.envelope = none) :
    (mapEntryFrom m mapping 0 none clock).2
      = mapping.baseValue - (mapping.range.2 - mapping.range.1) / 2 := by
  simp only [mapEntryFrom, applyCurve, hc, he, mapToRange, if_true]
  ring

/-- The default `hue` entry. -/
theorem new_hue :
    (new : Mapper α).mappings "hue"
      = some { source := "spectralCentroid", curve := "linear", range := (0, 360),
               baseValue := 200, scale := 1.0, envelope := none } := by
  simp [new, defaultMappings]

/-- The default `hue` entry maps the source value `0` to `20`. -/
theorem hue_from_zero (m : JSMath α) (clock : Readings α) :
    (mapEntryFrom m
      { source := "spectralCentroid", curve := "linear", range := (0, 360),
        baseValue := 200, scale := 1.0, envelope := none } 0 none clock).2 = 20 := by
  rw [mapEntryFrom_linear_zero m _ clock rfl rfl]
  norm_num

/-- C11 (the code at the failing input): on a freshly constructed mapper and
a silent feature vector, `map` returns hue `20` although the `hue` entry has
`baseValue: 200`, and saturation `0.55` although the `saturation` entry has
`baseValue: 0.8`: `mapToRange` centres the range on the source value `0.5`, so
a silent source yields `baseValue - (max - min) / 2`. -/
theorem C11_silent_is_not_base (m : JSMath α) :
    (map m new silentFeatures (fun _ => none) zeroClock).2 "hue" = some 20
    ∧ (map m new silentFeatures (fun _ => none) zeroClock).2 "saturation" = some 0.55 := by
  constructor
  · rw [map_apply m new silentFeatures _ _ "hue" _ (by simp [new, defaultMappings]; rfl)]
    simp [getSourceValue, silentFeatures, mapEntryFrom, applyCurve, mapToRange]
    norm_num
  · rw [map_apply m new silentFeatures _ _ "saturation" _ (by simp [new, defaultMappings]; rfl)]
    simp [getSourceValue, silentFeatures, mapEntryFrom, applyCurve, mapToRange]
    norm_num

/-- The mix of a user value with a mapped value: `user + (mapped - base) * 0.3`. -/
theorem mapEntryFrom_user (m : JSMath α) (mapping : Mapping α) (sourceValue user : α)
    (clock : Readings α) :
    (mapEntryFrom m mapping sourceValue (some user) clock).2
      = user + 0.3 * ((mapEntryFrom m mapping sourceValue none clock).2 - mapping.baseValue) := by
  simp only [mapEntryFrom]
  ring

/-- C12: for every mapping entry, let `mapped` be what `map` returns for its
name without user parameters (the value after the curve, scale, range and
envelope steps).  With a user value `user` for the name, `map` returns
`user + 0.3 * (mapped - baseValue)`, which is `user` itself exactly when
`mapped = baseValue`; without a user value for the name it returns `mapped`. -/
theorem C12_user_override (m : JSMath α) (mapper : Mapper α) (audioData : AudioData α)
    (userParameters : String → Option α) (clock : String → Readings α) (name : String)
    (mapping : Mapping α) (h : mapper.mappings name = some mapping) :
    ∃ mapped : α,
      (map m mapper audioData (fun _ => none) clock).2 name = some mapped
      ∧ (∀ user : α, userParameters name = some user →
          (map m mapper audioData userParameters clock).2 name
            = some (user + 0.3 * (mapped - mapping.baseValue))
          ∧ ((map m mapper audioData userParameters clock).2 name = some user
              ↔ mapped = mapping.baseValue))
      ∧ (userParameters name = none →
          (map m mapper audioData userParameters clock).2 name = some mapped) := by
  refine ⟨(mapEntryFrom m mapping (getSourceValue audioData mapping.source) none
    (clock name)).2, map_apply m mapper audioData _ clock name mapping h, ?_, ?_⟩
  · intro user hu
    have hres : (map m mapper audioData userParameters clock).2 name
        = some (user + 0.3 * ((mapEntryFrom m mapping
            (getSourceValue audioData mapping.source) none (clock name)).2
              - mapping.baseValue)) := by
      rw [map_apply m mapper audioData userParameters clock name mapping h, hu,
        mapEntryFrom_user]
    refine ⟨hres, ?_⟩
    rw [hres]
    constructor
    · intro he
      have he2 := Option.some.inj he
      have h3 : (0.3 : α) * ((mapEntryFrom m mapping
          (getSourceValue audioData mapping.source) none (clock name)).2
            - mapping.baseValue) = 0 := by linarith
      rcases mul_eq_zero.mp h3 with h4 | h4
      · norm_num at h4
      · linarith
    · intro he
      rw [he]
      simp
  · intro hu
    rw [map_apply m mapper audioData userParameters clock name mapping h, hu]

/-- C12, witness: the default `hue` entry on a silent feature vector maps to
`20`; with the user parameters `{ hue: 100 }` the call returns
`100 + 0.3 * (20 - 200) = 46`. -/
theorem C12_user_override_witness :
    (new : Mapper ℝ).mappings "hue"
      = some { source := "spectralCentroid", curve := "linear", range := (0, 360),
               baseValue := 200, scale := 1.0, envelope := none }
    ∧ (map (realMath fun _ => 0) new silentFeatures (fun _ => none) zeroClock).2 "hue"
        = some 20
    ∧ (map (realMath fun _ => 0) new silentFeatures hueOverride zeroClock).2 "hue"
        = some 46 := by
  have h : (new : Mapper ℝ).mappings "hue"
      = some { source := "spectralCentroid", curve := "linear", range := (0, 360),
               baseValue := 200, scale := 1.0, envelope := none } := by
    simp [new, defaultMappings]
  obtain ⟨mapped, h1, h2, -⟩ := C12_user_override (realMath fun _ => 0) new silentFeatures
    hueOverride zeroClock "hue" _ h
  have h20 : (map (realMath fun _ => 0) new silentFeatures (fun _ => none) zeroClock).2
      "hue" = some 20 := by
    rw [map_apply _ new silentFeatures _ _ "hue" _ h]
    have hs : getSourceValue (silentFeatures : AudioData ℝ) "spectralCentroid" = 0 := by
      simp [getSourceValue, silentFeatures]
    simp only [hs]
    rw [hue_from_zero]
  rw [h20] at h1
  have hm : mapped = 20 := (Option.some.inj h1).symm
  refine ⟨h, h20, ?_⟩
  rw [(h2 100 (by simp [hueOverride])).1, hm]
  norm_num

/-- C13: for every feature vector and every source name that is neither a
band present in the vector's `bands` nor a top-level field of the vector,
`getSourceValue` returns `0`; and for an entry with that source `map` returns
the value the loop body computes from the source value `0`. -/
theorem C13_unknown_source (m : JSMath α) (mapper : Mapper α) (audioData : AudioData α)
    (userParameters : String → Option α) (clock : String → Readings α)
    (name source : String) (mapping : Mapping α)
    (hb : ∀ bands, audioData.bands = some bands → bands source = none)
    (hf : audioData.fields source = none) :
    getSourceValue audioData source = 0
    ∧ (mapper.mappings name = some mapping → mapping.source = source →
        (map m mapper audioData userParameters clock).2 name
          = some (mapEntryFrom m mapping 0 (userParameters name) (clock name)).2) := by
  have h0 : getSourceValue audioData source = 0 := by
    unfold getSourceValue
    cases hbands : audioData.bands with
    | none => simp [hf]
    | some bands => simp [hb bands hbands, hf]
  refine ⟨h0, ?_⟩
  intro hm hs
  rw [map_apply m mapper audioData userParameters clock name mapping hm, hs, h0]

/-- C13, witness: the empty feature vector `{}` has no `spectralCentroid`, so
the default `hue` entry is mapped from the source value `0`, to `20`. -/
theorem C13_unknown_source_witness :
    (∀ bands, ({} : AudioData ℝ).bands = some bands → bands "spectralCentroid" = none)
    ∧ ({} : AudioData ℝ).fields "spectralCentroid" = none
    ∧ getSourceValue ({} : AudioData ℝ) "spectralCentroid" = 0
    ∧ (map (realMath fun _ => 0) new {} (fun _ => none) zeroClock).2 "hue" = some 20 := by
  have hb : ∀ bands, ({} : AudioData ℝ).bands = some bands → bands "spectralCentroid" = none := by
    intro bands h
    cases h
  have hf : ({} : AudioData ℝ).fields "spectralCentroid" = none := rfl
  have h := C13_unknown_source (realMath fun _ => 0) new {} (fun _ => none) zeroClock
    "hue" "spectralCentroid"
    { source := "spectralCentroid", curve := "linear", range := (0, 360),
      baseValue := 200, scale := 1.0, envelope := none } hb hf
  refine ⟨hb, hf, h.1, ?_⟩
  rw [h.2 new_hue rfl, hue_from_zero]

/-- C14 (as stated, refuted): after `setReactivity(1)` on a freshly
constructed mapper the scale of the `chaos` entry is not its previous scale
`0.8` multiplied by `1`. -/
theorem C14_counterexample :
    ((setReactivity (new : Mapper ℝ) 1).mappings "chaos").map (fun mapping => mapping.scale)
      ≠ ((new : Mapper ℝ).mappings "chaos").map (fun mapping => mapping.scale * 1) := by
  simp [setReactivity, new, defaultMappings]
  norm_num

/-- C14 (amended): `setReactivity(amount)` sets the scale of every mapping to
`amount`, whatever it was before, and changes no other field of any mapping;
a name without a mapping still has none, and the cache of previous values is
untouched. -/
theorem C14_setReactivity (mapper : Mapper α) (amount : α) (name : String) :
    (∀ mapping, mapper.mappings name = some mapping →
      (setReactivity mapper amount).mappings name = some { mapping with scale := amount })
    ∧ (mapper.mappings name = none → (setReactivity mapper amount).mappings name = none)
    ∧ (setReactivity mapper amount).previousValues = mapper.previousValues := by
  refine ⟨?_, ?_, rfl⟩
  · intro mapping h
    simp only [setReactivity, h, Option.map_some']
  · intro h
    simp only [setReactivity, h, Option.map_none']

/-- C14, witness: `setReactivity(1)` turns the default `chaos` entry, of scale
`0.8`, into the same entry with scale `1`. -/
theorem C14_setReactivity_witness :
    (new : Mapper ℝ).mappings "chaos"
      = some { source := "highMid", curve := "exponential", range := (0, 1),
               baseValue := 0.2, scale := 0.8, envelope := some ADSRPresets.smooth }
    ∧ (setReactivity (new : Mapper ℝ) 1).mappings "chaos"
      = some { source := "highMid", curve := "exponential", range := (0, 1),
               baseValue := 0.2, scale := 1, envelope := some ADSRPresets.smooth } := by
  have h : (new : Mapper ℝ).mappings "chaos"
      = some { source := "highMid", curve := "exponential", range := (0, 1),
               baseValue := 0.2, scale := 0.8, envelope := some ADSRPresets.smooth } := by
    simp [new, defaultMappings]
  exact ⟨h, (C14_setReactivity new 1 "chaos").1 _ h⟩

end MapperStateClaims

end ParameterMapper

namespace AudioAnalyzer

section AnalyzerClaims

variable {α : Type} [LinearOrderedField α] [FloorRing α]

/-- The clamp of `estimateBPM` lands in `[60, 200]`. -/
theorem clamp_bpm (x : α) : 60 ≤ max 60 (min 200 x) ∧ max 60 (min 200 x) ≤ 200 :=
  ⟨le_max_left _ _, max_le (by norm_num) (min_le_left _ _)⟩

/-- The method `estimateBPM` does not touch the onset history. -/
theorem estimateBPM_onsetHistory (a : Analyzer α) :
    (estimateBPM a).1.onsetHistory = a.onsetHistory := by
  unfold estimateBPM
  split
  · rfl
  · simp only []
    split <;> rfl

/-- The method `estimateBPM` keeps an estimate in `[60, 200]` in `[60, 200]`. -/
theorem estimateBPM_range (a : Analyzer α)
    (h : 60 ≤ a.estimatedBPM ∧ a.estimatedBPM ≤ 200) :
    60 ≤ (estimateBPM a).1.estimatedBPM ∧ (estimateBPM a).1.estimatedBPM ≤ 200 := by
  unfold estimateBPM
  split
  · exact h
  · simp only []
    split
    · simp only []
      split
      · exact ⟨le_max_left _ _, max_le (by norm_num) (le_refl _)⟩
      · exact clamp_bpm _
    · exact h

/-- The method `detectOnset` does not write the BPM estimate. -/
theorem detectOnset_estimatedBPM (a : Analyzer α) (now : α) :
    (detectOnset a now).1.estimatedBPM = a.estimatedBPM := by
  unfold detectOnset
  split <;> rfl

/-- The method `calcSpectralRolloff` writes `spectralRolloff` only. -/
theorem calcSpectralRolloff_eq (a : Analyzer α) :
    calcSpectralRolloff a
      = { a with spectralRolloff := (calcSpectralRolloff a).spectralRolloff } := by
  unfold calcSpectralRolloff
  simp only []
  split <;> rfl

/-- The shape of `analyze` around the onset detection: the analyzer `pre`
that enters `detectOnset` still holds the BPM estimate, the last onset time
and the onset history `analyze` started with, and the estimate and the history
after `analyze` are those after `detectOnset` and the conditional call of
`estimateBPM`. -/
theorem analyze_shape (sqrt : α → α) (a : Analyzer α) (freq time : ℕ → ℕ) (now : α) :
    ∃ pre : Analyzer α, pre.estimatedBPM = a.estimatedBPM
      ∧ pre.lastOnsetTime = a.lastOnsetTime
      ∧ pre.onsetHistory = a.onsetHistory
      ∧ (analyze sqrt a freq time now).1.estimatedBPM
          = (if (detectOnset pre now).1.onsetHistory.length ≥ 4 then
              (estimateBPM (detectOnset pre now).1).1
            else (detectOnset pre now).1).estimatedBPM
      ∧ (analyze sqrt a freq time now).1.onsetHistory
          = (detectOnset pre now).1.onsetHistory := by
  refine ⟨calcRMS sqrt (calcSpectralFlux (calcSpectralRolloff
      (calcSpectralCentroid (analyzeBands { a with freqData := freq, timeData := time })))),
      ?_, ?_, ?_, rfl, ?_⟩
  · rw [calcSpectralRolloff_eq]
    rfl
  · rw [calcSpectralRolloff_eq]
    rfl
  · rw [calcSpectralRolloff_eq]
    rfl
  · unfold analyze
    simp only []
    split
    · exact estimateBPM_onsetHistory _
    · rfl

/-- One `analyze` step keeps the BPM estimate in `[60, 200]`, and leaves it as
it was when fewer than four onsets are in the history afterwards. -/
theorem analyze_estimatedBPM (sqrt : α → α) (a : Analyzer α) (freq time : ℕ → ℕ) (now : α) :
    (60 ≤ a.estimatedBPM ∧ a.estimatedBPM ≤ 200 →
      60 ≤ (analyze sqrt a freq time now).1.estimatedBPM
      ∧ (analyze sqrt a freq time now).1.estimatedBPM ≤ 200)
    ∧ ((analyze sqrt a freq time now).1.onsetHistory.length < 4 →
      (analyze sqrt a freq time now).1.estimatedBPM = a.estimatedBPM) := by
  obtain ⟨pre, hb, -, -, he, hh⟩ := analyze_shape sqrt a freq time now
  have hb2 : (detectOnset pre now).1.estimatedBPM = a.estimatedBPM := by
    rw [detectOnset_estimatedBPM, hb]
  rw [he, hh]
  constructor
  · intro h
    split
    · exact estimateBPM_range _ (by rw [hb2]; exact h)
    · rw [hb2]; exact h
  · intro hlen
    rw [if_neg (by omega)]
    exact hb2

/-- A frame whose clock reading is at most `100` after the last onset leaves
the onset history as it was. -/
theorem analyze_quiet (sqrt : α → α) (a : Analyzer α) (freq time : ℕ → ℕ) (now : α)
    (h : ¬ (now - a.lastOnsetTime > 100)) :
    (analyze sqrt a freq time now).1.onsetHistory = a.onsetHistory := by
  obtain ⟨pre, -, hl, hh, -, he⟩ := analyze_shape sqrt a freq time now
  rw [he, ← hh]
  unfold detectOnset
  rw [if_neg (by rw [hl]; exact fun hc => h hc.2)]

/-- C15: the BPM estimate starts at `120`; after any number of `analyze`
steps on a freshly constructed analyzer it lies in `[60, 200]` (for every onset
history, strictly increasing or not); and an `analyze` step, from any analyzer
state, that ends with fewer than `4` onsets in the history leaves the stored
estimate equal to its value before the step. -/
theorem C15_bpm_invariant (sqrt : α → α) (sampleRate : α) (fftSize binCount : ℕ)
    (frames : List (Frame α)) :
    (new sampleRate fftSize binCount : Analyzer α).estimatedBPM = 120
    ∧ (60 ≤ (analyzeAll sqrt (new sampleRate fftSize binCount) frames).estimatedBPM
      ∧ (analyzeAll sqrt (new sampleRate fftSize binCount) frames).estimatedBPM ≤ 200)
    ∧ (∀ (a : Analyzer α) (frame : Frame α),
        (analyze sqrt a frame.freq frame.time frame.now).1.onsetHistory.length < 4 →
        (analyze sqrt a frame.freq frame.time frame.now).1.estimatedBPM = a.estimatedBPM) := by
  refine ⟨rfl, ?_, ?_⟩
  · have key : ∀ (fs : List (Frame α)) (a : Analyzer α),
        60 ≤ a.estimatedBPM ∧ a.estimatedBPM ≤ 200 →
        60 ≤ (analyzeAll sqrt a fs).estimatedBPM ∧ (analyzeAll sqrt a fs).estimatedBPM ≤ 200 := by
      intro fs
      induction fs with
      | nil => intro a h; exact h
      | cons f rest ih =>
        intro a h
        exact ih _ ((analyze_estimatedBPM sqrt a f.freq f.time f.now).1 h)
    exact key frames _ ⟨by norm_num [new], by norm_num [new]⟩
  · intro a frame
    exact (analyze_estimatedBPM sqrt a frame.freq frame.time frame.now).2

/-- The loop of `estimateBPM` computes the consecutive intervals. -/
theorem intervals_eq (history : List α) : intervals history = consecutiveIntervals history := by
  induction history with
  | nil => rfl
  | cons x rest ih =>
    cases rest with
    | nil => rfl
    | cons y rest2 =>
      simp only [intervals, consecutiveIntervals, List.tail_cons, List.zipWith_cons_cons]
      rw [ih]
      rfl

/-- There is one interval less than there are onsets. -/
theorem intervals_length (history : List α) :
    (intervals history).length = history.length - 1 := by
  induction history with
  | nil => rfl
  | cons x rest ih =>
    cases rest with
    | nil => rfl
    | cons y rest2 =>
      simp only [intervals, List.length_cons] at ih ⊢
      omega

/-- The intervals of a strictly increasing history are positive. -/
theorem intervals_pos (history : List α) (h : history.Sorted (fun x y => x < y)) :
    ∀ d ∈ intervals history, 0 < d := by
  induction history with
  | nil => intro d hd; cases hd
  | cons x rest ih =>
    cases rest with
    | nil => intro d hd; cases hd
    | cons y rest2 =>
      intro d hd
      simp only [intervals, List.mem_cons] at hd
      have hs := List.sorted_cons.mp h
      rcases hd with rfl | hd
      · exact sub_pos.mpr (hs.1 y (List.mem_cons_self y rest2))
      · exact ih hs.2 d hd

/-- C16: for an onset history of `n ≥ 4` strictly increasing timestamps there
is a median interval `m > 0`, the entry at index `⌊(n - 1) / 2⌋` of every
ascending sorted arrangement of the `n - 1` consecutive inter-onset intervals,
and `estimateBPM` returns and stores `max(60, min(200, 60000 / m))`. -/
theorem C16_estimateBPM_median (a : Analyzer α) (hn : 4 ≤ a.onsetHistory.length)
    (hinc : a.onsetHistory.Sorted (fun x y => x < y)) :
    ∃ median : α,
      (∀ sorted : List α, sorted.Sorted (fun x y => x ≤ y) →
        sorted.Perm (consecutiveIntervals a.onsetHistory) →
        sorted.get? ((a.onsetHistory.length - 1) / 2) = some median)
      ∧ 0 < median
      ∧ (estimateBPM a).2 = max 60 (min 200 (60000 / median))
      ∧ (estimateBPM a).1.estimatedBPM = max 60 (min 200 (60000 / median)) := by
  have hlen : ((intervals a.onsetHistory).insertionSort (fun x y => x ≤ y)).length
      = a.onsetHistory.length - 1 := by
    rw [List.length_insertionSort, intervals_length]
  have hidx : ((intervals a.onsetHistory).insertionSort (fun x y => x ≤ y)).length / 2
      < ((intervals a.onsetHistory).insertionSort (fun x y => x ≤ y)).length := by
    rw [hlen]; omega
  obtain ⟨median, hmed⟩ : ∃ median,
      ((intervals a.onsetHistory).insertionSort (fun x y => x ≤ y)).get?
        (((intervals a.onsetHistory).insertionSort (fun x y => x ≤ y)).length / 2)
        = some median := by
    rw [List.get?_eq_get hidx]
    exact ⟨_, rfl⟩
  have hmem : median ∈ intervals a.onsetHistory :=
    (List.perm_insertionSort _ _).subset (List.get?_mem hmed)
  have hpos : 0 < median := intervals_pos a.onsetHistory hinc median hmem
  have hne : median ≠ 0 := ne_of_gt hpos
  refine ⟨median, ?_, hpos, ?_, ?_⟩
  · intro sorted hs hp
    have heq : sorted = (intervals a.onsetHistory).insertionSort (fun x y => x ≤ y) := by
      apply List.eq_of_perm_of_sorted _ hs (List.sorted_insertionSort _ _)
      rw [intervals_eq]
      exact hp.trans (List.perm_insertionSort _ _).symm
    rw [heq, ← hlen]
    exact hmed
  · unfold estimateBPM
    rw [if_neg (by omega)]
    simp only [hmed, if_neg hne]
  · unfold estimateBPM
    rw [if_neg (by omega)]
    simp only [hmed, if_neg hne]

/-- C16, witness: for the history `[0, 500, 1000, 1500]` the result is `120`. -/
theorem C16_estimateBPM_median_witness :
    4 ≤ (fourOnsets : Analyzer ℝ).onsetHistory.length
    ∧ (fourOnsets : Analyzer ℝ).onsetHistory.Sorted (fun x y => x < y)
    ∧ (estimateBPM (fourOnsets : Analyzer ℝ)).2 = 120 := by
  have hn : 4 ≤ (fourOnsets : Analyzer ℝ).onsetHistory.length := by
    simp [fourOnsets]
  have hinc : (fourOnsets : Analyzer ℝ).onsetHistory.Sorted (fun x y => x < y) := by
    simp [fourOnsets, List.Sorted]
    norm_num
  obtain ⟨median, hmed, -, hres, -⟩ := C16_estimateBPM_median fourOnsets hn hinc
  have h500 := hmed [500, 500, 500] (by simp [List.Sorted])
    (by simp [consecutiveIntervals, fourOnsets]; norm_num)
  have hm : median = 500 := by
    simp [fourOnsets] at h500
    exact h500.symm
  refine ⟨hn, hinc, ?_⟩
  rw [hres, hm]
  norm_num

/-- Keeping the most recent `n` entries, appending, and keeping the most
recent `n` again is keeping the most recent `n` of the whole list. -/
theorem mostRecent_append {β : Type} (n : ℕ) (l r : List β) :
    mostRecent n (mostRecent n l ++ r) = mostRecent n (l ++ r) := by
  unfold mostRecent
  by_cases h : l.length ≤ n
  · have : l.length - n = 0 := by omega
    rw [this, List.drop_zero]
  · have hk : l.length - n ≤ l.length := by omega
    have e1 : (List.drop (l.length - n) l ++ r).length - n = r.length := by
      rw [List.length_append, List.length_drop]; omega
    have e2 : (l ++ r).length - n = (l.length - n) + r.length := by
      rw [List.length_append]; omega
    rw [e1, e2, ← List.drop_drop, List.drop_append_of_le_length hk]

/-- One `detectOnset` call on a history of at most `32` entries: when an onset
is detected the history becomes the most recent `32` entries of the old
history followed by `now` and `now` is the last onset time, and otherwise the
analyzer is as it was. -/
theorem detectOnset_step (a : Analyzer α) (now : α) (hmax : a.maxOnsetHistory = 32)
    (hlen : a.onsetHistory.length ≤ 32) :
    ((detectOnset a now).2.detected = true →
      (detectOnset a now).1.onsetHistory = mostRecent 32 (a.onsetHistory ++ [now])
      ∧ (detectOnset a now).1.lastOnsetTime = now)
    ∧ ((detectOnset a now).2.detected = false → (detectOnset a now).1 = a)
    ∧ (detectOnset a now).1.maxOnsetHistory = 32
    ∧ (detectOnset a now).1.onsetHistory.length ≤ 32 := by
  by_cases hc : fluxExceeds a = true ∧ now - a.lastOnsetTime > 100
  · have hd : detectOnset a now
        = ({ a with
              lastOnsetTime := now
              onsetHistory :=
                if (a.onsetHistory ++ [now]).length > a.maxOnsetHistory then
                  (a.onsetHistory ++ [now]).tail
                else a.onsetHistory ++ [now] },
            { detected := true, strength := a.spectralFlux, time := now }) := by
      unfold detectOnset
      rw [if_pos hc]
    rw [hd]
    have hl : (a.onsetHistory ++ [now]).length = a.onsetHistory.length + 1 := by
      rw [List.length_append, List.length_singleton]
    refine ⟨fun _ => ⟨?_, rfl⟩, fun h => by simp at h, hmax, ?_⟩
    · show (if (a.onsetHistory ++ [now]).length > a.maxOnsetHistory then
          (a.onsetHistory ++ [now]).tail else a.onsetHistory ++ [now])
        = mostRecent 32 (a.onsetHistory ++ [now])
      unfold mostRecent
      rw [hmax, hl]
      by_cases hgt : a.onsetHistory.length + 1 > 32
      · have : a.onsetHistory.length + 1 - 32 = 1 := by omega
        rw [if_pos hgt, this, List.drop_one]
      · have : a.onsetHistory.length + 1 - 32 = 0 := by omega
        rw [if_neg hgt, this, List.drop_zero]
    · show (if (a.onsetHistory ++ [now]).length > a.maxOnsetHistory then
          (a.onsetHistory ++ [now]).tail else a.onsetHistory ++ [now]).length ≤ 32
      rw [hmax, hl]
      by_cases hgt : a.onsetHistory.length + 1 > 32
      · rw [if_pos hgt, List.length_tail, hl]
        omega
      · rw [if_neg hgt, hl]
        omega
  · have hd : detectOnset a now
        = (a, { detected := false, strength := a.spectralFlux, time := now }) := by
      unfold detectOnset
      rw [if_neg hc]
    rw [hd]
    exact ⟨fun h => by simp at h, fun _ => rfl, hmax, hlen⟩

/-- The run invariant of `detectAll`, from any analyzer whose history has at
most `32` entries. -/
theorem detectAll_history (calls : List (Option α × α)) (a : Analyzer α)
    (hmax : a.maxOnsetHistory = 32) (hlen : a.onsetHistory.length ≤ 32) :
    (detectAll a calls).1.onsetHistory
        = mostRecent 32 (a.onsetHistory ++ (detectAll a calls).2)
    ∧ (detectAll a calls).1.lastOnsetTime
        = ((detectAll a calls).2.getLast?).getD a.lastOnsetTime := by
  induction calls generalizing a with
  | nil =>
    simp only [detectAll, List.append_nil, mostRecent, List.getLast?_nil, Option.getD_none,
      and_true]
    have : a.onsetHistory.length - 32 = 0 := by omega
    rw [this, List.drop_zero]
  | cons call rest ih =>
    obtain ⟨flux, now⟩ := call
    have hstep := detectOnset_step { a with spectralFlux := flux } now hmax hlen
    simp only [detectAll]
    generalize detectOnset { a with spectralFlux := flux } now = d at hstep ⊢
    obtain ⟨hdet, hnot, hmax2, hlen2⟩ := hstep
    obtain ⟨ih1, ih2⟩ := ih d.1 hmax2 hlen2
    generalize detectAll d.1 rest = later at ih1 ih2 ⊢
    rw [ih1, ih2]
    cases hd : d.2.detected with
    | true =>
      obtain ⟨hh, hl⟩ := hdet hd
      rw [hh, hl, mostRecent_append]
      simp only [if_true, List.append_assoc, List.singleton_append, true_and]
      cases later.2 with
      | nil => rfl
      | cons x xs =>
        simp only [List.getLast?_cons_cons]
        rw [List.getLast?_eq_getLast _ (List.cons_ne_nil x xs)]
        rfl
    | false =>
      rw [hnot hd]
      simp

/-- C17: after any list of `detectOnset` calls on a freshly constructed
analyzer (whatever the clock readings), the onset history is the list, oldest
first, of the most recent `min(k, 32)` readings at which an onset was detected,
`k` being the number detected, so it has `min(k, 32) ≤ 32` entries, and the
last onset time is the last such reading (`0` before the first onset).  A call
with threshold `0.15` detects an onset exactly when the spectral flux is a
number above `0.15` and `now - lastOnsetTime > 100`; a call that detects
nothing leaves the history and the last onset time as they were. -/
theorem C17_onset_history (sampleRate : α) (fftSize binCount : ℕ)
    (calls : List (Option α × α)) :
    ((detectAll (new sampleRate fftSize binCount) calls).1.onsetHistory
        = mostRecent (min (detectAll (new sampleRate fftSize binCount) calls).2.length 32)
            (detectAll (new sampleRate fftSize binCount) calls).2
      ∧ (detectAll (new sampleRate fftSize binCount) calls).1.onsetHistory.length
        = min (detectAll (new sampleRate fftSize binCount) calls).2.length 32
      ∧ (detectAll (new sampleRate fftSize binCount) calls).1.onsetHistory.length ≤ 32
      ∧ (detectAll (new sampleRate fftSize binCount) calls).1.lastOnsetTime
        = ((detectAll (new sampleRate fftSize binCount) calls).2.getLast?).getD 0)
    ∧ (∀ (a : Analyzer α) (now : α), a.onsetThreshold = 0.15 →
        (((detectOnset a now).2.detected = true
            ↔ (∃ flux, a.spectralFlux = some flux ∧ flux > 0.15)
              ∧ now - a.lastOnsetTime > 100))
        ∧ ((detectOnset a now).2.detected = false →
            (detectOnset a now).1.onsetHistory = a.onsetHistory
            ∧ (detectOnset a now).1.lastOnsetTime = a.lastOnsetTime)) := by
  constructor
  · obtain ⟨h1, h2⟩ := detectAll_history calls (new sampleRate fftSize binCount) rfl
      (by simp [new])
    have h3 : (detectAll (new sampleRate fftSize binCount) calls).1.onsetHistory
        = mostRecent (min (detectAll (new sampleRate fftSize binCount) calls).2.length 32)
            (detectAll (new sampleRate fftSize binCount) calls).2 := by
      rw [h1]
      simp only [new, List.nil_append, mostRecent]
      congr 1
      omega
    refine ⟨h3, ?_, ?_, h2⟩
    · rw [h3]
      simp only [mostRecent, List.length_drop]
      omega
    · rw [h3]
      simp only [mostRecent, List.length_drop]
      omega
  · intro a now hthr
    constructor
    · unfold detectOnset fluxExceeds
      rw [hthr]
      cases a.spectralFlux with
      | none => simp
      | some flux => 
        by_cases hc : flux > 0.15 ∧ now - a.lastOnsetTime > 100
        · simp [hc.1, hc.2]
        · simp only [decide_eq_true_eq]
          rw [if_neg hc]
          simp only [Option.some.injEq, exists_eq_left', false_iff]
          simpa using hc
    · intro hd
      unfold detectOnset at hd ⊢
      split at hd
      · cases hd
      · rename_i hc
        rw [if_neg hc]
        exact ⟨rfl, rfl⟩

/-- C15, witness: one frame at clock reading `0` on a fresh analyzer detects
no onset, so the history stays empty and the estimate stays `120`. -/
theorem C15_bpm_invariant_witness :
    (60 ≤ (analyzeAll Real.sqrt (new (44100 : ℝ) 2048 1024) [loudFrame]).estimatedBPM
      ∧ (analyzeAll Real.sqrt (new (44100 : ℝ) 2048 1024) [loudFrame]).estimatedBPM ≤ 200)
    ∧ (analyze Real.sqrt (new (44100 : ℝ) 2048 1024) (loudFrame : Frame ℝ).freq (loudFrame : Frame ℝ).time
        (loudFrame : Frame ℝ).now).1.onsetHistory.length < 4
    ∧ (analyze Real.sqrt (new (44100 : ℝ) 2048 1024) (loudFrame : Frame ℝ).freq (loudFrame : Frame ℝ).time
        (loudFrame : Frame ℝ).now).1.estimatedBPM = 120 := by
  have hq : (analyze Real.sqrt (new (44100 : ℝ) 2048 1024) (loudFrame : Frame ℝ).freq (loudFrame : Frame ℝ).time
      (loudFrame : Frame ℝ).now).1.onsetHistory.length < 4 := by
    rw [analyze_quiet Real.sqrt (new (44100 : ℝ) 2048 1024) (loudFrame : Frame ℝ).freq (loudFrame : Frame ℝ).time
      (loudFrame : Frame ℝ).now (by norm_num [new, loudFrame])]
    simp [new]
  have h := C15_bpm_invariant Real.sqrt (44100 : ℝ) 2048 1024 [loudFrame]
  exact ⟨h.2.1, hq, h.2.2 (new 44100 2048 1024) loudFrame hq⟩

/-- C17, witness: three calls with flux `0.5` at `1000`, `1050` and `1200`
detect onsets at `1000` and `1200` (the call at `1050` comes `50` ms after an
onset), and the history is `[1000, 1200]`. -/
theorem C17_onset_history_witness :
    (detectAll (new (44100 : ℝ) 2048 1024)
        [(some 0.5, 1000), (some 0.5, 1050), (some 0.5, 1200)]).2 = [1000, 1200]
    ∧ (detectAll (new (44100 : ℝ) 2048 1024)
        [(some 0.5, 1000), (some 0.5, 1050), (some 0.5, 1200)]).1.onsetHistory = [1000, 1200]
    ∧ (detectAll (new (44100 : ℝ) 2048 1024)
        [(some 0.5, 1000), (some 0.5, 1050), (some 0.5, 1200)]).1.lastOnsetTime = 1200
    ∧ (({ new (44100 : ℝ) 2048 1024 with spectralFlux := some 0.5 } : Analyzer ℝ).onsetThreshold
        = 0.15)
    ∧ (detectOnset ({ new (44100 : ℝ) 2048 1024 with spectralFlux := some 0.5 } : Analyzer ℝ)
        1000).2.detected = true := by
  have hdet : (detectAll (new (44100 : ℝ) 2048 1024)
      [(some 0.5, 1000), (some 0.5, 1050), (some 0.5, 1200)]).2 = [1000, 1200] := by
    simp [detectAll, detectOnset, fluxExceeds, new]
    norm_num
  have h := C17_onset_history (44100 : ℝ) 2048 1024
    [(some 0.5, 1000), (some 0.5, 1050), (some 0.5, 1200)]
  obtain ⟨⟨h1, -, -, h4⟩, h5⟩ := h
  rw [hdet] at h1 h4
  refine ⟨hdet, ?_, ?_, rfl, ?_⟩
  · rw [h1]
    simp [mostRecent]
  · rw [h4]
    simp
  · exact ((h5 { new (44100 : ℝ) 2048 1024 with spectralFlux := some 0.5 } 1000 rfl).1).mpr
      ⟨⟨0.5, rfl, by norm_num⟩, by norm_num [new]⟩

/-- The sum of one more byte. -/
theorem partialSum_succ (freqData : ℕ → ℕ) (n : ℕ) :
    partialSum freqData (n + 1) = partialSum freqData n + freqData n := by
  simp [partialSum, List.range_succ]

/-- The first loop of `calcSpectralRolloff` computes the sum of all bytes. -/
theorem totalEnergy_eq (freqData : ℕ → ℕ) (n : ℕ) :
    (List.range n).foldl (fun (total : α) i => total + (freqData i : α)) 0
      = (partialSum freqData n : α) := by
  induction n with
  | zero => simp [partialSum]
  | succ n ih =>
    rw [List.range_succ, List.foldl_append, ih, partialSum_succ]
    simp

/-- The second loop of `calcSpectralRolloff`: entered at bin `i` with the sum
of the bins below `i`, none of which reached the threshold, it returns the
lowest bin at which the cumulative sum reaches the threshold, provided some
bin within the fuel does. -/
theorem rolloffScan_spec (freqData : ℕ → ℕ) (threshold : α) (fuel : ℕ) :
    ∀ (i : ℕ) (c : α), c = (partialSum freqData i : α) →
      (∀ k < i, (partialSum freqData (k + 1) : α) < threshold) →
      (∃ j, i ≤ j ∧ j < i + fuel ∧ threshold ≤ (partialSum freqData (j + 1) : α)) →
      ∃ j, rolloffScan freqData threshold fuel i c = some j ∧ j < i + fuel
        ∧ threshold ≤ (partialSum freqData (j + 1) : α)
        ∧ ∀ k < j, (partialSum freqData (k + 1) : α) < threshold := by
  induction fuel with
  | zero =>
    intro i c _ _ hex
    obtain ⟨j, h1, h2, _⟩ := hex
    omega
  | succ fuel ih =>
    intro i c hc hbelow hex
    have hcum : c + (freqData i : α) = (partialSum freqData (i + 1) : α) := by
      rw [hc, partialSum_succ]
      push_cast
      rfl
    unfold rolloffScan
    simp only [hcum]
    by_cases hge : (partialSum freqData (i + 1) : α) ≥ threshold
    · rw [if_pos hge]
      exact ⟨i, rfl, by omega, hge, hbelow⟩
    · rw [if_neg hge]
      have hlt : (partialSum freqData (i + 1) : α) < threshold := not_le.mp hge
      obtain ⟨j, h1, h2, h3⟩ := hex
      have hji : j ≠ i := by
        rintro rfl
        exact hge h3
      obtain ⟨j2, g1, g2, g3, g4⟩ := ih (i + 1) _ rfl
        (by
          intro k hk
          by_cases hki : k = i
          · rw [hki]; exact hlt
          · exact hbelow k (by omega))
        ⟨j, by omega, by omega, h3⟩
      exact ⟨j2, g1, by omega, g3, g4⟩

/-- C19: for every buffer with `binCount > 0`, `calcSpectralRolloff` sets
`spectralRolloff` to `i / binCount` for a bin `i < binCount` that is the lowest
bin at which the cumulative sum of the bytes of bins `0, ..., i` reaches `0.85`
times the sum of all bytes (so the fallback `1.0` is not taken); the result is
in `[0, 1)`, and it is `0` for an all-zero buffer. -/
theorem C19_spectralRolloff (a : Analyzer α) (hbin : 0 < a.binCount) :
    ∃ i : ℕ, i < a.binCount
      ∧ (calcSpectralRolloff a).spectralRolloff = (i : α) / (a.binCount : α)
      ∧ (partialSum a.freqData a.binCount : α) * 0.85 ≤ (partialSum a.freqData (i + 1) : α)
      ∧ (∀ j < i, (partialSum a.freqData (j + 1) : α)
          < (partialSum a.freqData a.binCount : α) * 0.85)
      ∧ 0 ≤ (calcSpectralRolloff a).spectralRolloff
      ∧ (calcSpectralRolloff a).spectralRolloff < 1
      ∧ ((∀ k < a.binCount, a.freqData k = 0) →
          (calcSpectralRolloff a).spectralRolloff = 0) := by
  have htot : (0 : α) ≤ (partialSum a.freqData a.binCount : α) := Nat.cast_nonneg _
  have hlast : (partialSum a.freqData a.binCount : α) * 0.85
      ≤ (partialSum a.freqData (a.binCount - 1 + 1) : α) := by
    have : a.binCount - 1 + 1 = a.binCount := by omega
    rw [this]
    nlinarith
  obtain ⟨i, h1, h2, h3, h4⟩ := rolloffScan_spec a.freqData
    ((partialSum a.freqData a.binCount : α) * 0.85) a.binCount 0 0 (by simp [partialSum])
    (by intro k hk; omega) ⟨a.binCount - 1, by omega, by omega, hlast⟩
  have hi : i < a.binCount := by omega
  have hbpos : (0 : α) < (a.binCount : α) := by exact_mod_cast hbin
  have hroll : (calcSpectralRolloff a).spectralRolloff = (i : α) / (a.binCount : α) := by
    unfold calcSpectralRolloff
    simp only [totalEnergy_eq, h1]
  refine ⟨i, hi, hroll, h3, h4, ?_, ?_, ?_⟩
  · rw [hroll]
    exact div_nonneg (Nat.cast_nonneg _) hbpos.le
  · rw [hroll, div_lt_one hbpos]
    exact_mod_cast hi
  · intro hsilent
    have hzero : ∀ n, n ≤ a.binCount → partialSum a.freqData n = 0 := by
      intro n
      induction n with
      | zero => intro _; simp [partialSum]
      | succ n ih =>
        intro hn
        rw [partialSum_succ, ih (by omega), hsilent n (by omega)]
    have hi0 : i = 0 := by
      by_contra hne
      have h := h4 0 (by omega)
      rw [hzero 1 (by omega), hzero a.binCount (le_refl _)] at h
      simp at h
    rw [hroll, hi0]
    simp

/-- C19, witness: for the bytes `10, 0, 80, 10` the cumulative sums are
`10, 10, 90, 100`, the threshold is `85`, and the rolloff is `2 / 4`. -/
theorem C19_spectralRolloff_witness :
    0 < (fourBins : Analyzer ℝ).binCount
    ∧ (calcSpectralRolloff (fourBins : Analyzer ℝ)).spectralRolloff = 1 / 2
    ∧ 0 ≤ (calcSpectralRolloff (fourBins : Analyzer ℝ)).spectralRolloff
    ∧ (calcSpectralRolloff (fourBins : Analyzer ℝ)).spectralRolloff < 1 := by
  have hbin : 0 < (fourBins : Analyzer ℝ).binCount := by simp [fourBins, new]
  obtain ⟨i, hi, hroll, hreach, hlow, h0, h1, -⟩ := C19_spectralRolloff fourBins hbin
  refine ⟨hbin, ?_, h0, h1⟩
  have hi4 : i < 4 := hi
  have hi2 : i = 2 := by
    interval_cases i
    · norm_num [partialSum, fourBins, new, List.range_succ] at hreach
    · norm_num [partialSum, fourBins, new, List.range_succ] at hreach
    · rfl
    · have := hlow 2 (by norm_num)
      norm_num [partialSum, fourBins, new, List.range_succ] at this
  rw [hroll, hi2]
  norm_num [fourBins, new]

/-- The inner loop of `analyzeBands` after `m` passes, all of them at indices
inside the buffer: the sum of the bytes read and the count `m`. -/
theorem bandLoop_inside (a : Analyzer α) (lowBin : ℤ) (h0 : 0 ≤ lowBin) (m : ℕ)
    (hm : lowBin + (m : ℤ) ≤ (a.binCount : ℤ)) :
    (List.range m).foldl
      (fun (acc : Option α × ℕ) (k : ℕ) =>
        (acc.1.bind fun sum => (freqAt a (lowBin + (k : ℤ))).map fun b => sum + b, acc.2 + 1))
      (some 0, 0)
    = (some ((((List.range m).map fun k => a.freqData (lowBin.toNat + k)).sum : ℕ) : α), m) := by
  induction m with
  | zero => simp
  | succ m ih =>
    rw [List.range_succ, List.foldl_append, ih (by push_cast at hm; omega)]
    have hin : freqAt a (lowBin + (m : ℤ))
        = some ((a.freqData (lowBin.toNat + m) : ℕ) : α) := by
      unfold freqAt
      push_cast at hm
      rw [if_pos ⟨by omega, by omega⟩]
      have : (lowBin + (m : ℤ)).toNat = lowBin.toNat + m := by omega
      rw [this]
    simp [hin]

/-- Inside the buffer, `bandSum` is the sum of the bytes of the band and the
number of its bins. -/
theorem bandSum_inside (a : Analyzer α) (band : Band α) (h : BinsInside a band) :
    bandSum a (freqToBin a band.low) (freqToBin a band.high)
      = (some ((((List.range (freqToBin a band.high - freqToBin a band.low + 1).toNat).map
            fun k => a.freqData ((freqToBin a band.low).toNat + k)).sum : ℕ) : α),
          (freqToBin a band.high - freqToBin a band.low + 1).toNat) := by
  obtain ⟨h0, h1, h2⟩ := h
  unfold bandSum
  exact bandLoop_inside a _ h0 _ (by omega)

/-- Inside the buffer and with bytes in `[0, 255]`, the mean of a band is in
`[0, 1]`. -/
theorem bandMean_unit (a : Analyzer α) (band : Band α) (h : BinsInside a band)
    (hbytes : ∀ i < a.binCount, a.freqData i ≤ 255) :
    0 ≤ bandMean a band ∧ bandMean a band ≤ 1 := by
  obtain ⟨h0, h1, h2⟩ := h
  have hsum : ∀ m : ℕ, (freqToBin a band.low).toNat + m ≤ a.binCount →
      ((List.range m).map fun k => a.freqData ((freqToBin a band.low).toNat + k)).sum
        ≤ 255 * m := by
    intro m
    induction m with
    | zero => intro _; simp
    | succ m ih =>
      intro hm
      rw [List.range_succ, List.map_append, List.sum_append]
      have := ih (by omega)
      have hb := hbytes ((freqToBin a band.low).toNat + m) (by omega)
      simp only [List.map_cons, List.map_nil, List.sum_cons, List.sum_nil, add_zero]
      omega
  have hn : 0 < (freqToBin a band.high - freqToBin a band.low + 1).toNat := by omega
  have hnα : (0 : α) < (((freqToBin a band.high - freqToBin a band.low + 1).toNat : ℕ) : α) := by
    exact_mod_cast hn
  have hle := hsum (freqToBin a band.high - freqToBin a band.low + 1).toNat (by omega)
  have hleα : ((((List.range (freqToBin a band.high - freqToBin a band.low + 1).toNat).map
      fun k => a.freqData ((freqToBin a band.low).toNat + k)).sum : ℕ) : α)
      ≤ 255 * (((freqToBin a band.high - freqToBin a band.low + 1).toNat : ℕ) : α) := by
    exact_mod_cast hle
  unfold bandMean
  constructor
  · exact div_nonneg (div_nonneg (Nat.cast_nonneg _) hnα.le) (by norm_num)
  · rw [div_div, div_le_one (by positivity)]
    linarith

/-- The loop body of `analyzeBands` for a band inside the buffer, with
smoothing factor `0.8`: low and high stay, and a numeric value `prev` becomes
`0.8 * prev + 0.2 * mean`. -/
theorem smoothBand_inside (a : Analyzer α) (band : Band α) (prev : α)
    (hsf : a.smoothingFactor = 0.8) (h : BinsInside a band) (hv : band.value = some prev) :
    smoothBand a band
      = { band with value := some (0.8 * prev + 0.2 * bandMean a band) } := by
  have hn : 0 < (freqToBin a band.high - freqToBin a band.low + 1).toNat := by
    obtain ⟨h0, h1, h2⟩ := h
    omega
  unfold smoothBand
  simp only [bandSum_inside a band h, hv, hsf, gt_iff_lt, hn, if_true, Option.map_some',
    Option.some_bind, bandMean]
  congr 2
  norm_num

/-- The method `detectOnset` writes `lastOnsetTime` and `onsetHistory` only. -/
theorem detectOnset_eq (a : Analyzer α) (now : α) :
    (detectOnset a now).1
      = { a with
          lastOnsetTime := (detectOnset a now).1.lastOnsetTime
          onsetHistory := (detectOnset a now).1.onsetHistory } := by
  unfold detectOnset
  split <;> rfl

/-- The method `estimateBPM` writes `estimatedBPM` only. -/
theorem estimateBPM_eq (a : Analyzer α) :
    (estimateBPM a).1 = { a with estimatedBPM := (estimateBPM a).1.estimatedBPM } := by
  unfold estimateBPM
  split
  · rfl
  · simp only []
    split <;> rfl

/-- What `analyze` leaves in the bands: the result of `analyzeBands` on the
new frame; the sample rate, the bin count and the smoothing factor stay. -/
theorem analyze_bands (sqrt : α → α) (a : Analyzer α) (freq time : ℕ → ℕ) (now : α) :
    (analyze sqrt a freq time now).1.bands
        = (fun name => (a.bands name).map
            (smoothBand { a with freqData := freq, timeData := time }))
    ∧ (analyze sqrt a freq time now).1.sampleRate = a.sampleRate
    ∧ (analyze sqrt a freq time now).1.binCount = a.binCount
    ∧ (analyze sqrt a freq time now).1.smoothingFactor = a.smoothingFactor := by
  unfold analyze
  simp only []
  split
  · rw [estimateBPM_eq, detectOnset_eq, calcSpectralRolloff_eq]
    exact ⟨rfl, rfl, rfl, rfl⟩
  · rw [detectOnset_eq, calcSpectralRolloff_eq]
    exact ⟨rfl, rfl, rfl, rfl⟩

/-- Whether the bins of a band are inside the buffer depends on the analyzer
through its sample rate and bin count only. -/
theorem BinsInside_congr (a b : Analyzer α) (band : Band α)
    (hs : a.sampleRate = b.sampleRate) (hb : a.binCount = b.binCount) :
    BinsInside a band ↔ BinsInside b band := by
  unfold BinsInside freqToBin
  rw [hs, hb]

/-- The band values stay in `[0, 1]` along any list of frames whose bytes are
in `[0, 255]`, when they start there and the bands are inside the buffer. -/
theorem analyzeAll_bands (sqrt : α → α) (frames : List (Frame α)) :
    ∀ a : Analyzer α, a.smoothingFactor = 0.8 →
      (∀ f ∈ frames, ∀ i < a.binCount, f.freq i ≤ 255) →
      (∀ name band, a.bands name = some band →
        BinsInside a band ∧ ∃ v, band.value = some v ∧ 0 ≤ v ∧ v ≤ 1) →
      ∀ name band, (analyzeAll sqrt a frames).bands name = some band →
        ∃ v, band.value = some v ∧ 0 ≤ v ∧ v ≤ 1 := by
  induction frames with
  | nil =>
    intro a _ _ hb name band h
    exact (hb name band h).2
  | cons f rest ih =>
    intro a hsf hbytes hb
    obtain ⟨e1, e2, e3, e4⟩ := analyze_bands sqrt a f.freq f.time f.now
    apply ih (analyze sqrt a f.freq f.time f.now).1 (by rw [e4]; exact hsf)
    · intro g hg i hi
      rw [e3] at hi
      exact hbytes g (List.mem_cons_of_mem f hg) i hi
    · intro name band' h'
      rw [e1] at h'
      cases hband : a.bands name with
      | none => simp [hband] at h'
      | some band =>
        simp only [hband, Option.map_some', Option.some.injEq] at h'
        obtain ⟨hin, prev, hprev, hp0, hp1⟩ := hb name band hband
        have hin1 : BinsInside { a with freqData := f.freq, timeData := f.time } band := hin
        have hmean := bandMean_unit { a with freqData := f.freq, timeData := f.time } band hin1
          (fun i hi => hbytes f (List.mem_cons_self f rest) i hi)
        rw [smoothBand_inside { a with freqData := f.freq, timeData := f.time } band prev
          hsf hin1 hprev] at h'
        subst h'
        refine ⟨?_, _, rfl, by linarith [hmean.1], by linarith [hmean.2]⟩
        exact (BinsInside_congr _ a _ e2 e3).mpr hin

/-- C18: take bytes in `[0, 255]` and bands whose bin ranges lie inside the
buffer.  Starting from a freshly constructed analyzer (band values `0`), after
any number of frames every band value is a number in `[0, 1]`.  And for every
analyzer with smoothing factor `0.8` and every band with value `prev` in
`[0, 1]`, `analyzeBands` leaves the band with value `0.8 * prev + 0.2 * avg`,
its `low` and `high` unchanged, where `avg`, the mean of the frequency bytes
over the bins `freqToBin(low), ..., freqToBin(high)` divided by `255`, is in
`[0, 1]`, and so is the new value. -/
theorem C18_band_smoothing (sqrt : α → α) (sampleRate : α) (fftSize binCount : ℕ)
    (frames : List (Frame α))
    (hin : ∀ name band, defaultBands name = some band →
      BinsInside (new sampleRate fftSize binCount) band)
    (hbytes : ∀ f ∈ frames, ∀ i < binCount, f.freq i ≤ 255) :
    (∀ name band,
      (analyzeAll sqrt (new sampleRate fftSize binCount) frames).bands name = some band →
      ∃ v, band.value = some v ∧ 0 ≤ v ∧ v ≤ 1)
    ∧ (∀ (a : Analyzer α) (name : String) (band : Band α) (prev : α),
        a.smoothingFactor = 0.8 → (∀ i < a.binCount, a.freqData i ≤ 255) →
        a.bands name = some band → BinsInside a band →
        band.value = some prev → 0 ≤ prev → prev ≤ 1 →
        (analyzeBands a).bands name
            = some { band with value := some (0.8 * prev + 0.2 * bandMean a band) }
        ∧ 0 ≤ bandMean a band ∧ bandMean a band ≤ 1
        ∧ 0 ≤ 0.8 * prev + 0.2 * bandMean a band
        ∧ 0.8 * prev + 0.2 * bandMean a band ≤ 1) := by
  constructor
  · apply analyzeAll_bands sqrt frames (new sampleRate fftSize binCount) rfl hbytes
    intro name band h
    refine ⟨hin name band h, ?_⟩
    have hv : band.value = some 0 := by
      have h2 : defaultBands name = some band := h
      unfold defaultBands at h2
      repeat
        obtain ⟨-, e⟩ | ⟨-, h2⟩ := ChoreographyEngine.ite_some_cases h2
        · rw [← e]
      exact absurd h2 (by simp)
    exact ⟨0, hv, le_refl _, zero_le_one⟩
  · intro a name band prev hsf hb hband hinside hprev hp0 hp1
    have hmean := bandMean_unit a band hinside hb
    refine ⟨?_, hmean.1, hmean.2, by linarith [hmean.1], by linarith [hmean.2]⟩
    simp only [analyzeBands, hband, Option.map_some']
    rw [smoothBand_inside a band prev hsf hinside hprev]

/-- The bin of a frequency for a fresh analyzer, from the two bounds that
pin down the rounding. -/
theorem freqToBin_new (sampleRate : α) (fftSize binCount : ℕ) (frequency : α) (n : ℤ)
    (h1 : (n : α) ≤ frequency / (sampleRate / 2) * (binCount : α) + 1 / 2)
    (h2 : frequency / (sampleRate / 2) * (binCount : α) + 1 / 2 < (n : α) + 1) :
    freqToBin (new sampleRate fftSize binCount) frequency = n :=
  Int.floor_eq_iff.mpr ⟨h1, h2⟩

/-- At a sample rate of `44100` with `1024` bins, the seven default bands lie
inside the buffer. -/
theorem defaultBands_inside (name : String) (band : Band ℝ)
    (h : defaultBands name = some band) : BinsInside (new 44100 2048 1024) band := by
  unfold defaultBands at h
  have b20 := freqToBin_new (44100 : ℝ) 2048 1024 20 1 (by norm_num) (by norm_num)
  have b60 := freqToBin_new (44100 : ℝ) 2048 1024 60 3 (by norm_num) (by norm_num)
  have b250 := freqToBin_new (44100 : ℝ) 2048 1024 250 12 (by norm_num) (by norm_num)
  have b500 := freqToBin_new (44100 : ℝ) 2048 1024 500 23 (by norm_num) (by norm_num)
  have b2000 := freqToBin_new (44100 : ℝ) 2048 1024 2000 93 (by norm_num) (by norm_num)
  have b4000 := freqToBin_new (44100 : ℝ) 2048 1024 4000 186 (by norm_num) (by norm_num)
  have b8000 := freqToBin_new (44100 : ℝ) 2048 1024 8000 372 (by norm_num) (by norm_num)
  have b20000 := freqToBin_new (44100 : ℝ) 2048 1024 20000 929 (by norm_num) (by norm_num)
  repeat
    obtain ⟨-, e⟩ | ⟨-, h⟩ := ChoreographyEngine.ite_some_cases h
    · rw [← e]
      simp only [BinsInside, b20, b60, b250, b500, b2000, b4000, b8000, b20000]
      norm_num [new]
  exact absurd h (by simp)

/-- C18, witness: at a sample rate of `44100` with `1024` bins the seven
bands are inside the buffer; after two frames of bytes `255` every band value
is a number in `[0, 1]`. -/
theorem C18_band_smoothing_witness :
    (∀ name band, defaultBands name = some band →
      BinsInside (new (44100 : ℝ) 2048 1024) band)
    ∧ (∀ f ∈ [(loudFrame : Frame ℝ), loudFrame], ∀ i < 1024, f.freq i ≤ 255)
    ∧ (∀ name band,
        (analyzeAll Real.sqrt (new (44100 : ℝ) 2048 1024) [loudFrame, loudFrame]).bands name
          = some band →
        ∃ v, band.value = some v ∧ 0 ≤ v ∧ v ≤ 1) := by
  have hb : ∀ f ∈ [(loudFrame : Frame ℝ), loudFrame], ∀ i < 1024, f.freq i ≤ 255 := by
    intro f hf i _
    simp only [List.mem_cons, List.mem_singleton, List.not_mem_nil, or_false, or_self] at hf
    rw [hf]
    exact le_refl _
  exact ⟨defaultBands_inside, hb,
    (C18_band_smoothing Real.sqrt 44100 2048 1024 [loudFrame, loudFrame]
      defaultBands_inside hb).1⟩

end AnalyzerClaims

end AudioAnalyzer

namespace ChoreographyEngine

section SequenceClaims

variable {α : Type} [LinearOrderedField α] [FloorRing α]

/-- C20: for every sequence list and time `t`, `findActiveSequence(t)` returns
a sequence `s` exactly when `t` is in the window `[s.time, s.time + s.duration)`
of `s` and `s` stands in the list after sequences whose windows all miss `t`
(the first match in list order); it returns `null` exactly when no window
contains `t`; the instant `t = s.time + s.duration` is outside the window of
`s`; and when it returns `null`, `update` leaves the base parameters as they
were. -/
theorem C20_findActiveSequence (m : JSMath α) (e : Engine α) (t : α)
    (audioData : Option (AudioData α)) :
    (∀ s : Sequence α, findActiveSequence e t = some s ↔
      (t ≥ s.time ∧ t < s.time + s.duration)
      ∧ ∃ before after, e.sequences = before ++ s :: after
          ∧ ∀ x ∈ before, ¬ (t ≥ x.time ∧ t < x.time + x.duration))
    ∧ (findActiveSequence e t = none ↔
        ∀ s ∈ e.sequences, ¬ (t ≥ s.time ∧ t < s.time + s.duration))
    ∧ (∀ s : Sequence α, t = s.time + s.duration → ¬ (t ≥ s.time ∧ t < s.time + s.duration))
    ∧ (findActiveSequence e t = none →
        (update m e t audioData).1.baseParams = e.baseParams) := by
  refine ⟨?_, ?_, ?_, ?_⟩
  · intro s
    unfold findActiveSequence
    rw [List.find?_eq_some]
    simp only [decide_eq_true_eq, Bool.not_eq_true', decide_eq_false_iff_not]
  · unfold findActiveSequence
    rw [List.find?_eq_none]
    simp only [decide_eq_true_eq]
  · intro s hs h
    rw [hs] at h
    exact lt_irrefl _ h.2
  · intro hnone
    have h2 : findActiveSequence { e with playbackTime := t } t = none := hnone
    unfold update
    simp only [h2]
    cases audioData with
    | none => rfl
    | some a =>
      simp only []
      split <;> rfl

/-- C20, witness: with the single sequence `{ time: 0, duration: 10, ... }`,
time `5` finds the sequence, time `10` finds none, and `update(10)` keeps the
base parameters. -/
theorem C20_findActiveSequence_witness :
    findActiveSequence (loadSequences new [chaosSequence] : Engine ℝ) 5
      = some (validateSequence chaosSequence)
    ∧ findActiveSequence (loadSequences new [chaosSequence] : Engine ℝ) 10 = none
    ∧ (update (realMath fun _ => 0) (loadSequences new [chaosSequence] : Engine ℝ) 10
        none).1.baseParams
      = (loadSequences new [chaosSequence] : Engine ℝ).baseParams := by
  have h5 := C20_findActiveSequence (realMath fun _ => 0)
    (loadSequences new [chaosSequence] : Engine ℝ) 5 none
  have h10 := C20_findActiveSequence (realMath fun _ => 0)
    (loadSequences new [chaosSequence] : Engine ℝ) 10 none
  have hnone : findActiveSequence (loadSequences new [chaosSequence] : Engine ℝ) 10 = none := by
    apply h10.2.1.mpr
    intro s hs
    simp [loadSequences, new] at hs
    rw [hs]
    norm_num [validateSequence, chaosSequence]
  refine ⟨?_, hnone, h10.2.2.2 hnone⟩
  apply (h5.1 _).mpr
  refine ⟨by norm_num [validateSequence, chaosSequence], [], [], ?_, ?_⟩
  · simp [loadSequences, new]
  · intro x hx
    cases hx

end SequenceClaims

end ChoreographyEngine

namespace ChoreographyEngine

section ChoreographyLemmas

variable {α : Type} [LinearOrderedField α] [FloorRing α]

/-- The method `updateBaseParameters` in stages: the sequence's parameters are
assigned, the patterns applied in order, then the beat-sync step, then the
transitions in order. -/
theorem updateBaseParameters_patterns (m : JSMath α) (e : Engine α) (sequence : Sequence α)
    (currentTime : α) (audioData : Option (AudioData α)) :
    updateBaseParameters m e sequence currentTime audioData
      = sequence.transitions.foldl
          (fun e transition => applyTransition e transition currentTime sequence)
          (applyBeatSync
            (applyPatterns m
              { e with
                baseParams := assign e.baseParams fun k => (sequence.parameters k).map some }
              sequence.patterns ((currentTime - sequence.time) / sequence.duration) currentTime)
            sequence.beatSync audioData) := rfl

/-- Reading a key after the assignment `obj[key] = value`. -/
theorem setKey_apply (p : Params α) (key k : String) (v : Option α) :
    setKey p key v k = if k = key then v else p k := rfl

/-- A guarded write of another key leaves the key `k` as it is. -/
theorem ite_setKey_other (c : Prop) [Decidable c] (p : Params α) (key k : String)
    (v : Option α) (hk : k ≠ key) : (if c then setKey p key v else p) k = p k := by
  split
  · rw [setKey_apply, if_neg hk]
  · rfl

/-- On a detected onset `applyBeatSync` with a palette leaves the palette
entry at the beat counter, modulo the palette's length, as the base hue. -/
theorem applyBeatSync_hue (e : Engine α) (beatSync : BeatSync α) (a : AudioData α)
    (h : List α) (hh : beatSync.hueSnap = some h) (hon : a.onsetDetected = true) :
    (applyBeatSync e beatSync (some a)).baseParams "hue" = h.get? (e.beatCount % h.length) := by
  unfold applyBeatSync
  simp only [hh, hon]
  cases beatSync.saturationSnap <;> cases beatSync.geometryMeasures <;>
    simp only [if_true] <;>
    (repeat rw [ite_setKey_other _ _ _ _ _ (by decide)]) <;>
    simp [setKey_apply]

/-- Without a detected onset `applyBeatSync` leaves the engine as it is. -/
theorem applyBeatSync_quiet (e : Engine α) (beatSync : BeatSync α) (a : AudioData α)
    (hoff : a.onsetDetected = false) : applyBeatSync e beatSync (some a) = e := by
  unfold applyBeatSync
  cases beatSync.hueSnap <;> cases beatSync.saturationSnap <;>
    cases beatSync.geometryMeasures <;> simp [hoff]

/-- On a detected onset `applyBeatSync` with `geometryMeasures` writes the
geometry exactly when the beat counter is a multiple of the measure length. -/
theorem applyBeatSync_geometry (e : Engine α) (beatSync : BeatSync α) (a : AudioData α)
    (g : List α) (hg : beatSync.geometryMeasures = some g) (hon : a.onsetDetected = true) :
    (applyBeatSync e beatSync (some a)).baseParams "geometry"
      = if e.beatsPerMeasure ≠ 0 ∧ e.beatCount % e.beatsPerMeasure = 0 then
          g.get? ((e.beatCount / e.beatsPerMeasure) % g.length)
        else e.baseParams "geometry" := by
  unfold applyBeatSync
  simp only [hg, hon]
  cases beatSync.saturationSnap <;> cases beatSync.hueSnap <;>
    simp only [if_true] <;>
    (repeat rw [ite_setKey_other _ _ _ _ _ (by decide)]) <;>
    simp only [true_and] <;> split_ifs <;> simp [setKey_apply]

/-- The method `applyPattern` writes none of the counters. -/
theorem applyPattern_counters (m : JSMath α) (e : Engine α) (pattern : Pattern α)
    (progress currentTime : α) :
    counters (applyPattern m e pattern progress currentTime) = counters e := by
  unfold applyPattern
  cases patterns m e pattern.type <;> rfl

/-- The loop over the patterns writes none of the counters. -/
theorem applyPatterns_counters (m : JSMath α) (e : Engine α) (list : List (Pattern α))
    (progress currentTime : α) :
    counters (applyPatterns m e list progress currentTime) = counters e :=
  foldl_field _ counters (fun s x => applyPattern_counters m s x progress currentTime) list e

/-- The method `applyBeatSync` writes none of the counters. -/
theorem applyBeatSync_counters (e : Engine α) (beatSync : BeatSync α)
    (audioData : Option (AudioData α)) :
    counters (applyBeatSync e beatSync audioData) = counters e := by
  unfold applyBeatSync
  cases audioData <;> rfl

/-- The method `applyTransition` writes none of the counters. -/
theorem applyTransition_counters (e : Engine α) (transition : Transition α)
    (currentTime : α) (sequence : Sequence α) :
    counters (applyTransition e transition currentTime sequence) = counters e := by
  unfold applyTransition
  cases transition.parameters <;> simp only [] <;> split <;> rfl

/-- The method `updateBaseParameters` writes none of the counters. -/
theorem updateBaseParameters_counters (m : JSMath α) (e : Engine α)
    (sequence : Sequence α) (currentTime : α) (audioData : Option (AudioData α)) :
    counters (updateBaseParameters m e sequence currentTime audioData) = counters e := by
  rw [updateBaseParameters_patterns,
    foldl_field _ counters (fun s x => applyTransition_counters s x currentTime sequence),
    applyBeatSync_counters, applyPatterns_counters]
  rfl

/-- The method `update` keeps the sequence list and the measure length and
adds one to the beat counter exactly on a detected onset. -/
theorem update_counters (m : JSMath α) (e : Engine α) (currentTime : α)
    (audioData : Option (AudioData α)) :
    counters (update m e currentTime audioData).1
      = (e.sequences, e.beatCount + (if onsetCall (currentTime, audioData) then 1 else 0),
          e.beatsPerMeasure) := by
  have hstep : ∀ e1 : Engine α, counters e1 = counters e →
      counters (match audioData with
        | some a => if a.onsetDetected then onBeatDetected e1 a else e1
        | none => e1)
      = (e.sequences, e.beatCount + (if onsetCall (currentTime, audioData) then 1 else 0),
          e.beatsPerMeasure) := by
    intro e1 h1
    simp only [counters, Prod.mk.injEq] at h1
    obtain ⟨hs, hb, hm⟩ := h1
    cases audioData with
    | none => simp [onsetCall, counters, hs, hb, hm]
    | some a =>
      cases hd : a.onsetDetected <;> simp [onsetCall, counters, hs, hb, hm, hd, onBeatDetected]
  unfold update
  simp only []
  apply hstep
  cases findActiveSequence { e with playbackTime := currentTime } currentTime with
  | none => rfl
  | some s =>
    simp only []
    rw [updateBaseParameters_counters]
    rfl

/-- A run of `update` calls keeps the sequence list and the measure length and
adds to the beat counter the number of calls with a detected onset. -/
theorem updateAll_counters (m : JSMath α) (calls : List (α × Option (AudioData α)))
    (e : Engine α) :
    counters (updateAll m e calls)
      = (e.sequences, e.beatCount + (calls.filter onsetCall).length, e.beatsPerMeasure) := by
  induction calls generalizing e with
  | nil => rfl
  | cons call rest ih =>
    have hstep : updateAll m e (call :: rest) = updateAll m (update m e call.1 call.2).1 rest :=
      rfl
    have hc := update_counters m e call.1 call.2
    simp only [counters, Prod.mk.injEq] at hc
    obtain ⟨hs, hb, hm⟩ := hc
    rw [hstep, ih, hs, hb, hm]
    cases hcall : onsetCall call
    · have : onsetCall (call.1, call.2) = false := hcall
      simp [hcall, this]
    · have : onsetCall (call.1, call.2) = true := hcall
      simp [hcall, this]
      omega

/-- A sequence returned by `findActiveSequence` is in the list and its window
holds the time. -/
theorem findActiveSequence_some (e : Engine α) (t : α) (s : Sequence α)
    (h : findActiveSequence e t = some s) :
    s ∈ e.sequences ∧ t ≥ s.time ∧ t < s.time + s.duration := by
  unfold findActiveSequence at h
  have h1 := List.find?_some h
  have h2 := List.mem_of_find?_eq_some h
  simp only [decide_eq_true_eq] at h1
  exact ⟨h2, h1⟩

/-- The method `applyTransition` leaves a base parameter that the transition
does not name as it is. -/
theorem applyTransition_unnamed (e : Engine α) (transition : Transition α) (currentTime : α)
    (sequence : Sequence α) (k : String)
    (hk : ∀ ps, transition.parameters = some ps → ps k = none) :
    (applyTransition e transition currentTime sequence).baseParams k = e.baseParams k := by
  unfold applyTransition
  simp only []
  split
  · cases hp : transition.parameters with
    | none => rfl
    | some ps =>
      simp only [hk ps hp]
  · rfl

/-- The loop over the transitions leaves a base parameter that no transition
names as it is. -/
theorem transitions_unnamed (currentTime : α) (sequence : Sequence α) (k : String)
    (list : List (Transition α))
    (hk : ∀ tr ∈ list, ∀ ps, tr.parameters = some ps → ps k = none) (e : Engine α) :
    (list.foldl (fun e transition => applyTransition e transition currentTime sequence)
      e).baseParams k = e.baseParams k := by
  induction list generalizing e with
  | nil => rfl
  | cons tr rest ih =>
    rw [List.foldl_cons, ih (fun x hx => hk x (List.mem_cons_of_mem _ hx)),
      applyTransition_unnamed e tr currentTime sequence k (hk tr (List.mem_cons_self _ _))]

/-- A base parameter that no transition of the active sequence names is, after
`update`, as the beat-sync step left it; that step is entered after the
pattern step, with the beat counter of before the call. -/
theorem update_staged (m : JSMath α) (e : Engine α) (t : α) (audioData : Option (AudioData α))
    (s : Sequence α) (k : String) (hact : findActiveSequence e t = some s)
    (hk : ∀ tr ∈ s.transitions, ∀ ps, tr.parameters = some ps → ps k = none) :
    (update m e t audioData).1.baseParams k
      = (applyBeatSync
          (applyPatterns m
            { e with
              playbackTime := t
              currentSequence := some s
              baseParams := assign e.baseParams fun k => (s.parameters k).map some }
            s.patterns ((t - s.time) / s.duration) t)
          s.beatSync audioData).baseParams k := by
  have h2 : findActiveSequence { e with playbackTime := t } t = some s := hact
  have h3 : (update m e t audioData).1.baseParams
      = (updateBaseParameters m { e with playbackTime := t, currentSequence := some s } s t
          audioData).baseParams := by
    unfold update
    simp only [h2]
    cases audioData with
    | none => rfl
    | some a =>
      simp only []
      split <;> rfl
  rw [h3, updateBaseParameters_patterns, transitions_unnamed t s k s.transitions hk]

/-- A point `cur + (target - cur) * p` with `0 ≤ p < 1` lies between `cur` and
`target`. -/
theorem lerp_between (cur target p : α) (h0 : 0 ≤ p) (h1 : p < 1) :
    min cur target ≤ cur + (target - cur) * p ∧ cur + (target - cur) * p ≤ max cur target := by
  rcases le_total cur target with h | h
  · rw [min_eq_left h, max_eq_right h]
    constructor <;> nlinarith
  · rw [min_eq_right h, max_eq_left h]
    constructor <;> nlinarith

end ChoreographyLemmas

section ChoreographyClaims

variable {α : Type} [LinearOrderedField α] [FloorRing α]

/-- C21: the pattern step of `updateBaseParameters` runs between the
assignment of the sequence's parameters and the beat-sync step and is the
left fold of `applyPattern` over the sequence's patterns in their declared
order: nothing for the empty list, and for a list with a last pattern the
fold over the earlier ones followed by that pattern.  A pattern whose type is
not in the registry leaves the engine as it is.  A registered pattern merges
its overrides into the base parameters: each key it returns holds its value
afterwards, whatever the earlier patterns wrote there, and each key it does
not return keeps the value the earlier patterns left. -/
theorem C21_pattern_fold (m : JSMath α) (e : Engine α) (earlier : List (Pattern α))
    (pattern : Pattern α) (progress currentTime : α) :
    (∀ (sequence : Sequence α) (audioData : Option (AudioData α)),
      updateBaseParameters m e sequence currentTime audioData
        = sequence.transitions.foldl
            (fun e transition => applyTransition e transition currentTime sequence)
            (applyBeatSync
              (applyPatterns m
                { e with
                  baseParams := assign e.baseParams fun k => (sequence.parameters k).map some }
                sequence.patterns ((currentTime - sequence.time) / sequence.duration)
                currentTime)
              sequence.beatSync audioData))
    ∧ applyPatterns m e [] progress currentTime = e
    ∧ applyPatterns m e (earlier ++ [pattern]) progress currentTime
        = applyPattern m (applyPatterns m e earlier progress currentTime) pattern
            progress currentTime
    ∧ (patterns m (applyPatterns m e earlier progress currentTime) pattern.type = none →
        applyPatterns m e (earlier ++ [pattern]) progress currentTime
          = applyPatterns m e earlier progress currentTime)
    ∧ (∀ patternFunc,
        patterns m (applyPatterns m e earlier progress currentTime) pattern.type
          = some patternFunc →
        ∀ k, (applyPatterns m e (earlier ++ [pattern]) progress currentTime).baseParams k
          = match (patternFunc progress currentTime pattern.config).1 k with
            | some value => value
            | none => (applyPatterns m e earlier progress currentTime).baseParams k) := by
  have hsnoc : applyPatterns m e (earlier ++ [pattern]) progress currentTime
        = applyPattern m (applyPatterns m e earlier progress currentTime) pattern
            progress currentTime := by
    unfold applyPatterns
    rw [List.foldl_append]
    rfl
  refine ⟨fun _ _ => rfl, rfl, hsnoc, ?_, ?_⟩
  · intro hnone
    rw [hsnoc]
    unfold applyPattern
    rw [hnone]
  · intro patternFunc hsome k
    rw [hsnoc]
    unfold applyPattern
    rw [hsome]
    show assign _ _ k = _
    unfold assign
    rfl

/-- C21, witness: with the real `Math` functions, two `rotation_spin`
patterns of speeds `1` and `2` at progress `1/2` leave `rot4dXW` at the
second pattern's value `1/2 * π * 4 * 2`, and a pattern of the unknown type
`sparkle` after a `rotation_spin` changes nothing. -/
theorem C21_pattern_fold_witness :
    (applyPatterns (realMath fun _ => 0) (new : Engine ℝ) twoSpins (1 / 2) 5).baseParams
        "rot4dXW" = some (1 / 2 * Real.pi * 4 * 2)
    ∧ applyPatterns (realMath fun _ => 0) (new : Engine ℝ)
        ([{ type := "rotation_spin" }] ++ [{ type := "sparkle" }]) (1 / 2) 5
      = applyPatterns (realMath fun _ => 0) (new : Engine ℝ) [{ type := "rotation_spin" }]
          (1 / 2) 5 := by
  have h := C21_pattern_fold (realMath fun _ => 0) (new : Engine ℝ)
    [{ type := "rotation_spin" }]
    { type := "rotation_spin", config := { speed := some 2 } } (1 / 2) 5
  have h2 := C21_pattern_fold (realMath fun _ => 0) (new : Engine ℝ)
    [{ type := "rotation_spin" }] { type := "sparkle" } (1 / 2) 5
  refine ⟨?_, h2.2.2.2.1 (by simp [patterns])⟩
  have h3 := h.2.2.2.2
    (fun p t c => (createRotationSpin (realMath fun _ => 0)
      (applyPatterns (realMath fun _ => 0) (new : Engine ℝ) [{ type := "rotation_spin" }]
        (1 / 2) 5).baseParams p t c, 0))
    (by simp [patterns]) "rot4dXW"
  simp only [twoSpins]
  rw [show ([{ type := "rotation_spin" },
        { type := "rotation_spin", config := { speed := some 2 } }] : List (Pattern ℝ))
      = [{ type := "rotation_spin" }]
        ++ [{ type := "rotation_spin", config := { speed := some 2 } }] from rfl]
  rw [h3]
  simp [createRotationSpin, orDefault, realMath]

/-- C22: for every engine with beat counter `n`, every `beatSync` object and
every feature vector: when the object has a non-empty `hueSnap` palette `h`
and the onset is detected, `applyBeatSync` leaves `h[n mod length(h)]`, an
entry of the palette, as the base hue; when the onset is not detected, or no
feature vector is supplied, `applyBeatSync` leaves the engine, and so every
base parameter, as it was, whatever options the object holds. -/
theorem C22_hueSnap (e : Engine α) (beatSync : BeatSync α) (a : AudioData α) :
    (∀ h : List α, beatSync.hueSnap = some h → h ≠ [] → a.onsetDetected = true →
      ∃ hlt : e.beatCount % h.length < h.length,
        (applyBeatSync e beatSync (some a)).baseParams "hue"
          = some (h.get ⟨e.beatCount % h.length, hlt⟩))
    ∧ (a.onsetDetected = false → applyBeatSync e beatSync (some a) = e)
    ∧ applyBeatSync e beatSync none = e := by
  refine ⟨?_, applyBeatSync_quiet e beatSync a, rfl⟩
  intro h hh hne hon
  have hlt : e.beatCount % h.length < h.length :=
    Nat.mod_lt _ (List.length_pos.mpr hne)
  refine ⟨hlt, ?_⟩
  rw [applyBeatSync_hue e beatSync a h hh hon, List.get?_eq_get hlt]

/-- C22, witness: with the palette `[300, 330, 0, 30]` and beat counter `5`, a
frame with a detected onset sets the base hue to `330`, and a frame without
one leaves the engine as it is. -/
theorem C22_hueSnap_witness :
    (applyBeatSync { (new : Engine ℝ) with beatCount := 5 } paletteSync
        (some beatAudio)).baseParams "hue" = some 330
    ∧ applyBeatSync { (new : Engine ℝ) with beatCount := 5 } paletteSync (some silentAudio)
        = { (new : Engine ℝ) with beatCount := 5 } := by
  have h := C22_hueSnap { (new : Engine ℝ) with beatCount := 5 } paletteSync beatAudio
  have h2 := C22_hueSnap { (new : Engine ℝ) with beatCount := 5 } paletteSync silentAudio
  refine ⟨?_, h2.2.1 rfl⟩
  obtain ⟨hlt, hv⟩ := h.1 [300, 330, 0, 30] rfl (by simp) rfl
  rw [hv]
  rfl

/-- C23: one call of `update` adds exactly one to the beat counter when the
supplied feature vector has a detected onset and leaves the counter as it is
otherwise (also when no feature vector is supplied, and whether or not a
sequence is active); so a run of `update` calls adds the number of calls with
a detected onset, and on an engine that was constructed and loaded the
counter after the run is that number. -/
theorem C23_beat_counter (m : JSMath α) (e : Engine α) (currentTime : α)
    (audioData : Option (AudioData α)) (calls : List (α × Option (AudioData α)))
    (sequences : List (RawSequence α)) :
    (update m e currentTime audioData).1.beatCount
      = e.beatCount + (if onsetCall (currentTime, audioData) then 1 else 0)
    ∧ (updateAll m e calls).beatCount = e.beatCount + (calls.filter onsetCall).length
    ∧ (updateAll m (loadSequences new sequences) calls).beatCount
        = (calls.filter onsetCall).length := by
  have h1 := update_counters m e currentTime audioData
  have h2 := updateAll_counters m calls e
  have h3 := updateAll_counters m calls (loadSequences new sequences)
  simp only [counters, Prod.mk.injEq] at h1 h2 h3
  refine ⟨h1.2.1, h2.2.1, ?_⟩
  rw [h3.2.1]
  simp [loadSequences, new]

/-- C24 (as stated, refuted): the transition `{ at: 0, duration: 0,
parameters: { hue: 100 } }` of a sequence starting at `0` has the empty window
`0 ≤ t < 0 + 0` when its duration is read as the field's value, so `t = 1/4`
is outside it; yet `applyTransition` at `t = 1/4` moves the base hue from
`200` to `150`. -/
theorem C24_counterexample :
    ¬ ((1 / 4 : ℝ) ≥ (validateSequence chaosSequence).time
          + (instantTransition : Transition ℝ).atOffset
        ∧ (1 / 4 : ℝ) < (validateSequence chaosSequence).time
            + (instantTransition : Transition ℝ).atOffset
            + specTransitionDuration (instantTransition : Transition ℝ))
    ∧ (new : Engine ℝ).baseParams "hue" = some 200
    ∧ (applyTransition (new : Engine ℝ) instantTransition (1 / 4)
        (validateSequence chaosSequence)).baseParams "hue" = some 150 := by
  refine ⟨?_, ?_, ?_⟩
  · norm_num [validateSequence, chaosSequence, instantTransition, specTransitionDuration]
  · simp [new, defaultBaseParams]
  · simp [applyTransition, validateSequence, chaosSequence, instantTransition, orDefault, new,
      defaultBaseParams]
    norm_num
    exact ⟨200, by simp, by norm_num⟩

/-- C24 (amended): let `d` be the transition's `duration`, or `0.5` when the
field is omitted or is `0`, let `start = s + at` and `p = (t - start) / d`.
For `start ≤ t < start + d`: `d > 0` and `0 ≤ p < 1`; `applyTransition` leaves
every parameter that the transition does not name as it is and replaces each
named parameter holding a number `cur` by `cur + (target - cur) * p`, which
lies between `cur` and `target` and is `cur` at `t = start`.  For `t` outside
that window `applyTransition` leaves the engine as it is and makes no call of
`switchTo`. -/
theorem C24_transition (e : Engine α) (transition : Transition α) (t : α)
    (sequence : Sequence α) (activeSystem : Option String) :
    let start := sequence.time + transition.atOffset
    let d := orDefault transition.duration 0.5
    let p := (t - start) / d
    (d = if transition.duration = some 0 then 0.5 else specTransitionDuration transition)
    ∧ (t ≥ start ∧ t < start + d →
        0 < d ∧ 0 ≤ p ∧ p < 1
        ∧ (transition.parameters = none → applyTransition e transition t sequence = e)
        ∧ ∀ parameters, transition.parameters = some parameters → ∀ param,
            (parameters param = none →
              (applyTransition e transition t sequence).baseParams param = e.baseParams param)
            ∧ ∀ target cur, parameters param = some target → e.baseParams param = some cur →
              (applyTransition e transition t sequence).baseParams param
                = some (cur + (target - cur) * p)
              ∧ min cur target ≤ cur + (target - cur) * p
              ∧ cur + (target - cur) * p ≤ max cur target
              ∧ (t = start → cur + (target - cur) * p = cur))
    ∧ (¬ (t ≥ start ∧ t < start + d) →
        applyTransition e transition t sequence = e
        ∧ applyTransitionSwitch activeSystem transition t sequence = none) := by
  intro start d p
  refine ⟨?_, ?_, ?_⟩
  · show orDefault transition.duration 0.5 = _
    unfold orDefault specTransitionDuration
    cases hd : transition.duration with
    | none => simp
    | some v =>
      by_cases hv : v = 0
      · simp [hv]
      · simp [hv]
  · intro hw
    have hd : 0 < d := by linarith [hw.1, hw.2]
    have hp0 : 0 ≤ p := div_nonneg (by linarith [hw.1]) hd.le
    have hp1 : p < 1 := by
      rw [div_lt_one hd]
      linarith [hw.2]
    have hw2 : t ≥ sequence.time + transition.atOffset
        ∧ t < sequence.time + transition.atOffset + orDefault transition.duration 0.5 := hw
    refine ⟨hd, hp0, hp1, ?_, ?_⟩
    · intro hnone
      unfold applyTransition
      simp only [hnone]
      split <;> rfl
    · intro parameters hps param
      have hval : (applyTransition e transition t sequence).baseParams param
          = match parameters param with
            | some targetValue =>
              (e.baseParams param).map fun currentValue =>
                currentValue + (targetValue - currentValue) * p
            | none => e.baseParams param := by
        unfold applyTransition
        simp only [if_pos hw2, hps]
      rw [hval]
      refine ⟨fun hnone => by rw [hnone], ?_⟩
      intro target cur htarget hcur
      rw [htarget, hcur]
      refine ⟨rfl, (lerp_between cur target p hp0 hp1).1, (lerp_between cur target p hp0 hp1).2,
        ?_⟩
      intro hstart
      have hp : p = 0 := by
        show (t - start) / d = 0
        rw [hstart, sub_self, zero_div]
      rw [hp, mul_zero, add_zero]
  · intro hout
    have hout2 : ¬ (t ≥ sequence.time + transition.atOffset
        ∧ t < sequence.time + transition.atOffset + orDefault transition.duration 0.5) := hout
    constructor
    · unfold applyTransition
      simp only [if_neg hout2]
    · unfold applyTransitionSwitch
      simp only [if_neg hout2]

/-- C24 (amended), witness: the transition `{ at: 2, duration: 2, parameters:
{ hue: 100 } }` of a sequence starting at `0` moves the base hue `200` to
`150` at `t = 3`, half way through its window, and at `t = 5` leaves the
engine as it is and makes no call of `switchTo`. -/
theorem C24_transition_witness :
    (applyTransition (new : Engine ℝ) hueTransition 3
        (validateSequence chaosSequence)).baseParams "hue" = some 150
    ∧ applyTransition (new : Engine ℝ) hueTransition 5 (validateSequence chaosSequence) = new
    ∧ applyTransitionSwitch none (hueTransition : Transition ℝ) 5
        (validateSequence chaosSequence) = none := by
  have h3 := C24_transition (new : Engine ℝ) hueTransition 3 (validateSequence chaosSequence)
    none
  have h5 := C24_transition (new : Engine ℝ) hueTransition 5 (validateSequence chaosSequence)
    none
  have hin := h3.2.1
    (by norm_num [validateSequence, chaosSequence, hueTransition, orDefault])
  have hout := h5.2.2
    (by norm_num [validateSequence, chaosSequence, hueTransition, orDefault])
  refine ⟨?_, hout.1, hout.2⟩
  have hv := ((hin.2.2.2.2 _ rfl "hue").2 100 200 (by simp)
    (by simp [new, defaultBaseParams])).1
  rw [hv]
  norm_num [validateSequence, chaosSequence, hueTransition, orDefault]

/-- C27: `validateSequence` returns a record for every input record.  Each of
`time`, `duration`, `system`, `parameters`, `patterns`, `beatSync`,
`transitions` holds the input's value when the input has the field and the
default `0`, `10`, `'faceted'`, `{}`, `[]`, `{}`, `[]` when it has not; the
other keys of the input keep their values; a `time` or `duration` that is
present and `0` stays `0`; and validating a validated record returns it
unchanged. -/
theorem C27_validateSequence (seq : RawSequence α) :
    (validateSequence seq).time = seq.time.getD 0
    ∧ (validateSequence seq).duration = seq.duration.getD 10
    ∧ (validateSequence seq).system = seq.system.getD "faceted"
    ∧ (validateSequence seq).parameters = seq.parameters.getD (fun _ => none)
    ∧ (validateSequence seq).patterns = seq.patterns.getD []
    ∧ (validateSequence seq).beatSync = seq.beatSync.getD {}
    ∧ (validateSequence seq).transitions = seq.transitions.getD []
    ∧ (validateSequence seq).extra = seq.extra
    ∧ (validateSequence { seq with time := some 0, duration := some 0 }).time = 0
    ∧ (validateSequence { seq with time := some 0, duration := some 0 }).duration = 0
    ∧ validateSequence (validateSequence seq).toRaw = validateSequence seq := by
  refine ⟨?_, ?_, rfl, rfl, rfl, rfl, rfl, rfl, rfl, rfl, rfl⟩
  · unfold validateSequence
    cases seq.time <;> simp [orDefault]
  · unfold validateSequence
    cases seq.duration <;> simp [orDefault]

/-- C29: when `findActiveSequence(t)` returns a sequence, that sequence's
duration is positive and the progress `(t - time) / duration` that
`updateBaseParameters` computes for it is at least `0` and below `1`; a
sequence of the list whose duration is `0` or negative is returned at no
time. -/
theorem C29_progress_range (e : Engine α) (t : α) (s : Sequence α)
    (h : findActiveSequence e t = some s) :
    0 < s.duration
    ∧ 0 ≤ (t - s.time) / s.duration ∧ (t - s.time) / s.duration < 1
    ∧ ∀ x ∈ e.sequences, x.duration ≤ 0 → ∀ time, findActiveSequence e time ≠ some x := by
  obtain ⟨-, h1, h2⟩ := findActiveSequence_some e t s h
  have hd : 0 < s.duration := by linarith
  refine ⟨hd, div_nonneg (by linarith) hd.le, ?_, ?_⟩
  · rw [div_lt_one hd]
    linarith
  · intro x _ hx time hf
    obtain ⟨-, h3, h4⟩ := findActiveSequence_some e time x hf
    linarith

/-- C29, witness: the sequence `{ time: 0, duration: 10, ... }` is active at
time `5`; its duration is positive and the progress `(5 - 0) / 10` is in
`[0, 1)`. -/
theorem C29_progress_range_witness :
    (0 : ℝ) < (validateSequence (chaosSequence : RawSequence ℝ)).duration
    ∧ (0 : ℝ) ≤ (5 - (validateSequence (chaosSequence : RawSequence ℝ)).time)
        / (validateSequence (chaosSequence : RawSequence ℝ)).duration
    ∧ (5 - (validateSequence (chaosSequence : RawSequence ℝ)).time)
        / (validateSequence (chaosSequence : RawSequence ℝ)).duration < 1 := by
  have h := C29_progress_range (loadSequences new [chaosSequence] : Engine ℝ) 5
    (validateSequence chaosSequence)
    (by simp [findActiveSequence, loadSequences, new, validateSequence, chaosSequence]
        norm_num)
  exact ⟨h.1, h.2.1, h.2.2.1⟩

/-- C30: take an engine with beat counter `0` and measure length `4` (as after
construction), any run of earlier `update` calls, and a further `update` call
with a detected onset, the `k`-th such call, at a time where a sequence with
a non-empty `hueSnap` palette `h` is active, none of whose transitions names
`hue` or `geometry`.  The beat counter is `k - 1` when the call begins and
`k` when it ends, and the beat-sync step sees `k - 1`: the base hue after the
call is `h[(k - 1) mod length(h)]`, which is `h[0]` for the first detected
onset, and with `geometryMeasures = g` the base geometry after the call is
`g[((k - 1) / 4) mod length(g)]` when `(k - 1) mod 4 = 0` (onsets 1, 5, 9,
...) and otherwise the geometry that the pattern step left. -/
theorem C30_beat_sync_before_count (m : JSMath α) (e : Engine α)
    (earlier : List (α × Option (AudioData α))) (t : α) (a : AudioData α)
    (s : Sequence α) (h : List α)
    (hcount : e.beatCount = 0) (hmeasure : e.beatsPerMeasure = 4)
    (hon : a.onsetDetected = true)
    (hact : findActiveSequence e t = some s)
    (hh : s.beatSync.hueSnap = some h) (hne : h ≠ [])
    (htr : ∀ tr ∈ s.transitions, ∀ ps, tr.parameters = some ps →
      ps "hue" = none ∧ ps "geometry" = none) :
    let k := (earlier.filter onsetCall).length + 1
    let before := updateAll m e earlier
    let staged := applyPatterns m
      { before with
        playbackTime := t
        currentSequence := some s
        baseParams := assign before.baseParams fun k => (s.parameters k).map some }
      s.patterns ((t - s.time) / s.duration) t
    let after := (update m before t (some a)).1
    before.beatCount = k - 1
    ∧ after.beatCount = k
    ∧ (∃ hlt : (k - 1) % h.length < h.length,
        after.baseParams "hue" = some (h.get ⟨(k - 1) % h.length, hlt⟩))
    ∧ (earlier.filter onsetCall = [] → after.baseParams "hue" = h.head?)
    ∧ ∀ g : List α, s.beatSync.geometryMeasures = some g →
        after.baseParams "geometry"
          = if (k - 1) % 4 = 0 then g.get? (((k - 1) / 4) % g.length)
            else staged.baseParams "geometry" := by
  intro k before staged after
  have hb := updateAll_counters m earlier e
  simp only [counters, Prod.mk.injEq] at hb
  obtain ⟨hbs, hbc, hbm⟩ := hb
  have hbefore : before.beatCount = k - 1 := by
    show (updateAll m e earlier).beatCount = _
    rw [hbc, hcount]
    simp [k]
  have hact2 : findActiveSequence before t = some s := by
    unfold findActiveSequence
    show List.find? _ (updateAll m e earlier).sequences = _
    rw [hbs]
    exact hact
  have hafter := update_counters m before t (some a)
  simp only [counters, Prod.mk.injEq] at hafter
  have hsc := applyPatterns_counters m
      { before with
        playbackTime := t
        currentSequence := some s
        baseParams := assign before.baseParams fun k => (s.parameters k).map some }
      s.patterns ((t - s.time) / s.duration) t
  simp only [counters, Prod.mk.injEq] at hsc
  have hstc : staged.beatCount = k - 1 := hsc.2.1.trans hbefore
  have hstm : staged.beatsPerMeasure = 4 := by
    refine hsc.2.2.trans ?_
    show (updateAll m e earlier).beatsPerMeasure = 4
    rw [hbm, hmeasure]
  have hbase : ∀ key, key = "hue" ∨ key = "geometry" →
      after.baseParams key = (applyBeatSync staged s.beatSync (some a)).baseParams key := by
    intro key hkey
    apply update_staged m before t (some a) s key hact2
    intro tr htr1 ps hps
    rcases hkey with rfl | rfl
    · exact (htr tr htr1 ps hps).1
    · exact (htr tr htr1 ps hps).2
  have hlt : (k - 1) % h.length < h.length := Nat.mod_lt _ (List.length_pos.mpr hne)
  have hhue : after.baseParams "hue" = h.get? ((k - 1) % h.length) := by
    rw [hbase "hue" (Or.inl rfl), applyBeatSync_hue staged s.beatSync a h hh hon, hstc]
  refine ⟨hbefore, ?_, ⟨hlt, ?_⟩, ?_, ?_⟩
  · rw [hafter.2.1, hbefore]
    simp [onsetCall, hon, k]
  · rw [hhue, List.get?_eq_get hlt]
  · intro hnone
    rw [hhue]
    have hk : k - 1 = 0 := by simp [k, hnone]
    rw [hk, Nat.zero_mod]
    cases h with
    | nil => rfl
    | cons x xs => rfl
  · intro g hg
    rw [hbase "geometry" (Or.inr rfl), applyBeatSync_geometry staged s.beatSync a g hg hon,
      hstc, hstm]
    simp

/-- C30, witness: a fresh engine loaded with the sequence `{ time: 0,
duration: 10, beatSync: { hueSnap: [300, 330, 0, 30], geometryMeasures: [1,
2] } }`: the second update with a detected onset sets the base hue to `330`,
the second palette entry, and the first one sets the base geometry to `1`. -/
theorem C30_beat_sync_before_count_witness :
    (update (realMath fun _ => 0)
        (updateAll (realMath fun _ => 0) (loadSequences new [paletteSequence] : Engine ℝ)
          [(1, some beatAudio)]) 2 (some beatAudio)).1.baseParams "hue" = some 330
    ∧ (update (realMath fun _ => 0)
        (updateAll (realMath fun _ => 0) (loadSequences new [paletteSequence] : Engine ℝ) [])
        1 (some beatAudio)).1.baseParams "geometry" = some 1 := by
  have h2 := C30_beat_sync_before_count (realMath fun _ => 0)
    (loadSequences new [paletteSequence] : Engine ℝ) [(1, some beatAudio)] 2 beatAudio
    (validateSequence paletteSequence) [300, 330, 0, 30] rfl rfl rfl
    (by simp [findActiveSequence, loadSequences, new, validateSequence, paletteSequence]
        norm_num)
    rfl (by simp) (by simp [validateSequence, paletteSequence])
  have h1 := C30_beat_sync_before_count (realMath fun _ => 0)
    (loadSequences new [paletteSequence] : Engine ℝ) [] 1 beatAudio
    (validateSequence paletteSequence) [300, 330, 0, 30] rfl rfl rfl
    (by simp [findActiveSequence, loadSequences, new, validateSequence, paletteSequence])
    rfl (by simp) (by simp [validateSequence, paletteSequence])
  constructor
  · obtain ⟨hlt, hv⟩ := h2.2.2.1
    rw [hv]
    rfl
  · have hg := h1.2.2.2.2 [1, 2] rfl
    rw [hg]
    rfl

end ChoreographyClaims

end ChoreographyEngine

namespace ParameterMapper

section RetriggerClaims

variable {α : Type} [LinearOrderedField α] [FloorRing α]

/-- An envelope with a positive attack time that is triggered and updated at
the same clock reading returns the value it had before the trigger and keeps
it, in the attack phase. -/
theorem trigger_update_same (m : JSMath α) (env : ADSREnvelope.Envelope α) (v now later : α)
    (ha : 0 < env.attack) :
    (ADSREnvelope.update m (ADSREnvelope.trigger env v now) now later).2 = env.value
    ∧ (ADSREnvelope.update m (ADSREnvelope.trigger env v now) now later).1.value = env.value
    ∧ (ADSREnvelope.update m (ADSREnvelope.trigger env v now) now later).1.phase
        = ADSREnvelope.Phase.attack
    ∧ (ADSREnvelope.update m (ADSREnvelope.trigger env v now) now later).1.phaseStartTime = now
    ∧ (ADSREnvelope.update m (ADSREnvelope.trigger env v now) now later).1.targetValue = v
    ∧ (ADSREnvelope.update m (ADSREnvelope.trigger env v now) now later).1.attack
        = env.attack := by
  have hne : env.attack ≠ 0 := ne_of_gt ha
  have hmin : min (1 : α) (0 / env.attack) = 0 := by
    rw [zero_div]
    exact min_eq_right zero_le_one
  simp only [ADSREnvelope.update, ADSREnvelope.trigger, ADSREnvelope.updateAttack, if_neg hne,
    sub_self, hmin, ge_iff_le, if_neg (not_le.mpr (zero_lt_one : (0 : α) < 1)), mul_zero,
    add_zero, and_self]

/-- Every envelope of the constructor's table starts at value `0`. -/
theorem defaultMappings_value (name : String) (mapping : Mapping α)
    (env : ADSREnvelope.Envelope α) (hm : defaultMappings name = some mapping)
    (he : mapping.envelope = some env) : env.value = 0 := by
  unfold defaultMappings at hm
  repeat
    obtain ⟨-, e⟩ | ⟨-, hm⟩ := ChoreographyEngine.ite_some_cases hm
    · subst e
      simp only [Option.some.injEq] at he
      first
        | (subst he; rfl)
        | exact absurd he (by simp)
  exact absurd hm (by simp)

/-- C28: for every mapping whose envelope has a positive attack time, when the
clock reading of the trigger and of the update that follows it agree and the
user supplies no value for the parameter, `map` returns for the parameter the
value the envelope held before the call, whatever the feature vector; the
call re-triggers the envelope (afterwards it is in the attack phase, started
at that reading) and leaves its value and attack time as they were, so the
same holds for the next call; and a mapper that was just constructed returns
`0` for the parameter. -/
theorem C28_retrigger (m : JSMath α) (mapper : Mapper α) (audioData : AudioData α)
    (userParameters : String → Option α) (clock : String → Readings α) (name : String)
    (mapping : Mapping α) (env : ADSREnvelope.Envelope α)
    (hm : mapper.mappings name = some mapping) (he : mapping.envelope = some env)
    (ha : 0 < env.attack) (hclock : (clock name).triggerNow = (clock name).updateNow)
    (hu : userParameters name = none) :
    (map m mapper audioData userParameters clock).2 name = some env.value
    ∧ (∃ mapping2 env2,
        (map m mapper audioData userParameters clock).1.mappings name = some mapping2
        ∧ mapping2.envelope = some env2
        ∧ env2.phase = ADSREnvelope.Phase.attack
        ∧ env2.phaseStartTime = (clock name).triggerNow
        ∧ env2.value = env.value
        ∧ env2.attack = env.attack)
    ∧ (mapper = new → (map m mapper audioData userParameters clock).2 name = some 0) := by
  have hval : (map m mapper audioData userParameters clock).2 name = some env.value := by
    rw [map_apply m mapper audioData userParameters clock name mapping hm]
    simp only [mapEntryFrom, he, hu, ← hclock]
    rw [(trigger_update_same m env _ _ _ ha).1]
  refine ⟨hval, ?_, ?_⟩
  · have h := trigger_update_same m env
      (mapToRange
        (applyCurve m (getSourceValue audioData mapping.source) mapping.curve
          mapping.threshold * mapping.scale)
        mapping.range.1 mapping.range.2 mapping.baseValue)
      (clock name).triggerNow (clock name).updateLater ha
    refine ⟨(mapEntry m mapping audioData (userParameters name) (clock name)).1, _, ?_, ?_,
      h.2.2.1, h.2.2.2.1, h.2.1, h.2.2.2.2.2⟩
    · simp only [map, hm, Option.map_some']
    · simp only [mapEntry, mapEntryFrom, he, hu, ← hclock]
  · intro hnew
    rw [hval]
    rw [hnew] at hm
    rw [defaultMappings_value name mapping env hm he]

/-- C28, witness: a mapper that was just constructed, on a clock whose
readings are all `0` and without user values, returns `0` for `speed`, whose
envelope is the `smooth` preset with attack time `200`. -/
theorem C28_retrigger_witness :
    (map (realMath fun _ => 0) (new : Mapper ℝ) silentFeatures (fun _ => none) zeroClock).2
        "speed" = some 0 := by
  have h := C28_retrigger (realMath fun _ => 0) (new : Mapper ℝ) silentFeatures
    (fun _ => none) zeroClock "speed"
    { source := "rms", curve := "logarithmic", range := (0.3, 2.5), baseValue := 1.0,
      scale := 1.0, envelope := some ADSRPresets.smooth }
    ADSRPresets.smooth (by simp [new, defaultMappings]) rfl
    (by norm_num [ADSRPresets.smooth, ADSREnvelope.new]) rfl rfl
  exact h.2.2 rfl

end RetriggerClaims

end ParameterMapper

namespace AdvancedAudioAnalyzer

section AdvancedClaims

variable {α : Type} [LinearOrderedField α] [FloorRing α]

/-- The method `analyzeFrequencyBalance` on seven band values that are
numbers. -/
theorem analyzeFrequencyBalance_eq (a : AdvancedAnalyzer α) (v : String → α)
    (hv : ∀ name ∈ bandNames, bandValue a name = some (v name)) :
    analyzeFrequencyBalance a
      = if v "subBass" + v "bass" + (v "lowMid" + v "mid" + v "highMid")
            + (v "high" + v "air") > 0 then
          { a with
            bassBalance := (v "subBass" + v "bass")
              / (v "subBass" + v "bass" + (v "lowMid" + v "mid" + v "highMid")
                  + (v "high" + v "air"))
            midBalance := (v "lowMid" + v "mid" + v "highMid")
              / (v "subBass" + v "bass" + (v "lowMid" + v "mid" + v "highMid")
                  + (v "high" + v "air"))
            highBalance := (v "high" + v "air")
              / (v "subBass" + v "bass" + (v "lowMid" + v "mid" + v "highMid")
                  + (v "high" + v "air")) }
        else { a with bassBalance := 0.33, midBalance := 0.33, highBalance := 0.33 } := by
  unfold analyzeFrequencyBalance
  rw [hv "subBass" (by simp [bandNames]), hv "bass" (by simp [bandNames]),
    hv "lowMid" (by simp [bandNames]), hv "mid" (by simp [bandNames]),
    hv "highMid" (by simp [bandNames]), hv "high" (by simp [bandNames]),
    hv "air" (by simp [bandNames])]
  rfl

/-- The direction that `analyzeMelodicContour` leaves behind, read off the
history it leaves behind. -/
theorem analyzeMelodicContour_fields (a : AdvancedAnalyzer α) :
    (analyzeMelodicContour a).melodicDirection
      = if (analyzeMelodicContour a).pitchHistory.length < 4 then 0
        else max (-1) (min 1
          ((((analyzeMelodicContour a).pitchHistory.drop
                ((analyzeMelodicContour a).pitchHistory.length - 4)).getD 3 0
            - ((analyzeMelodicContour a).pitchHistory.drop
                ((analyzeMelodicContour a).pitchHistory.length - 4)).getD 0 0) / 3 * 10)) := by
  unfold analyzeMelodicContour
  simp only []
  generalize (if (a.pitchHistory ++ [a.spectralCentroid]).length > a.maxPitchHistory then
      (a.pitchHistory ++ [a.spectralCentroid]).tail
    else a.pitchHistory ++ [a.spectralCentroid]) = history
  by_cases h : history.length < 4
  · simp only [if_pos h]
  · simp only [if_neg h]

/-- The history that `analyzeMelodicContour` leaves behind: the spectral
centroid is pushed and the oldest entry dropped when the bound is exceeded. -/
theorem analyzeMelodicContour_history (a : AdvancedAnalyzer α) :
    (analyzeMelodicContour a).pitchHistory
      = if (a.pitchHistory ++ [a.spectralCentroid]).length > a.maxPitchHistory then
          (a.pitchHistory ++ [a.spectralCentroid]).tail
        else a.pitchHistory ++ [a.spectralCentroid] := by
  unfold analyzeMelodicContour
  simp only []
  generalize (if (a.pitchHistory ++ [a.spectralCentroid]).length > a.maxPitchHistory then
      (a.pitchHistory ++ [a.spectralCentroid]).tail
    else a.pitchHistory ++ [a.spectralCentroid]) = history
  by_cases h : history.length < 4
  · simp only [if_pos h]
  · simp only [if_neg h]

/-- The clamp of a scaled slope to `[-1, 1]` has the sign of the slope. -/
theorem clamp_sign (x : α) :
    -1 ≤ max (-1) (min 1 (x * 10)) ∧ max (-1) (min 1 (x * 10)) ≤ 1
    ∧ (0 < max (-1) (min 1 (x * 10)) ↔ 0 < x)
    ∧ (max (-1) (min 1 (x * 10)) < 0 ↔ x < 0)
    ∧ (max (-1) (min 1 (x * 10)) = 0 ↔ x = 0) := by
  refine ⟨le_max_left _ _, max_le (by norm_num) (min_le_left _ _), ?_, ?_, ?_⟩
  · rw [lt_max_iff, lt_min_iff]
    constructor
    · rintro (h | ⟨-, h⟩)
      · exact absurd h (by norm_num)
      · linarith
    · intro h
      exact Or.inr ⟨one_pos, by linarith⟩
  · rw [max_lt_iff, min_lt_iff]
    constructor
    · rintro ⟨-, h | h⟩
      · exact absurd h (by norm_num)
      · linarith
    · intro h
      exact ⟨by norm_num, Or.inr (by linarith)⟩
  · constructor
    · intro h
      rcases lt_trichotomy x 0 with hx | hx | hx
      · have : max (-1) (min 1 (x * 10)) < 0 := by
          rw [max_lt_iff, min_lt_iff]
          exact ⟨by norm_num, Or.inr (by linarith)⟩
        linarith
      · exact hx
      · have : 0 < max (-1) (min 1 (x * 10)) := by
          rw [lt_max_iff, lt_min_iff]
          exact Or.inr ⟨one_pos, by linarith⟩
        linarith
    · intro h
      rw [h, zero_mul, min_eq_right (zero_le_one), max_eq_right (by norm_num)]

/-- C25 (as stated, refuted): on an analyzer that was just constructed, whose
seven band values are all `0`, `analyzeFrequencyBalance` leaves a bass balance
that is not `1/3`, and the three balances do not add up to `1`. -/
theorem C25_counterexample :
    (∀ name ∈ bandNames, bandValue (new 44100 2048 1024 : AdvancedAnalyzer ℝ) name = some 0)
    ∧ (analyzeFrequencyBalance (new 44100 2048 1024 : AdvancedAnalyzer ℝ)).bassBalance ≠ 1 / 3
    ∧ (analyzeFrequencyBalance (new 44100 2048 1024 : AdvancedAnalyzer ℝ)).bassBalance
        + (analyzeFrequencyBalance (new 44100 2048 1024 : AdvancedAnalyzer ℝ)).midBalance
        + (analyzeFrequencyBalance (new 44100 2048 1024 : AdvancedAnalyzer ℝ)).highBalance
        ≠ 1 := by
  have hb : ∀ name ∈ bandNames,
      bandValue (new 44100 2048 1024 : AdvancedAnalyzer ℝ) name = some 0 := by
    intro name hname
    simp only [bandNames, List.mem_cons, List.mem_singleton, List.not_mem_nil, or_false] at hname
    rcases hname with rfl | rfl | rfl | rfl | rfl | rfl | rfl <;>
      simp [bandValue, new, AudioAnalyzer.new, AudioAnalyzer.defaultBands]
  have h : analyzeFrequencyBalance (new 44100 2048 1024 : AdvancedAnalyzer ℝ)
      = { (new 44100 2048 1024 : AdvancedAnalyzer ℝ) with
          bassBalance := 0.33, midBalance := 0.33, highBalance := 0.33 } := by
    unfold analyzeFrequencyBalance
    simp [hb, bandNames]
  refine ⟨hb, ?_, ?_⟩
  · rw [h]
    norm_num
  · rw [h]
    norm_num

/-- C25 (amended): for seven smoothed band values that are non-negative
numbers, with `bass = subBass + bass`, `mid = lowMid + mid + highMid`, `high =
high + air` and `total` their sum, either `total > 0` or all seven values are
`0`.  When `total > 0`, `analyzeFrequencyBalance` leaves the balances `bass /
total`, `mid / total`, `high / total`, which add up to `1`.  When all seven
values are `0` it leaves each balance at `0.33`, and they add up to `0.99`. -/
theorem C25_frequency_balance (a : AdvancedAnalyzer α) (v : String → α)
    (hv : ∀ name ∈ bandNames, bandValue a name = some (v name) ∧ 0 ≤ v name) :
    let bassEnergy := v "subBass" + v "bass"
    let midEnergy := v "lowMid" + v "mid" + v "highMid"
    let highEnergy := v "high" + v "air"
    let total := bassEnergy + midEnergy + highEnergy
    let after := analyzeFrequencyBalance a
    (0 < total ∨ ∀ name ∈ bandNames, v name = 0)
    ∧ (0 < total →
        after.bassBalance = bassEnergy / total
        ∧ after.midBalance = midEnergy / total
        ∧ after.highBalance = highEnergy / total
        ∧ after.bassBalance + after.midBalance + after.highBalance = 1)
    ∧ ((∀ name ∈ bandNames, v name = 0) →
        after.bassBalance = 0.33 ∧ after.midBalance = 0.33 ∧ after.highBalance = 0.33
        ∧ after.bassBalance + after.midBalance + after.highBalance = 0.99) := by
  intro bassEnergy midEnergy highEnergy total after
  have heq := analyzeFrequencyBalance_eq a v (fun name hname => (hv name hname).1)
  have h1 := (hv "subBass" (by simp [bandNames])).2
  have h2 := (hv "bass" (by simp [bandNames])).2
  have h3 := (hv "lowMid" (by simp [bandNames])).2
  have h4 := (hv "mid" (by simp [bandNames])).2
  have h5 := (hv "highMid" (by simp [bandNames])).2
  have h6 := (hv "high" (by simp [bandNames])).2
  have h7 := (hv "air" (by simp [bandNames])).2
  refine ⟨?_, ?_, ?_⟩
  · by_cases ht : 0 < total
    · exact Or.inl ht
    · right
      have hle : v "subBass" + v "bass" + (v "lowMid" + v "mid" + v "highMid")
          + (v "high" + v "air") ≤ 0 := not_lt.mp ht
      intro name hname
      simp only [bandNames, List.mem_cons, List.mem_singleton, List.not_mem_nil, or_false]
        at hname
      rcases hname with rfl | rfl | rfl | rfl | rfl | rfl | rfl <;> linarith
  · intro ht
    have ht2 : v "subBass" + v "bass" + (v "lowMid" + v "mid" + v "highMid")
        + (v "high" + v "air") > 0 := ht
    have hafter : after = _ := heq
    rw [if_pos ht2] at hafter
    rw [hafter]
    refine ⟨rfl, rfl, rfl, ?_⟩
    show bassEnergy / total + midEnergy / total + highEnergy / total = 1
    rw [← add_div, ← add_div]
    exact div_self (ne_of_gt ht)
  · intro hz
    have ht2 : ¬ (v "subBass" + v "bass" + (v "lowMid" + v "mid" + v "highMid")
        + (v "high" + v "air") > 0) := by
      rw [hz "subBass" (by simp [bandNames]), hz "bass" (by simp [bandNames]),
        hz "lowMid" (by simp [bandNames]), hz "mid" (by simp [bandNames]),
        hz "highMid" (by simp [bandNames]), hz "high" (by simp [bandNames]),
        hz "air" (by simp [bandNames])]
      norm_num
    have hafter : after = _ := heq
    rw [if_neg ht2] at hafter
    rw [hafter]
    refine ⟨rfl, rfl, rfl, ?_⟩
    show (0.33 : α) + 0.33 + 0.33 = 0.99
    norm_num

/-- C25 (amended), witness: with all seven band values at `1` the bass balance
is `2/7` and the three balances add up to `1`. -/
theorem C25_frequency_balance_witness :
    (analyzeFrequencyBalance (evenBands : AdvancedAnalyzer ℝ)).bassBalance = 2 / 7
    ∧ (analyzeFrequencyBalance (evenBands : AdvancedAnalyzer ℝ)).bassBalance
        + (analyzeFrequencyBalance (evenBands : AdvancedAnalyzer ℝ)).midBalance
        + (analyzeFrequencyBalance (evenBands : AdvancedAnalyzer ℝ)).highBalance = 1 := by
  have h := C25_frequency_balance (evenBands : AdvancedAnalyzer ℝ) (fun _ => 1)
    (by
      intro name hname
      simp only [bandNames, List.mem_cons, List.mem_singleton, List.not_mem_nil, or_false]
        at hname
      rcases hname with rfl | rfl | rfl | rfl | rfl | rfl | rfl <;>
        simp [bandValue, evenBands, AudioAnalyzer.defaultBands])
  have h2 := h.2.1 (by norm_num)
  refine ⟨?_, h2.2.2.2⟩
  rw [h2.1]
  norm_num

/-- C26 (as stated, refuted): with the pitch history `[0, 0, 0]` and the
spectral centroid `0.03`, `analyzeMelodicContour` leaves the history `[0, 0,
0, 0.03]` and the melodic direction `0.1`, which is none of `-1`, `0`, `1`. -/
theorem C26_counterexample :
    (analyzeMelodicContour (gentleRise : AdvancedAnalyzer ℝ)).pitchHistory = [0, 0, 0, 0.03]
    ∧ (analyzeMelodicContour (gentleRise : AdvancedAnalyzer ℝ)).melodicDirection = 0.1
    ∧ (analyzeMelodicContour (gentleRise : AdvancedAnalyzer ℝ)).melodicDirection ≠ -1
    ∧ (analyzeMelodicContour (gentleRise : AdvancedAnalyzer ℝ)).melodicDirection ≠ 0
    ∧ (analyzeMelodicContour (gentleRise : AdvancedAnalyzer ℝ)).melodicDirection ≠ 1 := by
  have h : (analyzeMelodicContour (gentleRise : AdvancedAnalyzer ℝ)).melodicDirection
      = 0.1 := by
    simp [analyzeMelodicContour, gentleRise, new, AudioAnalyzer.new]
    norm_num
  refine ⟨?_, h, ?_, ?_, ?_⟩
  · simp [analyzeMelodicContour, gentleRise, new, AudioAnalyzer.new]
  · rw [h]; norm_num
  · rw [h]; norm_num
  · rw [h]; norm_num

/-- C26 (amended): `analyzeMelodicContour` pushes the spectral centroid onto
the pitch history and drops the oldest entry when the bound is exceeded.
While the history has fewer than four entries the melodic direction is `0`.
When the history ends in `r0, r1, r2, r3`, the direction is the slope `(r3 -
r0) / 3` times `10`, clamped to `[-1, 1]`: a number between `-1` and `1` that
is positive, negative or zero exactly when the slope is. -/
theorem C26_melodic_direction (a : AdvancedAnalyzer α) :
    let after := analyzeMelodicContour a
    (after.pitchHistory
      = if (a.pitchHistory ++ [a.spectralCentroid]).length > a.maxPitchHistory then
          (a.pitchHistory ++ [a.spectralCentroid]).tail
        else a.pitchHistory ++ [a.spectralCentroid])
    ∧ (after.pitchHistory.length < 4 → after.melodicDirection = 0)
    ∧ ∀ older r0 r1 r2 r3, after.pitchHistory = older ++ [r0, r1, r2, r3] →
        after.melodicDirection = max (-1) (min 1 ((r3 - r0) / 3 * 10))
        ∧ -1 ≤ after.melodicDirection ∧ after.melodicDirection ≤ 1
        ∧ (0 < after.melodicDirection ↔ r0 < r3)
        ∧ (after.melodicDirection < 0 ↔ r3 < r0)
        ∧ (after.melodicDirection = 0 ↔ r3 = r0) := by
  intro after
  have hdir := analyzeMelodicContour_fields a
  refine ⟨analyzeMelodicContour_history a, ?_, ?_⟩
  · intro hlen
    rw [hdir, if_pos hlen]
  · intro older r0 r1 r2 r3 hsplit
    have hsplit2 : (analyzeMelodicContour a).pitchHistory = older ++ [r0, r1, r2, r3] := hsplit
    have hval : after.melodicDirection = max (-1) (min 1 ((r3 - r0) / 3 * 10)) := by
      rw [hdir, hsplit2]
      have hlen : ¬ (older ++ [r0, r1, r2, r3]).length < 4 := by simp
      have hdrop : (older ++ [r0, r1, r2, r3]).drop ((older ++ [r0, r1, r2, r3]).length - 4)
          = [r0, r1, r2, r3] := by simp
      rw [if_neg hlen, hdrop]
      rfl
    have hs := clamp_sign ((r3 - r0) / 3)
    rw [hval]
    refine ⟨rfl, hs.1, hs.2.1, hs.2.2.1.trans ?_, hs.2.2.2.1.trans ?_, hs.2.2.2.2.trans ?_⟩
    · constructor
      · intro h
        have := (div_pos_iff_of_pos_right (by norm_num : (0 : α) < 3)).mp h
        linarith
      · intro h
        exact div_pos (by linarith) (by norm_num)
    · constructor
      · intro h
        have := (div_neg_iff.mp h)
        rcases this with ⟨h1, h2⟩ | ⟨h1, h2⟩
        · exact absurd h2 (by norm_num)
        · linarith
      · intro h
        exact div_neg_of_neg_of_pos (by linarith) (by norm_num)
    · constructor
      · intro h
        have := (div_eq_zero_iff.mp h)
        rcases this with h1 | h1
        · linarith
        · exact absurd h1 (by norm_num)
      · intro h
        rw [h, sub_self, zero_div]

/-- C26 (amended), witness: on an analyzer that was just constructed the first
call leaves the direction `0`; with the history `[0, 0, 0]` and the centroid
`0.03` the direction is positive and at most `1`. -/
theorem C26_melodic_direction_witness :
    (analyzeMelodicContour (new 44100 2048 1024 : AdvancedAnalyzer ℝ)).melodicDirection = 0
    ∧ (0 < (analyzeMelodicContour (gentleRise : AdvancedAnalyzer ℝ)).melodicDirection
        ∧ (analyzeMelodicContour (gentleRise : AdvancedAnalyzer ℝ)).melodicDirection ≤ 1) := by
  have h0 := (C26_melodic_direction (new 44100 2048 1024 : AdvancedAnalyzer ℝ)).2.1
    (by simp [analyzeMelodicContour, new, AudioAnalyzer.new])
  have h1 := (C26_melodic_direction (gentleRise : AdvancedAnalyzer ℝ)).2.2 [] 0 0 0 0.03
    (by simp [analyzeMelodicContour, gentleRise, new, AudioAnalyzer.new])
  exact ⟨h0, h1.2.2.2.1.mpr (by norm_num), h1.2.2.1⟩

end AdvancedClaims

end AdvancedAudioAnalyzer

end VIB34D
